import Mathlib

/-! Optional.h: a nullable value container over inline storage.

A shallow embedding of `src/Optional.h`.  Containers live at addresses of a
world; every member function of `Optional<T>` is a state transformer on that
world which either returns or raises.  The element type `T` is a parameter: its
copy/move constructors and assignment operators are supplied as a `TOps T`, and
every completed special member function of `T` is recorded in the world's log,
which plays the part of an instrumented element type.
-/

namespace Opt

/-- Address of a container object. A reference to the `T` held by a container is
the address of that container, because the storage `data_` is inline. -/
abbrev Addr := Nat

/-- Ways in which a call can fail to return normally. -/
inductive Fault where
  /-- The exception `BadOptionalAccess`, thrown by `Value()`. -/
  | BadOptionalAccess
  /-- An exception thrown by a constructor or assignment operator of `T`. -/
  | TException
  /-- Undefined behaviour: a null `ptr_` is dereferenced, or storage holding no
  live `T` is used as a `T`. -/
  | Undefined
deriving DecidableEq, Repr

/-- Special member functions of `T` that ran to completion. -/
inductive Event where
  | copyCtor
  | moveCtor
  | copyAssign
  | moveAssign
  | dtor
deriving DecidableEq, Repr

/-- The special member functions of the element type `T`, acting on values.
* `copyCtor s`: `T(const T&)`; `none` when it throws.
* `moveCtor s`: `T(T&&)`; the new object (`none` when it throws) and the state
  left in the source.
* `copyAssign d s`: `d = s` for distinct objects; whether it completed, and the
  state of `d` afterwards.
* `moveAssign d s`: `d = std::move(s)` for distinct objects; whether it
  completed, the state of `d` and the state left in `s`.
* `copyAssignSelf x`, `moveAssignSelf x`: the same operators called with both
  operands the same object. -/
structure TOps (T : Type) where
  copyCtor : T → Option T
  moveCtor : T → Option T × T
  copyAssign : T → T → Bool × T
  moveAssign : T → T → Bool × T × T
  copyAssignSelf : T → Bool × T
  moveAssignSelf : T → Bool × T

/-- The data members of `Optional<T>` (lines 47-49).
* `data_`: the raw storage `alignas(T) char data_[sizeof(T)]`; `some v` when a
  live `T` of value `v` sits in it, `none` when it holds no live object.
* `ptr_`: `none` is `nullptr`, `some a` points at the storage of the container
  at address `a`.
* `is_initialized_`: the engaged flag. -/
structure Optional (T : Type) where
  data_ : Option T
  ptr_ : Option Addr
  is_initialized_ : Bool
deriving DecidableEq, Repr

/-- The containers in memory and the log of completed `T` member functions. -/
structure World (T : Type) where
  mem : Addr → Optional T
  log : List Event

/-- A computation on the world: it returns a value or a fault, and the world
reached; after a fault the world is the one at the point of failure. -/
def M (T : Type) (α : Type) : Type := World T → Except Fault α × World T

namespace M

variable {T : Type} {α β : Type}

/-- Return normally. -/
def ret (a : α) : M T α := fun w => (Except.ok a, w)

/-- Sequence two computations; a fault in the first skips the second. -/
def seq (x : M T α) (f : α → M T β) : M T β := fun w =>
  match x w with
  | (Except.ok a, w1) => f a w1
  | (Except.error e, w1) => (Except.error e, w1)

/-- Raise a fault, keeping the world. -/
def raise (e : Fault) : M T α := fun w => (Except.error e, w)

end M

instance (T : Type) : Monad (M T) where
  pure := M.ret
  bind := M.seq

variable {T : Type}

/-- Read the members of the container at `a`. -/
def getObj (a : Addr) : M T (Optional T) := fun w => (Except.ok (w.mem a), w)

/-- Overwrite the members of the container at `a`. -/
def setObj (a : Addr) (o : Optional T) : M T Unit := fun w =>
  (Except.ok (), { w with mem := Function.update w.mem a o })

/-- Write the storage of the container at `a`. -/
def setData (a : Addr) (d : Option T) : M T Unit := fun w =>
  (Except.ok (), { w with mem := Function.update w.mem a { w.mem a with data_ := d } })

/-- The assignment `ptr_ = p` in the container at `a`. -/
def setPtr (a : Addr) (p : Option Addr) : M T Unit := fun w =>
  (Except.ok (), { w with mem := Function.update w.mem a { w.mem a with ptr_ := p } })

/-- The assignment `is_initialized_ = b` in the container at `a`. -/
def setInit (a : Addr) (b : Bool) : M T Unit := fun w =>
  (Except.ok (), { w with mem := Function.update w.mem a { w.mem a with is_initialized_ := b } })

/-- Record a completed member function of `T`. -/
def emit (e : Event) : M T Unit := fun w =>
  (Except.ok (), { w with log := w.log ++ [e] })

/-- The expression `*p` for a `T* p`: a reference to the pointee; undefined for
the null pointer. -/
def derefPtr (p : Option Addr) : M T Addr :=
  match p with
  | none => M.raise Fault.Undefined
  | some a => pure a

/-- Read the live `T` designated by the reference `r`; undefined when the
storage holds no live object. -/
def readT (r : Addr) : M T T := do
  let o ← getObj r
  match o.data_ with
  | none => M.raise Fault.Undefined
  | some v => pure v

/-- Write the state `v` into the live `T` designated by the reference `r`. -/
def writeT (r : Addr) (v : T) : M T Unit := setData r (some v)

/-- The expression `new(&data_[0]) T(value)` for a `const T& value` outside the
containers, evaluated in the container at `this`: copy-constructs a `T` in the
storage and yields the pointer to it. -/
def newCopyVal (ops : TOps T) (this : Addr) (value : T) : M T (Option Addr) :=
  match ops.copyCtor value with
  | none => M.raise Fault.TException
  | some x => do
    setData this (some x)
    emit Event.copyCtor
    pure (some this)

/-- The expression `new(&data_[0]) T(std::move(value))` for a `T&& value`
outside the containers. The state left in the caller's argument lies outside
the world and is not tracked. -/
def newMoveVal (ops : TOps T) (this : Addr) (value : T) : M T (Option Addr) :=
  match (ops.moveCtor value).1 with
  | none => M.raise Fault.TException
  | some x => do
    setData this (some x)
    emit Event.moveCtor
    pure (some this)

/-- The expression `new(&data_[0]) T(r)` where `r` refers to a `T` held by a
container. -/
def newCopyRef (ops : TOps T) (this : Addr) (r : Addr) : M T (Option Addr) := do
  let s ← readT r
  newCopyVal ops this s

/-- The expression `new(&data_[0]) T(std::move(r))` where `r` refers to a `T`
held by a container: the source object is left in its moved-from state. -/
def newMoveRef (ops : TOps T) (this : Addr) (r : Addr) : M T (Option Addr) := do
  let s ← readT r
  writeT r (ops.moveCtor s).2
  match (ops.moveCtor s).1 with
  | none => M.raise Fault.TException
  | some x => do
    setData this (some x)
    emit Event.moveCtor
    pure (some this)

/-- The call `p->~T()`: ends the lifetime of the pointee. -/
def destroyAt (p : Option Addr) : M T Unit := do
  let r ← derefPtr p
  let _ ← readT r
  setData r none
  emit Event.dtor

/-- The statement `*p = value` for a `const T& value` outside the containers. -/
def assignCopyVal (ops : TOps T) (p : Option Addr) (value : T) : M T Unit := do
  let d ← derefPtr p
  let cur ← readT d
  writeT d (ops.copyAssign cur value).2
  if (ops.copyAssign cur value).1 then emit Event.copyAssign
  else M.raise Fault.TException

/-- The statement `*p = std::move(value)` for a `T&& value` outside the
containers. -/
def assignMoveVal (ops : TOps T) (p : Option Addr) (value : T) : M T Unit := do
  let d ← derefPtr p
  let cur ← readT d
  writeT d (ops.moveAssign cur value).2.1
  if (ops.moveAssign cur value).1 then emit Event.moveAssign
  else M.raise Fault.TException

/-- The statement `*p = r` where `r` refers to a `T` held by a container; when
`*p` and `r` are the same object this is a self-assignment of `T`. -/
def assignCopyRef (ops : TOps T) (p : Option Addr) (r : Addr) : M T Unit := do
  let d ← derefPtr p
  let cur ← readT d
  if d = r then
    writeT d (ops.copyAssignSelf cur).2
    if (ops.copyAssignSelf cur).1 then emit Event.copyAssign
    else M.raise Fault.TException
  else
    let s ← readT r
    writeT d (ops.copyAssign cur s).2
    if (ops.copyAssign cur s).1 then emit Event.copyAssign
    else M.raise Fault.TException

/-- The statement `*p = std::move(r)` where `r` refers to a `T` held by a
container. -/
def assignMoveRef (ops : TOps T) (p : Option Addr) (r : Addr) : M T Unit := do
  let d ← derefPtr p
  let cur ← readT d
  if d = r then
    writeT d (ops.moveAssignSelf cur).2
    if (ops.moveAssignSelf cur).1 then emit Event.moveAssign
    else M.raise Fault.TException
  else
    let s ← readT r
    writeT r (ops.moveAssign cur s).2.2
    writeT d (ops.moveAssign cur s).2.1
    if (ops.moveAssign cur s).1 then emit Event.moveAssign
    else M.raise Fault.TException

namespace Optional

/-- Member initialisation at the start of every constructor: the storage of a
new object holds no live `T`, `ptr_ = nullptr` by its default member
initialiser, and `is_initialized_` takes the value given (lines 47-49). -/
def initMembers (this : Addr) (init : Bool) : M T Unit :=
  setObj this { data_ := none, ptr_ := none, is_initialized_ := init }

/-- `Optional() = default` (line 17). -/
def ctorDefault (this : Addr) : M T Unit :=
  initMembers this false

/-- `Optional(const T& value)` (lines 52-56). -/
def ctorCopyValue (ops : TOps T) (this : Addr) (value : T) : M T Unit := do
  initMembers this true
  let p ← newCopyVal ops this value
  setPtr this p

/-- `Optional(T&& value)` (lines 58-62). -/
def ctorMoveValue (ops : TOps T) (this : Addr) (value : T) : M T Unit := do
  initMembers this true
  let p ← newMoveVal ops this value
  setPtr this p

/-- `bool HasValue() const` (lines 147-150). -/
def HasValue (this : Addr) : M T Bool := do
  let o ← getObj this
  pure o.is_initialized_

/-- `T& Value()` (lines 172-178): the reference `*ptr_`, or
`BadOptionalAccess`. -/
def Value (this : Addr) : M T Addr := do
  let o ← getObj this
  if !o.is_initialized_ then M.raise Fault.BadOptionalAccess
  else derefPtr o.ptr_

/-- `const T& Value() const` (lines 180-186). -/
def ValueConst (this : Addr) : M T Addr := do
  let o ← getObj this
  if !o.is_initialized_ then M.raise Fault.BadOptionalAccess
  else derefPtr o.ptr_

/-- `Optional(const Optional& other)` (lines 64-70). -/
def ctorCopy (ops : TOps T) (this other : Addr) : M T Unit := do
  let src ← getObj other
  initMembers this src.is_initialized_
  let o ← getObj this
  if o.is_initialized_ then
    let r ← ValueConst other
    let p ← newCopyRef ops this r
    setPtr this p

/-- `Optional(Optional&& other)` (lines 72-78); `std::move` of the `bool` flag
copies it. -/
def ctorMove (ops : TOps T) (this other : Addr) : M T Unit := do
  let src ← getObj other
  initMembers this src.is_initialized_
  let o ← getObj this
  if o.is_initialized_ then
    let r ← Value other
    let p ← newMoveRef ops this r
    setPtr this p

/-- `void Reset()` (lines 188-195). -/
def Reset (this : Addr) : M T Unit := do
  let o ← getObj this
  if o.is_initialized_ then
    destroyAt o.ptr_
    setPtr this none
  setInit this false

/-- `~Optional()` (lines 80-83). -/
def dtor (this : Addr) : M T Unit :=
  Reset this

/-- `Optional& operator=(const T& value)` (lines 85-95), called with an argument
object that lies outside every container, given by its value; returns `*this`.
The call with an argument that may refer to a `T` held by a container is
`assignCopyFrom`. -/
def assignCopyValue (ops : TOps T) (this : Addr) (value : T) : M T Addr := do
  let o ← getObj this
  if !o.is_initialized_ then
    let p ← newCopyVal ops this value
    setPtr this p
    setInit this true
  else
    assignCopyVal ops o.ptr_ value
  pure this

/-- `Optional& operator=(T&& rhs)` (lines 97-107), called with an argument
object that lies outside every container, given by its value; returns `*this`.
The call with an argument that may refer to a `T` held by a container, the
container's own `T` included, is `assignMoveFrom`. -/
def assignMoveValue (ops : TOps T) (this : Addr) (rhs : T) : M T Addr := do
  let o ← getObj this
  if !o.is_initialized_ then
    let p ← newMoveVal ops this rhs
    setPtr this p
    setInit this true
  else
    assignMoveVal ops o.ptr_ rhs
  pure this

/-- `Optional& operator=(const Optional& rhs)` (lines 109-126); returns
`*this`. -/
def assignCopy (ops : TOps T) (this rhs : Addr) : M T Addr := do
  let o ← getObj this
  if !o.is_initialized_ then
    let s ← getObj rhs
    if s.is_initialized_ then
      let r ← ValueConst rhs
      let p ← newCopyRef ops this r
      setPtr this p
      let s1 ← getObj rhs
      setInit this s1.is_initialized_
  else
    let s ← getObj rhs
    if s.is_initialized_ then
      let r ← ValueConst rhs
      let o1 ← getObj this
      assignCopyRef ops o1.ptr_ r
    else
      Reset this
  pure this

/-- `Optional& operator=(Optional&& rhs)` (lines 128-145); returns `*this`. -/
def assignMove (ops : TOps T) (this rhs : Addr) : M T Addr := do
  let o ← getObj this
  if !o.is_initialized_ then
    let s ← getObj rhs
    if s.is_initialized_ then
      let r ← Value rhs
      let p ← newMoveRef ops this r
      setPtr this p
      let s1 ← getObj rhs
      setInit this s1.is_initialized_
  else
    let s ← getObj rhs
    if s.is_initialized_ then
      let r ← Value rhs
      let o1 ← getObj this
      assignMoveRef ops o1.ptr_ r
    else
      Reset this
  pure this

/-- `T& operator*()` (lines 152-155): `*ptr_`, with no check of the flag. -/
def deref (this : Addr) : M T Addr := do
  let o ← getObj this
  derefPtr o.ptr_

/-- `const T& operator*() const` (lines 157-160). -/
def derefConst (this : Addr) : M T Addr := do
  let o ← getObj this
  derefPtr o.ptr_

/-- `T* operator->()` (lines 162-165): the pointer `ptr_` itself. -/
def arrow (this : Addr) : M T (Option Addr) := do
  let o ← getObj this
  pure o.ptr_

/-- `const T* operator->() const` (lines 167-170). -/
def arrowConst (this : Addr) : M T (Option Addr) := do
  let o ← getObj this
  pure o.ptr_

end Optional

/-- The caller-side expression `c.Value()` used as a value: the `T` read through
the reference that `Value()` returns. -/
def Optional.readValue (this : Addr) : M T T := do
  let r ← Optional.Value this
  readT r

/-- The caller-side expression `c.Value()` on a `const` container, used as a
value. -/
def Optional.readValueConst (this : Addr) : M T T := do
  let r ← Optional.ValueConst this
  readT r

/-- The caller-side expression `*c` used as a value. -/
def Optional.readDeref (this : Addr) : M T T := do
  let r ← Optional.deref this
  readT r

/-- The representation invariant of the container at `a`: when engaged, `ptr_`
points at its own storage and the storage holds a live `T`; when empty, `ptr_`
is null and the storage holds no live `T`. -/
def Optional.Inv (w : World T) (a : Addr) : Prop :=
  if (w.mem a).is_initialized_ = true then
    (w.mem a).ptr_ = some a ∧ (w.mem a).data_.isSome = true
  else
    (w.mem a).ptr_ = none ∧ (w.mem a).data_.isNone = true

instance (w : World T) (a : Addr) : Decidable (Optional.Inv w a) := by
  unfold Optional.Inv
  infer_instance

/-- Number of `T` objects constructed in a log. -/
def constructions (l : List Event) : Nat :=
  l.count Event.copyCtor + l.count Event.moveCtor

/-- Number of `T` objects destroyed in a log. -/
def destructions (l : List Event) : Nat :=
  l.count Event.dtor

/-- A world in which no container has been constructed and nothing has run. -/
def World.empty : World T :=
  { mem := fun _ => { data_ := none, ptr_ := none, is_initialized_ := false }, log := [] }

/-- A regular element type whose special member functions never throw: copies
are equal to their source, moves transfer the value and leave `movedFrom s` in
the source, self-assignment keeps the value. -/
def TOps.regular (movedFrom : T → T) : TOps T where
  copyCtor s := some s
  moveCtor s := (some s, movedFrom s)
  copyAssign _ s := (true, s)
  moveAssign _ s := (true, s, movedFrom s)
  copyAssignSelf x := (true, x)
  moveAssignSelf x := (true, x)

/-- Integers as element type; a moved-from integer keeps its value. -/
def intOps : TOps Int := TOps.regular id

/-- Strings as element type, as `std::string` behaves: a copy is equal to its
source, a moved-from string is empty, copy self-assignment keeps the value, and
move self-assignment leaves the string empty. -/
def stringOps : TOps String where
  copyCtor s := some s
  moveCtor s := (some s, "")
  copyAssign _ s := (true, s)
  moveAssign _ s := (true, s, "")
  copyAssignSelf x := (true, x)
  moveAssignSelf _ := (true, "")

/-- What a caller observes of an engaged container holding `v`: `HasValue()`
returns `true` and `Value()`, in both overloads, returns a reference through
which `v` is read; neither call changes the world. -/
def Optional.Holds (w : World T) (a : Addr) (v : T) : Prop :=
  Optional.HasValue a w = (Except.ok true, w) ∧
  Optional.readValue a w = (Except.ok v, w) ∧
  Optional.readValueConst a w = (Except.ok v, w)

/-- What a caller observes of an empty container: `HasValue()` returns `false`
and `Value()`, in both overloads, throws `BadOptionalAccess`; neither call
changes the world. -/
def Optional.Empty (w : World T) (a : Addr) : Prop :=
  Optional.HasValue a w = (Except.ok false, w) ∧
  Optional.Value a w = (Except.error Fault.BadOptionalAccess, w) ∧
  Optional.ValueConst a w = (Except.error Fault.BadOptionalAccess, w)

/-- The world reached from the empty one by constructing `Optional<int>(42)` at
address `0` and a default `Optional<int>` at address `1`. -/
def world42 : World Int :=
  ((do Optional.ctorCopyValue intOps 0 42
       Optional.ctorDefault 1 : M Int Unit) World.empty).2

/-- The world reached from the empty one by constructing
`Optional<std::string>("abc")` at address `0`, a default `Optional<std::string>`
at address `1`, `Optional<std::string>("xyz")` at address `2` and another
default one at address `3`. -/
def worldAbc : World String :=
  ((do Optional.ctorCopyValue stringOps 0 "abc"
       Optional.ctorDefault 1
       Optional.ctorCopyValue stringOps 2 "xyz"
       Optional.ctorDefault 3 : M String Unit) World.empty).2

/-- The copy operations of `T` reproduce the value `v`: the copy constructor
yields a copy of `v`, and copy-assigning `v` over any other object completes and
leaves `v` there. -/
def TOps.CopiesValue (ops : TOps T) (v : T) : Prop :=
  ops.copyCtor v = some v ∧ ∀ d, ops.copyAssign d v = (true, v)

/-- The move operations of `T` transfer the value `v`: the move constructor
yields an object of value `v`, and move-assigning `v` over any other object
completes and leaves `v` there. -/
def TOps.MovesValue (ops : TOps T) (v : T) : Prop :=
  (ops.moveCtor v).1 = some v ∧
  ∀ d, (ops.moveAssign d v).1 = true ∧ (ops.moveAssign d v).2.1 = v

/-- Self-assignment of `T`, by copy and by move, completes and preserves the
value `v`. -/
def TOps.SelfAssignKeeps (ops : TOps T) (v : T) : Prop :=
  ops.copyAssignSelf v = (true, v) ∧ ops.moveAssignSelf v = (true, v)

/-- Number of live `T` objects the container at `a` accounts for: one when it is
engaged, none when it is empty. -/
def Optional.liveCount (w : World T) (a : Addr) : Nat :=
  if (w.mem a).is_initialized_ = true then 1 else 0

/-- The representation invariant in the words of the specification:
`is_initialized_` is true exactly when `ptr_` is non-null and points at a live
`T` in the container's own storage. -/
def Optional.RepInv (w : World T) (a : Addr) : Prop :=
  (w.mem a).is_initialized_ = true ↔
    ((w.mem a).ptr_ = some a ∧ (w.mem a).data_.isSome = true)

/-- An element type all of whose constructors and assignment operators throw,
leaving their operands as they were. -/
def TOps.throwing : TOps T where
  copyCtor _ := none
  moveCtor s := (none, s)
  copyAssign d _ := (false, d)
  moveAssign d s := (false, d, s)
  copyAssignSelf x := (false, x)
  moveAssignSelf x := (false, x)

/-- One call made by a client of the container: a constructor, an assignment,
`Reset()`, or the destructor. -/
inductive Op (T : Type) where
  | ctorDefault (this : Addr)
  | ctorCopyValue (this : Addr) (value : T)
  | ctorMoveValue (this : Addr) (value : T)
  | ctorCopy (this other : Addr)
  | ctorMove (this other : Addr)
  | assignCopyValue (this : Addr) (value : T)
  | assignMoveValue (this : Addr) (value : T)
  | assignCopy (this rhs : Addr)
  | assignMove (this rhs : Addr)
  | reset (this : Addr)
  | dtor (this : Addr)

/-- The member function a call runs; the reference returned by an assignment is
discarded. -/
def Op.run (ops : TOps T) : Op T → M T Unit
  | Op.ctorDefault this => Optional.ctorDefault this
  | Op.ctorCopyValue this v => Optional.ctorCopyValue ops this v
  | Op.ctorMoveValue this v => Optional.ctorMoveValue ops this v
  | Op.ctorCopy this other => Optional.ctorCopy ops this other
  | Op.ctorMove this other => Optional.ctorMove ops this other
  | Op.assignCopyValue this v => do
    let _ ← Optional.assignCopyValue ops this v
    pure ()
  | Op.assignMoveValue this v => do
    let _ ← Optional.assignMoveValue ops this v
    pure ()
  | Op.assignCopy this rhs => do
    let _ ← Optional.assignCopy ops this rhs
    pure ()
  | Op.assignMove this rhs => do
    let _ ← Optional.assignMove ops this rhs
    pure ()
  | Op.reset this => Optional.Reset this
  | Op.dtor this => Optional.dtor this

/-- Whether a call may be made when the containers at the addresses `alive`
exist: a constructor runs on storage where no container exists, every other
call on an existing container, and a container argument exists. -/
def Op.admissible (alive : List Addr) : Op T → Bool
  | Op.ctorDefault this => decide (this ∉ alive)
  | Op.ctorCopyValue this _ => decide (this ∉ alive)
  | Op.ctorMoveValue this _ => decide (this ∉ alive)
  | Op.ctorCopy this other => decide (this ∉ alive) && decide (other ∈ alive)
  | Op.ctorMove this other => decide (this ∉ alive) && decide (other ∈ alive)
  | Op.assignCopyValue this _ => decide (this ∈ alive)
  | Op.assignMoveValue this _ => decide (this ∈ alive)
  | Op.assignCopy this rhs => decide (this ∈ alive) && decide (rhs ∈ alive)
  | Op.assignMove this rhs => decide (this ∈ alive) && decide (rhs ∈ alive)
  | Op.reset this => decide (this ∈ alive)
  | Op.dtor this => decide (this ∈ alive)

/-- Whether a call returned normally. -/
def returned {α : Type} : Except Fault α → Bool
  | Except.ok _ => true
  | Except.error _ => false

/-- The containers that exist after a call with outcome `out`: a constructor
that returns brings its container into existence, one that throws does not; the
destructor ends the existence of its container. -/
def Op.aliveAfter (alive : List Addr) (out : Except Fault Unit) : Op T → List Addr
  | Op.ctorDefault this => if returned out = true then this :: alive else alive
  | Op.ctorCopyValue this _ => if returned out = true then this :: alive else alive
  | Op.ctorMoveValue this _ => if returned out = true then this :: alive else alive
  | Op.ctorCopy this _ => if returned out = true then this :: alive else alive
  | Op.ctorMove this _ => if returned out = true then this :: alive else alive
  | Op.dtor this => alive.erase this
  | _ => alive

/-- Run a sequence of calls from the world `w` in which the containers at
`alive` exist; an exception thrown by a call is caught by the client and the
next call follows. The result is `none` when a call is not admissible. -/
def runProgram (ops : TOps T) :
    List (Op T) → World T → List Addr → Option (World T × List Addr)
  | [], w, alive => some (w, alive)
  | op :: rest, w, alive =>
    if op.admissible alive = true then
      runProgram ops rest (op.run ops w).2 (op.aliveAfter alive (op.run ops w).1)
    else none

/-- What a call on the existing container at `this` guarantees, where `r` is the
outcome and the world reached from `w`:
* `inv`: the container satisfies the representation invariant afterwards;
* `frame`: every other valid container stays valid and keeps its flag;
* `balance`: constructions minus destructions of `T` recorded by the call equal
  the change in the number of live `T` objects the container accounts for;
* `outcome`: the call returns or propagates an exception of `T`;
* `atomic`: when it propagates an exception, the flag is as before and no
  member function of `T` completed. -/
structure Optional.Sound {α : Type} (w : World T) (this : Addr)
    (r : Except Fault α × World T) : Prop where
  inv : Optional.Inv r.2 this
  frame : ∀ c, c ≠ this → Optional.Inv w c →
    Optional.Inv r.2 c ∧ (r.2.mem c).is_initialized_ = (w.mem c).is_initialized_
  balance : constructions r.2.log + destructions w.log + Optional.liveCount w this =
    destructions r.2.log + constructions w.log + Optional.liveCount r.2 this
  outcome : returned r.1 = true ∨ r.1 = Except.error Fault.TException
  atomic : r.1 = Except.error Fault.TException →
    (r.2.mem this).is_initialized_ = (w.mem this).is_initialized_ ∧ r.2.log = w.log

/-- What a constructor call on the storage at `this` guarantees, where `r` is
the outcome and the world reached from `w`:
* `frame`: every other valid container stays valid and keeps its flag;
* `outcome`: the call returns or propagates an exception of `T`;
* `built`: when it returns, the new container satisfies the representation
  invariant and the constructions minus destructions of `T` recorded by the
  call equal the number of live `T` objects the new container accounts for;
* `failed`: when it propagates an exception, no member function of `T`
  completed. -/
structure Optional.SoundCtor {α : Type} (w : World T) (this : Addr)
    (r : Except Fault α × World T) : Prop where
  frame : ∀ c, c ≠ this → Optional.Inv w c →
    Optional.Inv r.2 c ∧ (r.2.mem c).is_initialized_ = (w.mem c).is_initialized_
  outcome : returned r.1 = true ∨ r.1 = Except.error Fault.TException
  built : returned r.1 = true →
    Optional.Inv r.2 this ∧
    constructions r.2.log + destructions w.log =
      destructions r.2.log + constructions w.log + Optional.liveCount r.2 this
  failed : r.1 = Except.error Fault.TException → r.2.log = w.log

/-- The state of a client program that started in the world `w0` with no
container in existence is consistent in the world `w` with the containers at
`alive`: the addresses are distinct, every existing container satisfies the
representation invariant, and the `T` objects constructed and not yet destroyed
since the start are exactly those of the engaged containers. -/
def Program.Good (w0 w : World T) (alive : List Addr) : Prop :=
  alive.Nodup ∧ (∀ a ∈ alive, Optional.Inv w a) ∧
  constructions w.log + destructions w0.log =
    destructions w.log + constructions w0.log + (alive.map (Optional.liveCount w)).sum

/-- A client program on `Optional<std::string>` that uses every constructor,
every assignment, `Reset()` and the destructor. -/
def demoProgram : List (Op String) :=
  [Op.ctorCopyValue 0 "abc", Op.ctorDefault 1, Op.assignCopy 1 0, Op.ctorMove 2 1,
   Op.ctorMoveValue 3 "xyz", Op.ctorCopy 4 3, Op.assignMoveValue 0 "uvw",
   Op.assignCopyValue 4 "rst", Op.reset 1, Op.assignMove 1 2, Op.assignCopy 3 3,
   Op.dtor 2, Op.dtor 1, Op.dtor 0, Op.dtor 4, Op.dtor 3]

/-- The argument of `operator=(const T&)` and of `operator=(T&&)`: a reference to
a `T`. It refers either to an object outside every container, given by its
value, or to the `T` in the storage of the container at `r`, as in
`c = d.Value()` and `c = std::move(d.Value())`, where `d` may be `c` itself. -/
inductive Arg (T : Type) where
  | outside (value : T)
  | held (r : Addr)

/-- The expression `new(&data_[0]) T(value)` for a `const T& value`. -/
def newCopyArg (ops : TOps T) (this : Addr) : Arg T → M T (Option Addr)
  | Arg.outside v => newCopyVal ops this v
  | Arg.held r => newCopyRef ops this r

/-- The expression `new(&data_[0]) T(std::move(rhs))` for a `T&& rhs`. -/
def newMoveArg (ops : TOps T) (this : Addr) : Arg T → M T (Option Addr)
  | Arg.outside v => newMoveVal ops this v
  | Arg.held r => newMoveRef ops this r

/-- The statement `*p = value` for a `const T& value`. -/
def assignCopyArg (ops : TOps T) (p : Option Addr) : Arg T → M T Unit
  | Arg.outside v => assignCopyVal ops p v
  | Arg.held r => assignCopyRef ops p r

/-- The statement `*p = std::move(rhs)` for a `T&& rhs`. -/
def assignMoveArg (ops : TOps T) (p : Option Addr) : Arg T → M T Unit
  | Arg.outside v => assignMoveVal ops p v
  | Arg.held r => assignMoveRef ops p r

/-- `Optional& operator=(const T& value)` (lines 85-95) for any argument;
returns `*this`. -/
def Optional.assignCopyFrom (ops : TOps T) (this : Addr) (value : Arg T) : M T Addr := do
  let o ← getObj this
  if !o.is_initialized_ then
    let p ← newCopyArg ops this value
    setPtr this p
    setInit this true
  else
    assignCopyArg ops o.ptr_ value
  pure this

/-- `Optional& operator=(T&& rhs)` (lines 97-107) for any argument; returns
`*this`. -/
def Optional.assignMoveFrom (ops : TOps T) (this : Addr) (rhs : Arg T) : M T Addr := do
  let o ← getObj this
  if !o.is_initialized_ then
    let p ← newMoveArg ops this rhs
    setPtr this p
    setInit this true
  else
    assignMoveArg ops o.ptr_ rhs
  pure this

/-! ## Running computations -/

theorem M.bind_run {α β : Type} (x : M T α) (f : α → M T β) (w : World T) :
    (x >>= f) w = match x w with
      | (Except.ok a, w1) => f a w1
      | (Except.error e, w1) => (Except.error e, w1) := rfl

theorem M.pure_run {α : Type} (a : α) (w : World T) :
    (pure a : M T α) w = (Except.ok a, w) := rfl

/-! ## The representation behind the invariant -/

theorem Optional.Inv.rep_engaged {w : World T} {a : Addr} (h : Optional.Inv w a)
    (he : (w.mem a).is_initialized_ = true) :
    ∃ v, w.mem a = { data_ := some v, ptr_ := some a, is_initialized_ := true } := by
  unfold Optional.Inv at h
  rw [if_pos he] at h
  obtain ⟨hp, hd⟩ := h
  obtain ⟨v, hv⟩ := Option.isSome_iff_exists.mp hd
  refine ⟨v, ?_⟩
  cases hm : w.mem a with
  | mk d p i =>
    rw [hm] at hp hv he
    simp at hp hv he
    simp [hp, hv, he]

theorem Optional.Inv.empty {w : World T} {a : Addr} (h : Optional.Inv w a)
    (he : (w.mem a).is_initialized_ = false) :
    w.mem a = { data_ := none, ptr_ := none, is_initialized_ := false } := by
  unfold Optional.Inv at h
  rw [if_neg (by simp [he])] at h
  obtain ⟨hp, hd⟩ := h
  cases hm : w.mem a with
  | mk d p i =>
    rw [hm] at hp hd he
    simp at hp hd he
    simp [hp, hd, he]

theorem Optional.Inv.of_engaged {w : World T} {a : Addr} {v : T}
    (hm : w.mem a = { data_ := some v, ptr_ := some a, is_initialized_ := true }) :
    Optional.Inv w a := by
  simp [Optional.Inv, hm]

theorem Optional.Inv.of_empty {w : World T} {a : Addr}
    (hm : w.mem a = { data_ := none, ptr_ := none, is_initialized_ := false }) :
    Optional.Inv w a := by
  simp [Optional.Inv, hm]

/-- A container satisfying the invariant is either empty or engaged with a
value, in the representation. -/
theorem Optional.Inv.cases {w : World T} {a : Addr} (h : Optional.Inv w a) :
    w.mem a = { data_ := none, ptr_ := none, is_initialized_ := false } ∨
    ∃ v, w.mem a = { data_ := some v, ptr_ := some a, is_initialized_ := true } := by
  cases he : (w.mem a).is_initialized_
  · exact Or.inl (h.empty he)
  · exact Or.inr (h.rep_engaged he)

/-! ## The accessors on a known representation -/

theorem Optional.HasValue_run (w : World T) (a : Addr) :
    Optional.HasValue a w = (Except.ok (w.mem a).is_initialized_, w) := rfl

theorem Optional.Value_engaged {w : World T} {a : Addr} {v : T}
    (hm : w.mem a = { data_ := some v, ptr_ := some a, is_initialized_ := true }) :
    Optional.Value a w = (Except.ok a, w) := by
  simp [Optional.Value, M.bind_run, getObj, hm, derefPtr, M.pure_run]

theorem Optional.ValueConst_engaged {w : World T} {a : Addr} {v : T}
    (hm : w.mem a = { data_ := some v, ptr_ := some a, is_initialized_ := true }) :
    Optional.ValueConst a w = (Except.ok a, w) := by
  simp [Optional.ValueConst, M.bind_run, getObj, hm, derefPtr, M.pure_run]

theorem Optional.Value_not_engaged {w : World T} {a : Addr}
    (he : (w.mem a).is_initialized_ = false) :
    Optional.Value a w = (Except.error Fault.BadOptionalAccess, w) := by
  simp [Optional.Value, M.bind_run, getObj, he, M.raise]

theorem Optional.ValueConst_not_engaged {w : World T} {a : Addr}
    (he : (w.mem a).is_initialized_ = false) :
    Optional.ValueConst a w = (Except.error Fault.BadOptionalAccess, w) := by
  simp [Optional.ValueConst, M.bind_run, getObj, he, M.raise]

theorem readT_live {w : World T} {a : Addr} {v : T} (hd : (w.mem a).data_ = some v) :
    readT a w = (Except.ok v, w) := by
  simp [readT, M.bind_run, getObj, hd, M.pure_run]

theorem Optional.holds_of_rep {w : World T} {a : Addr} {v : T}
    (hm : w.mem a = { data_ := some v, ptr_ := some a, is_initialized_ := true }) :
    Optional.Holds w a v := by
  have hd : (w.mem a).data_ = some v := by rw [hm]
  refine ⟨?_, ?_, ?_⟩
  · rw [Optional.HasValue_run, hm]
  · simp [Optional.readValue, M.bind_run, Optional.Value_engaged hm, readT_live hd]
  · simp [Optional.readValueConst, M.bind_run, Optional.ValueConst_engaged hm, readT_live hd]

theorem Optional.empty_of_rep {w : World T} {a : Addr}
    (he : (w.mem a).is_initialized_ = false) : Optional.Empty w a := by
  refine ⟨?_, Optional.Value_not_engaged he, Optional.ValueConst_not_engaged he⟩
  rw [Optional.HasValue_run, he]

theorem Optional.Holds.flag_true {w : World T} {a : Addr} {v : T}
    (h : Optional.Holds w a v) : (w.mem a).is_initialized_ = true := by
  have h1 := h.1
  rw [Optional.HasValue_run] at h1
  simpa using congrArg Prod.fst h1

theorem Optional.Empty.not_engaged {w : World T} {a : Addr}
    (h : Optional.Empty w a) : (w.mem a).is_initialized_ = false := by
  have h1 := h.1
  rw [Optional.HasValue_run] at h1
  simpa using congrArg Prod.fst h1

theorem Optional.Holds.members {w : World T} {a : Addr} {v : T}
    (h : Optional.Holds w a v) (hi : Optional.Inv w a) :
    w.mem a = { data_ := some v, ptr_ := some a, is_initialized_ := true } := by
  obtain ⟨x, hx⟩ := hi.rep_engaged h.flag_true
  have h2 := h.2.1
  rw [(Optional.holds_of_rep hx).2.1] at h2
  have : x = v := by simpa using congrArg Prod.fst h2
  rw [hx, this]

theorem Optional.Empty.members_empty {w : World T} {a : Addr}
    (h : Optional.Empty w a) (hi : Optional.Inv w a) :
    w.mem a = { data_ := none, ptr_ := none, is_initialized_ := false } :=
  hi.empty h.not_engaged

/-! ## C1 - C3: the checked accessor and construction from a value -/

/-- C1: `Value()`, in the mutable and in the const overload, throws
`BadOptionalAccess` if and only if `HasValue()` is false, and never changes the
world; on an engaged container it returns a reference to the container's own
storage, through which the held value is read. -/
theorem C1_Value_raises_iff_not_engaged (w : World T) (c : Addr) :
    ((Optional.Value c w).1 = Except.error Fault.BadOptionalAccess ↔
        (Optional.HasValue c w).1 = Except.ok false) ∧
    ((Optional.ValueConst c w).1 = Except.error Fault.BadOptionalAccess ↔
        (Optional.HasValue c w).1 = Except.ok false) ∧
    (Optional.Value c w).2 = w ∧ (Optional.ValueConst c w).2 = w ∧
    (Optional.Inv w c → (Optional.HasValue c w).1 = Except.ok true →
      ∃ v, (w.mem c).data_ = some v ∧
        Optional.Value c w = (Except.ok c, w) ∧
        Optional.ValueConst c w = (Except.ok c, w) ∧
        Optional.readValue c w = (Except.ok v, w) ∧
        Optional.readValueConst c w = (Except.ok v, w)) := by
  refine ⟨?_, ?_, ?_, ?_, ?_⟩
  · simp only [Optional.Value, Optional.HasValue, M.bind_run, getObj, M.pure_run]
    cases (w.mem c).is_initialized_ <;> simp [M.raise]
    cases (w.mem c).ptr_ <;> simp [derefPtr, M.raise, M.pure_run]
  · simp only [Optional.ValueConst, Optional.HasValue, M.bind_run, getObj, M.pure_run]
    cases (w.mem c).is_initialized_ <;> simp [M.raise]
    cases (w.mem c).ptr_ <;> simp [derefPtr, M.raise, M.pure_run]
  · simp only [Optional.Value, M.bind_run, getObj]
    cases (w.mem c).is_initialized_ <;> simp [M.raise]
    cases (w.mem c).ptr_ <;> simp [derefPtr, M.raise, M.pure_run]
  · simp only [Optional.ValueConst, M.bind_run, getObj]
    cases (w.mem c).is_initialized_ <;> simp [M.raise]
    cases (w.mem c).ptr_ <;> simp [derefPtr, M.raise, M.pure_run]
  · intro hi he
    rw [Optional.HasValue_run] at he
    have he1 : (w.mem c).is_initialized_ = true := by simpa using he
    obtain ⟨v, hv⟩ := hi.rep_engaged he1
    have hh := Optional.holds_of_rep hv
    exact ⟨v, by rw [hv], Optional.Value_engaged hv, Optional.ValueConst_engaged hv,
      hh.2.1, hh.2.2⟩

/-- Witness for C1 on `Optional<int>(42)`. -/
theorem C1_witness :
    Optional.Inv world42 0 ∧ (Optional.HasValue 0 world42).1 = Except.ok true ∧
    ∃ v, (world42.mem 0).data_ = some v ∧
      Optional.Value 0 world42 = (Except.ok 0, world42) ∧
      Optional.ValueConst 0 world42 = (Except.ok 0, world42) ∧
      Optional.readValue 0 world42 = (Except.ok v, world42) ∧
      Optional.readValueConst 0 world42 = (Except.ok v, world42) :=
  ⟨by decide, rfl,
    (C1_Value_raises_iff_not_engaged world42 0).2.2.2.2 (by decide) rfl⟩

/-! ## Construction from a value -/

theorem Optional.ctorDefault_run (w : World T) (this : Addr) :
    Optional.ctorDefault this w = (Except.ok (),
      { mem := Function.update w.mem this
          { data_ := none, ptr_ := none, is_initialized_ := false },
        log := w.log }) := rfl

theorem Optional.ctorCopyValue_run (ops : TOps T) (w : World T) (this : Addr) {v x : T}
    (h : ops.copyCtor v = some x) :
    Optional.ctorCopyValue ops this v w = (Except.ok (),
      { mem := Function.update w.mem this
          { data_ := some x, ptr_ := some this, is_initialized_ := true },
        log := w.log ++ [Event.copyCtor] }) := by
  simp [Optional.ctorCopyValue, Optional.initMembers, setObj, newCopyVal, h, M.bind_run,
    setData, emit, setPtr, M.pure_run]

theorem Optional.ctorMoveValue_run (ops : TOps T) (w : World T) (this : Addr) {v x : T}
    (h : (ops.moveCtor v).1 = some x) :
    Optional.ctorMoveValue ops this v w = (Except.ok (),
      { mem := Function.update w.mem this
          { data_ := some x, ptr_ := some this, is_initialized_ := true },
        log := w.log ++ [Event.moveCtor] }) := by
  simp [Optional.ctorMoveValue, Optional.initMembers, setObj, newMoveVal, h, M.bind_run,
    setData, emit, setPtr, M.pure_run]

/-- C2: a container constructed from a value `v`, by `Optional(const T&)` when
`T`'s copy constructor yields a copy of `v` or by `Optional(T&&)` when `T`'s
move constructor transfers `v`, is constructed without raising, reports
`HasValue() == true`, and `Value()` returns `v` without raising. -/
theorem C2_construct_from_value (ops : TOps T) (w : World T) (this : Addr) (v : T) :
    (ops.copyCtor v = some v →
      (Optional.ctorCopyValue ops this v w).1 = Except.ok () ∧
      Optional.Holds (Optional.ctorCopyValue ops this v w).2 this v ∧
      Optional.Inv (Optional.ctorCopyValue ops this v w).2 this) ∧
    ((ops.moveCtor v).1 = some v →
      (Optional.ctorMoveValue ops this v w).1 = Except.ok () ∧
      Optional.Holds (Optional.ctorMoveValue ops this v w).2 this v ∧
      Optional.Inv (Optional.ctorMoveValue ops this v w).2 this) := by
  constructor
  · intro h
    rw [Optional.ctorCopyValue_run ops w this h]
    have hm : ∀ (m : Addr → Optional T) (l : List Event),
        (World.mk (Function.update m this
          { data_ := some v, ptr_ := some this, is_initialized_ := true }) l).mem this =
          { data_ := some v, ptr_ := some this, is_initialized_ := true } := by
      intro m l; simp
    exact ⟨rfl, Optional.holds_of_rep (hm _ _), Optional.Inv.of_engaged (hm _ _)⟩
  · intro h
    rw [Optional.ctorMoveValue_run ops w this h]
    have hm : ∀ (m : Addr → Optional T) (l : List Event),
        (World.mk (Function.update m this
          { data_ := some v, ptr_ := some this, is_initialized_ := true }) l).mem this =
          { data_ := some v, ptr_ := some this, is_initialized_ := true } := by
      intro m l; simp
    exact ⟨rfl, Optional.holds_of_rep (hm _ _), Optional.Inv.of_engaged (hm _ _)⟩

/-- Witness for C2 on the integer `42`. -/
theorem C2_witness :
    (intOps.copyCtor 42 = some 42 ∧ (intOps.moveCtor 42).1 = some 42) ∧
    Optional.Holds (Optional.ctorCopyValue intOps 0 42 World.empty).2 0 42 ∧
    Optional.Holds (Optional.ctorMoveValue intOps 0 42 World.empty).2 0 42 :=
  ⟨⟨rfl, rfl⟩,
    ((C2_construct_from_value intOps World.empty 0 42).1 rfl).2.1,
    ((C2_construct_from_value intOps World.empty 0 42).2 rfl).2.1⟩

/-- C3: a default-constructed container reports `HasValue() == false`, its
`Value()` throws `BadOptionalAccess`, and its construction runs no member
function of `T` and leaves no live `T` in the storage. -/
theorem C3_default_constructed_empty (w : World T) (this : Addr) :
    (Optional.ctorDefault this w).1 = Except.ok () ∧
    Optional.Empty (Optional.ctorDefault this w).2 this ∧
    (Optional.ctorDefault this w).2.log = w.log ∧
    (((Optional.ctorDefault this w).2).mem this).data_ = none ∧
    Optional.Inv (Optional.ctorDefault this w).2 this := by
  rw [Optional.ctorDefault_run]
  refine ⟨rfl, Optional.empty_of_rep (by simp), rfl, by simp, Optional.Inv.of_empty (by simp)⟩

/-! ## Reset and assignment of a value, on a known representation -/

theorem Optional.Reset_engaged {w : World T} {a : Addr} {v : T}
    (hm : w.mem a = { data_ := some v, ptr_ := some a, is_initialized_ := true }) :
    Optional.Reset a w = (Except.ok (),
      { mem := Function.update w.mem a
          { data_ := none, ptr_ := none, is_initialized_ := false },
        log := w.log ++ [Event.dtor] }) := by
  simp [Optional.Reset, M.bind_run, getObj, hm, destroyAt, derefPtr, M.pure_run, readT,
    setData, emit, setPtr, setInit]

theorem Optional.Reset_empty {w : World T} {a : Addr}
    (he : (w.mem a).is_initialized_ = false) :
    Optional.Reset a w = (Except.ok (), w) := by
  have h2 : ({ (w.mem a) with is_initialized_ := false } : Optional T) = w.mem a := by
    cases hm : w.mem a with
    | mk d p i => rw [hm] at he; simp at he; simp [he]
  simp [Optional.Reset, M.bind_run, getObj, he, M.pure_run, setInit, h2]

theorem Optional.assignCopyValue_empty (ops : TOps T) {w : World T} {a : Addr} {v x : T}
    (hm : w.mem a = { data_ := none, ptr_ := none, is_initialized_ := false })
    (h : ops.copyCtor v = some x) :
    Optional.assignCopyValue ops a v w = (Except.ok a,
      { mem := Function.update w.mem a
          { data_ := some x, ptr_ := some a, is_initialized_ := true },
        log := w.log ++ [Event.copyCtor] }) := by
  simp [Optional.assignCopyValue, M.bind_run, getObj, hm, newCopyVal, h, setData, emit,
    M.pure_run, setPtr, setInit]

theorem Optional.assignCopyValue_engaged (ops : TOps T) {w : World T} {a : Addr} {d v x : T}
    (hm : w.mem a = { data_ := some d, ptr_ := some a, is_initialized_ := true })
    (h : ops.copyAssign d v = (true, x)) :
    Optional.assignCopyValue ops a v w = (Except.ok a,
      { mem := Function.update w.mem a
          { data_ := some x, ptr_ := some a, is_initialized_ := true },
        log := w.log ++ [Event.copyAssign] }) := by
  simp [Optional.assignCopyValue, M.bind_run, getObj, hm, assignCopyVal, derefPtr, readT,
    writeT, h, setData, emit, M.pure_run]

theorem Optional.assignMoveValue_empty (ops : TOps T) {w : World T} {a : Addr} {v x : T}
    (hm : w.mem a = { data_ := none, ptr_ := none, is_initialized_ := false })
    (h : (ops.moveCtor v).1 = some x) :
    Optional.assignMoveValue ops a v w = (Except.ok a,
      { mem := Function.update w.mem a
          { data_ := some x, ptr_ := some a, is_initialized_ := true },
        log := w.log ++ [Event.moveCtor] }) := by
  simp [Optional.assignMoveValue, M.bind_run, getObj, hm, newMoveVal, h, setData, emit,
    M.pure_run, setPtr, setInit]

theorem Optional.assignMoveValue_engaged (ops : TOps T) {w : World T} {a : Addr} {d v x : T}
    (hm : w.mem a = { data_ := some d, ptr_ := some a, is_initialized_ := true })
    (h1 : (ops.moveAssign d v).1 = true) (h2 : (ops.moveAssign d v).2.1 = x) :
    Optional.assignMoveValue ops a v w = (Except.ok a,
      { mem := Function.update w.mem a
          { data_ := some x, ptr_ := some a, is_initialized_ := true },
        log := w.log ++ [Event.moveAssign] }) := by
  simp [Optional.assignMoveValue, M.bind_run, getObj, hm, assignMoveVal, derefPtr, readT,
    writeT, h1, h2, setData, emit, M.pure_run]

/-- After a write of `o` at `a`, the container at `a` is `o`. -/
theorem World.mem_update_same (m : Addr → Optional T) (l : List Event) (a : Addr)
    (o : Optional T) : (World.mk (Function.update m a o) l).mem a = o := by
  simp

/-- A write at `a` leaves every other container as it was. -/
theorem World.mem_update_other (m : Addr → Optional T) (l : List Event) {a b : Addr}
    (o : Optional T) (h : b ≠ a) : (World.mk (Function.update m a o) l).mem b = m b := by
  simp [Function.update_noteq h]

/-! ## C6: Reset, and assignment of a value from outside -/

theorem Optional.Reset_inv {w : World T} {a : Addr} (hi : Optional.Inv w a) :
    (Optional.Reset a w).1 = Except.ok () ∧
    ((Optional.Reset a w).2.mem a).is_initialized_ = false ∧
    Optional.Inv (Optional.Reset a w).2 a := by
  rcases hi.cases with hm | ⟨v, hm⟩
  · have he : (w.mem a).is_initialized_ = false := by rw [hm]
    rw [Optional.Reset_empty he]
    exact ⟨rfl, he, hi⟩
  · rw [Optional.Reset_engaged hm]
    exact ⟨rfl, by simp, Optional.Inv.of_empty (by simp)⟩

theorem Optional.assignCopyValue_holds (ops : TOps T) {w : World T} {c : Addr} {v : T}
    (hi : Optional.Inv w c) (hc : ops.CopiesValue v) :
    (Optional.assignCopyValue ops c v w).1 = Except.ok c ∧
    Optional.Holds (Optional.assignCopyValue ops c v w).2 c v := by
  rcases hi.cases with hm | ⟨d, hm⟩
  · rw [Optional.assignCopyValue_empty ops hm hc.1]
    exact ⟨rfl, Optional.holds_of_rep (World.mem_update_same _ _ _ _)⟩
  · rw [Optional.assignCopyValue_engaged ops hm (hc.2 d)]
    exact ⟨rfl, Optional.holds_of_rep (World.mem_update_same _ _ _ _)⟩

theorem Optional.assignMoveValue_holds (ops : TOps T) {w : World T} {c : Addr} {v : T}
    (hi : Optional.Inv w c) (hc : ops.MovesValue v) :
    (Optional.assignMoveValue ops c v w).1 = Except.ok c ∧
    Optional.Holds (Optional.assignMoveValue ops c v w).2 c v := by
  rcases hi.cases with hm | ⟨d, hm⟩
  · rw [Optional.assignMoveValue_empty ops hm hc.1]
    exact ⟨rfl, Optional.holds_of_rep (World.mem_update_same _ _ _ _)⟩
  · rw [Optional.assignMoveValue_engaged ops hm (hc.2 d).1 (hc.2 d).2]
    exact ⟨rfl, Optional.holds_of_rep (World.mem_update_same _ _ _ _)⟩

/-- C6: `Reset()` returns normally and leaves the container empty (`HasValue()`
false, `Value()` throws `BadOptionalAccess`); a second `Reset()` changes nothing,
so two calls in a row give the same result as one; the destructor of `T` runs
exactly once when the container was engaged and not at all when it was empty,
also over the two calls together. -/
theorem C6_Reset_idempotent (w : World T) (c : Addr) (hi : Optional.Inv w c) :
    (Optional.Reset c w).1 = Except.ok () ∧
    Optional.Empty (Optional.Reset c w).2 c ∧
    Optional.Reset c (Optional.Reset c w).2 = (Except.ok (), (Optional.Reset c w).2) ∧
    (Optional.Reset c >>= fun _ => Optional.Reset c) w = Optional.Reset c w ∧
    ((w.mem c).is_initialized_ = true →
      (Optional.Reset c w).2.log = w.log ++ [Event.dtor] ∧
      ((Optional.Reset c >>= fun _ => Optional.Reset c) w).2.log = w.log ++ [Event.dtor]) ∧
    ((w.mem c).is_initialized_ = false →
      (Optional.Reset c w).2.log = w.log ∧
      ((Optional.Reset c >>= fun _ => Optional.Reset c) w).2.log = w.log) ∧
    destructions ((Optional.Reset c >>= fun _ => Optional.Reset c) w).2.log =
      destructions w.log + (if (w.mem c).is_initialized_ = true then 1 else 0) := by
  obtain ⟨hok, hemp, hinv⟩ := Optional.Reset_inv hi
  have h2 : Optional.Reset c (Optional.Reset c w).2 = (Except.ok (), (Optional.Reset c w).2) :=
    Optional.Reset_empty hemp
  have hseq : (Optional.Reset c >>= fun _ => Optional.Reset c) w = Optional.Reset c w := by
    rw [M.bind_run]
    cases hr : Optional.Reset c w with
    | mk o w1 =>
      rw [hr] at hok h2
      simp only at hok h2
      subst hok
      simp only [h2]
  refine ⟨hok, Optional.empty_of_rep hemp, h2, hseq, ?_, ?_, ?_⟩
  · intro he
    obtain ⟨v, hm⟩ := hi.rep_engaged he
    rw [hseq, Optional.Reset_engaged hm]
    exact ⟨rfl, rfl⟩
  · intro he
    rw [hseq, Optional.Reset_empty he]
    exact ⟨rfl, rfl⟩
  · rw [hseq]
    rcases hi.cases with hm | ⟨v, hm⟩
    · have he : (w.mem c).is_initialized_ = false := by rw [hm]
      rw [Optional.Reset_empty he]
      simp [he]
    · have he : (w.mem c).is_initialized_ = true := by rw [hm]
      rw [Optional.Reset_engaged hm]
      simp [he, destructions]

/-- Witness for C6: `Reset()` of `Optional<int>(42)` runs one destructor, of an
empty `Optional<int>` none. -/
theorem C6_witness :
    Optional.Inv world42 0 ∧ Optional.Inv world42 1 ∧
    Optional.Empty (Optional.Reset 0 world42).2 0 ∧
    (Optional.Reset 0 >>= fun _ => Optional.Reset 0) world42 = Optional.Reset 0 world42 ∧
    ((Optional.Reset 0 >>= fun _ => Optional.Reset 0) world42).2.log =
      world42.log ++ [Event.dtor] ∧
    ((Optional.Reset 1 >>= fun _ => Optional.Reset 1) world42).2.log = world42.log :=
  ⟨by decide, by decide, (C6_Reset_idempotent world42 0 (by decide)).2.1,
    (C6_Reset_idempotent world42 0 (by decide)).2.2.2.1,
    ((C6_Reset_idempotent world42 0 (by decide)).2.2.2.2.1 rfl).2,
    ((C6_Reset_idempotent world42 1 (by decide)).2.2.2.2.2.1 rfl).2⟩

/-! ## Copy construction and copy assignment between containers -/

theorem Optional.ctorCopy_empty (ops : TOps T) {w : World T} {this other : Addr}
    (he : (w.mem other).is_initialized_ = false) :
    Optional.ctorCopy ops this other w = (Except.ok (),
      { mem := Function.update w.mem this
          { data_ := none, ptr_ := none, is_initialized_ := false },
        log := w.log }) := by
  simp [Optional.ctorCopy, M.bind_run, getObj, he, Optional.initMembers, setObj, M.pure_run]

theorem Optional.ctorCopy_engaged (ops : TOps T) {w : World T} {this other : Addr} {s x : T}
    (hne : this ≠ other)
    (hs : w.mem other = { data_ := some s, ptr_ := some other, is_initialized_ := true })
    (h : ops.copyCtor s = some x) :
    Optional.ctorCopy ops this other w = (Except.ok (),
      { mem := Function.update w.mem this
          { data_ := some x, ptr_ := some this, is_initialized_ := true },
        log := w.log ++ [Event.copyCtor] }) := by
  simp [Optional.ctorCopy, M.bind_run, getObj, hs, Optional.initMembers, setObj, M.pure_run,
    Optional.ValueConst, derefPtr, newCopyRef, readT, newCopyVal, h, setData, emit, setPtr,
    Function.update_noteq hne.symm]

theorem Optional.assignCopy_empty_empty (ops : TOps T) {w : World T} {this rhs : Addr}
    (hd : (w.mem this).is_initialized_ = false) (hs : (w.mem rhs).is_initialized_ = false) :
    Optional.assignCopy ops this rhs w = (Except.ok this, w) := by
  simp [Optional.assignCopy, M.bind_run, getObj, hd, hs, M.pure_run]

theorem Optional.assignCopy_empty_engaged (ops : TOps T) {w : World T} {this rhs : Addr}
    {s x : T} (hne : this ≠ rhs)
    (hd : w.mem this = { data_ := none, ptr_ := none, is_initialized_ := false })
    (hs : w.mem rhs = { data_ := some s, ptr_ := some rhs, is_initialized_ := true })
    (h : ops.copyCtor s = some x) :
    Optional.assignCopy ops this rhs w = (Except.ok this,
      { mem := Function.update w.mem this
          { data_ := some x, ptr_ := some this, is_initialized_ := true },
        log := w.log ++ [Event.copyCtor] }) := by
  simp [Optional.assignCopy, M.bind_run, getObj, hd, hs, M.pure_run,
    Optional.ValueConst, derefPtr, newCopyRef, readT, newCopyVal, h, setData, emit, setPtr,
    setInit, Function.update_noteq hne.symm]

theorem Optional.assignCopy_engaged_empty (ops : TOps T) {w : World T} {this rhs : Addr}
    {d : T}
    (hd : w.mem this = { data_ := some d, ptr_ := some this, is_initialized_ := true })
    (hs : (w.mem rhs).is_initialized_ = false) :
    Optional.assignCopy ops this rhs w = (Except.ok this,
      { mem := Function.update w.mem this
          { data_ := none, ptr_ := none, is_initialized_ := false },
        log := w.log ++ [Event.dtor] }) := by
  have hdi : (w.mem this).is_initialized_ = true := by rw [hd]
  simp [Optional.assignCopy, M.bind_run, getObj, hdi, hs, M.pure_run,
    Optional.Reset_engaged hd]

theorem Optional.assignCopy_engaged_engaged (ops : TOps T) {w : World T} {this rhs : Addr}
    {d s x : T} (hne : this ≠ rhs)
    (hd : w.mem this = { data_ := some d, ptr_ := some this, is_initialized_ := true })
    (hs : w.mem rhs = { data_ := some s, ptr_ := some rhs, is_initialized_ := true })
    (h : ops.copyAssign d s = (true, x)) :
    Optional.assignCopy ops this rhs w = (Except.ok this,
      { mem := Function.update w.mem this
          { data_ := some x, ptr_ := some this, is_initialized_ := true },
        log := w.log ++ [Event.copyAssign] }) := by
  simp [Optional.assignCopy, M.bind_run, getObj, hd, hs, M.pure_run,
    Optional.ValueConst, derefPtr, assignCopyRef, readT, writeT, h, setData, emit, hne]

theorem Optional.assignCopy_self_engaged (ops : TOps T) {w : World T} {this : Addr}
    {d x : T}
    (hd : w.mem this = { data_ := some d, ptr_ := some this, is_initialized_ := true })
    (h : ops.copyAssignSelf d = (true, x)) :
    Optional.assignCopy ops this this w = (Except.ok this,
      { mem := Function.update w.mem this
          { data_ := some x, ptr_ := some this, is_initialized_ := true },
        log := w.log ++ [Event.copyAssign] }) := by
  simp [Optional.assignCopy, M.bind_run, getObj, hd, M.pure_run,
    Optional.ValueConst, derefPtr, assignCopyRef, readT, writeT, h, setData, emit]

theorem Optional.assignMove_self_engaged (ops : TOps T) {w : World T} {this : Addr}
    {d x : T}
    (hd : w.mem this = { data_ := some d, ptr_ := some this, is_initialized_ := true })
    (h : ops.moveAssignSelf d = (true, x)) :
    Optional.assignMove ops this this w = (Except.ok this,
      { mem := Function.update w.mem this
          { data_ := some x, ptr_ := some this, is_initialized_ := true },
        log := w.log ++ [Event.moveAssign] }) := by
  simp [Optional.assignMove, M.bind_run, getObj, hd, M.pure_run,
    Optional.Value, derefPtr, assignMoveRef, readT, writeT, h, setData, emit]

theorem Optional.assignMove_empty_empty (ops : TOps T) {w : World T} {this rhs : Addr}
    (hd : (w.mem this).is_initialized_ = false) (hs : (w.mem rhs).is_initialized_ = false) :
    Optional.assignMove ops this rhs w = (Except.ok this, w) := by
  simp [Optional.assignMove, M.bind_run, getObj, hd, hs, M.pure_run]

theorem Optional.ctorMove_empty (ops : TOps T) {w : World T} {this other : Addr}
    (he : (w.mem other).is_initialized_ = false) :
    Optional.ctorMove ops this other w = (Except.ok (),
      { mem := Function.update w.mem this
          { data_ := none, ptr_ := none, is_initialized_ := false },
        log := w.log }) := by
  simp [Optional.ctorMove, M.bind_run, getObj, he, Optional.initMembers, setObj, M.pure_run]

theorem Optional.ctorMove_engaged (ops : TOps T) {w : World T} {this other : Addr} {s x : T}
    (hne : this ≠ other)
    (hs : w.mem other = { data_ := some s, ptr_ := some other, is_initialized_ := true })
    (h : (ops.moveCtor s).1 = some x) :
    Optional.ctorMove ops this other w = (Except.ok (),
      { mem := Function.update
          (Function.update w.mem other
            { data_ := some (ops.moveCtor s).2, ptr_ := some other, is_initialized_ := true })
          this { data_ := some x, ptr_ := some this, is_initialized_ := true },
        log := w.log ++ [Event.moveCtor] }) := by
  simp [Optional.ctorMove, M.bind_run, getObj, hs, Optional.initMembers, setObj, M.pure_run,
    Optional.Value, derefPtr, newMoveRef, readT, writeT, h, setData, emit, setPtr,
    Function.update_noteq hne.symm, Function.update_noteq hne]
  rw [Function.update_comm hne, Function.update_idem]

/-! ## Frame and invariant lemmas, for arbitrary behaviour of `T` -/

theorem Optional.Inv.transfer {w w1 : World T} {a : Addr} (h : w1.mem a = w.mem a) :
    Optional.Inv w1 a ↔ Optional.Inv w a := by
  simp [Optional.Inv, h]

theorem Optional.Holds.carry {w w1 : World T} {a : Addr} {v : T}
    (h : w1.mem a = w.mem a) (hi : Optional.Inv w a) (hh : Optional.Holds w a v) :
    Optional.Holds w1 a v :=
  Optional.holds_of_rep (h.trans (hh.members hi))

theorem Optional.Empty.carry_empty {w w1 : World T} {a : Addr}
    (h : w1.mem a = w.mem a) (hh : Optional.Empty w a) : Optional.Empty w1 a :=
  Optional.empty_of_rep (by rw [h]; exact hh.not_engaged)

/-- `Reset()` on a valid container touches no other container. -/
theorem Optional.Reset_frame {w : World T} {a b : Addr} (hi : Optional.Inv w b)
    (hne : a ≠ b) : (Optional.Reset b w).2.mem a = w.mem a := by
  rcases hi.cases with hm | ⟨v, hm⟩
  · have he : (w.mem b).is_initialized_ = false := by rw [hm]
    rw [Optional.Reset_empty he]
  · rw [Optional.Reset_engaged hm]
    exact World.mem_update_other _ _ _ hne

/-- `operator=(const T&)` on a valid container keeps it valid and touches no
other container, whether or not `T`'s operations throw. -/
theorem Optional.assignCopyValue_frame (ops : TOps T) {w : World T} {a b : Addr} (x : T)
    (hi : Optional.Inv w b) (hne : a ≠ b) :
    (Optional.assignCopyValue ops b x w).2.mem a = w.mem a ∧
    Optional.Inv (Optional.assignCopyValue ops b x w).2 b := by
  rcases hi.cases with hm | ⟨d, hm⟩
  · cases h : ops.copyCtor x with
    | none =>
      have hr : Optional.assignCopyValue ops b x w = (Except.error Fault.TException, w) := by
        simp [Optional.assignCopyValue, M.bind_run, getObj, hm, newCopyVal, h, M.raise]
      rw [hr]
      exact ⟨rfl, hi⟩
    | some y =>
      rw [Optional.assignCopyValue_empty ops hm h]
      exact ⟨World.mem_update_other _ _ _ hne,
        Optional.Inv.of_engaged (World.mem_update_same _ _ _ _)⟩
  · cases h : ops.copyAssign d x with
    | mk ok y =>
      cases ok with
      | true =>
        rw [Optional.assignCopyValue_engaged ops hm h]
        exact ⟨World.mem_update_other _ _ _ hne,
          Optional.Inv.of_engaged (World.mem_update_same _ _ _ _)⟩
      | false =>
        have hr : Optional.assignCopyValue ops b x w = (Except.error Fault.TException,
            { mem := Function.update w.mem b
                { data_ := some y, ptr_ := some b, is_initialized_ := true },
              log := w.log }) := by
          simp [Optional.assignCopyValue, M.bind_run, getObj, hm, assignCopyVal, derefPtr,
            readT, writeT, h, setData, M.raise, M.pure_run]
        rw [hr]
        exact ⟨World.mem_update_other _ _ _ hne,
          Optional.Inv.of_engaged (World.mem_update_same _ _ _ _)⟩

/-- `operator=(T&&)` on a valid container keeps it valid and touches no other
container, whether or not `T`'s operations throw. -/
theorem Optional.assignMoveValue_frame (ops : TOps T) {w : World T} {a b : Addr} (x : T)
    (hi : Optional.Inv w b) (hne : a ≠ b) :
    (Optional.assignMoveValue ops b x w).2.mem a = w.mem a ∧
    Optional.Inv (Optional.assignMoveValue ops b x w).2 b := by
  rcases hi.cases with hm | ⟨d, hm⟩
  · cases h : (ops.moveCtor x).1 with
    | none =>
      have hr : Optional.assignMoveValue ops b x w = (Except.error Fault.TException, w) := by
        simp [Optional.assignMoveValue, M.bind_run, getObj, hm, newMoveVal, h, M.raise]
      rw [hr]
      exact ⟨rfl, hi⟩
    | some y =>
      rw [Optional.assignMoveValue_empty ops hm h]
      exact ⟨World.mem_update_other _ _ _ hne,
        Optional.Inv.of_engaged (World.mem_update_same _ _ _ _)⟩
  · cases h : (ops.moveAssign d x).1 with
    | true =>
      rw [Optional.assignMoveValue_engaged ops hm h rfl]
      exact ⟨World.mem_update_other _ _ _ hne,
        Optional.Inv.of_engaged (World.mem_update_same _ _ _ _)⟩
    | false =>
      have hr : Optional.assignMoveValue ops b x w = (Except.error Fault.TException,
          { mem := Function.update w.mem b
              { data_ := some (ops.moveAssign d x).2.1, ptr_ := some b,
                is_initialized_ := true },
            log := w.log }) := by
        simp [Optional.assignMoveValue, M.bind_run, getObj, hm, assignMoveVal, derefPtr,
          readT, writeT, h, setData, M.raise, M.pure_run]
      rw [hr]
      exact ⟨World.mem_update_other _ _ _ hne,
        Optional.Inv.of_engaged (World.mem_update_same _ _ _ _)⟩

/-- `Optional(const Optional&)` never touches a container other than the one
under construction; when it returns, the new container is valid. -/
theorem Optional.ctorCopy_frame (ops : TOps T) {w : World T} {a b c : Addr}
    (hi : Optional.Inv w a) (hne : b ≠ a) (hc : c ≠ b) :
    (Optional.ctorCopy ops b a w).2.mem c = w.mem c ∧
    ((Optional.ctorCopy ops b a w).1 = Except.ok () →
      Optional.Inv (Optional.ctorCopy ops b a w).2 b) := by
  rcases hi.cases with hm | ⟨s, hm⟩
  · have he : (w.mem a).is_initialized_ = false := by rw [hm]
    rw [Optional.ctorCopy_empty ops he]
    exact ⟨World.mem_update_other _ _ _ hc,
      fun _ => Optional.Inv.of_empty (World.mem_update_same _ _ _ _)⟩
  · cases h : ops.copyCtor s with
    | none =>
      have hr : Optional.ctorCopy ops b a w = (Except.error Fault.TException,
          { mem := Function.update w.mem b
              { data_ := none, ptr_ := none, is_initialized_ := true },
            log := w.log }) := by
        simp [Optional.ctorCopy, M.bind_run, getObj, hm, Optional.initMembers, setObj,
          M.pure_run, Optional.ValueConst, derefPtr, newCopyRef, readT, newCopyVal, h,
          M.raise, Function.update_noteq hne.symm]
      rw [hr]
      exact ⟨World.mem_update_other _ _ _ hc, fun h0 => by simp at h0⟩
    | some y =>
      rw [Optional.ctorCopy_engaged ops hne hm h]
      exact ⟨World.mem_update_other _ _ _ hc,
        fun _ => Optional.Inv.of_engaged (World.mem_update_same _ _ _ _)⟩

/-- `operator=(const Optional&)` between two distinct valid containers keeps
the destination valid and touches no container other than the destination,
whether or not `T`'s operations throw. -/
theorem Optional.assignCopy_frame (ops : TOps T) {w : World T} {a b c : Addr}
    (hia : Optional.Inv w a) (hib : Optional.Inv w b) (hne : b ≠ a) (hc : c ≠ b) :
    (Optional.assignCopy ops b a w).2.mem c = w.mem c ∧
    Optional.Inv (Optional.assignCopy ops b a w).2 b := by
  rcases hib.cases with hd | ⟨d, hd⟩
  · rcases hia.cases with hs | ⟨s, hs⟩
    · have h1 : (w.mem b).is_initialized_ = false := by rw [hd]
      have h2 : (w.mem a).is_initialized_ = false := by rw [hs]
      rw [Optional.assignCopy_empty_empty ops h1 h2]
      exact ⟨rfl, hib⟩
    · cases h : ops.copyCtor s with
      | none =>
        have hr : Optional.assignCopy ops b a w = (Except.error Fault.TException, w) := by
          simp [Optional.assignCopy, M.bind_run, getObj, hd, hs, M.pure_run,
            Optional.ValueConst, derefPtr, newCopyRef, readT, newCopyVal, h, M.raise]
        rw [hr]
        exact ⟨rfl, hib⟩
      | some y =>
        rw [Optional.assignCopy_empty_engaged ops hne hd hs h]
        exact ⟨World.mem_update_other _ _ _ hc,
          Optional.Inv.of_engaged (World.mem_update_same _ _ _ _)⟩
  · rcases hia.cases with hs | ⟨s, hs⟩
    · have h2 : (w.mem a).is_initialized_ = false := by rw [hs]
      rw [Optional.assignCopy_engaged_empty ops hd h2]
      exact ⟨World.mem_update_other _ _ _ hc,
        Optional.Inv.of_empty (World.mem_update_same _ _ _ _)⟩
    · cases h : ops.copyAssign d s with
      | mk ok y =>
        cases ok with
        | true =>
          rw [Optional.assignCopy_engaged_engaged ops hne hd hs h]
          exact ⟨World.mem_update_other _ _ _ hc,
            Optional.Inv.of_engaged (World.mem_update_same _ _ _ _)⟩
        | false =>
          have hr : Optional.assignCopy ops b a w = (Except.error Fault.TException,
              { mem := Function.update w.mem b
                  { data_ := some y, ptr_ := some b, is_initialized_ := true },
                log := w.log }) := by
            simp [Optional.assignCopy, M.bind_run, getObj, hd, hs, M.pure_run,
              Optional.ValueConst, derefPtr, assignCopyRef, readT, writeT, h, setData,
              M.raise, hne]
          rw [hr]
          exact ⟨World.mem_update_other _ _ _ hc,
            Optional.Inv.of_engaged (World.mem_update_same _ _ _ _)⟩

/-! ## C4, C7, C9: copying between containers -/

/-- C4: copy assignment `dst = src` between two distinct valid containers
follows the assignment matrix, provided `T`'s copy operations reproduce the
source value: (empty, empty) leaves `dst` empty; (empty, full with `s`) makes
`dst` engaged holding `s`; (full, empty) leaves `dst` empty; (full, full with
`s`) leaves `dst` engaged holding `s`. In every case the call returns `*this`,
and afterwards `dst.HasValue()` equals what `src.HasValue()` was. -/
theorem C4_copy_assign_matrix (ops : TOps T) (w : World T) (dst src : Addr)
    (hne : dst ≠ src) (hid : Optional.Inv w dst) (his : Optional.Inv w src) :
    (Optional.Empty w dst → Optional.Empty w src →
      (Optional.assignCopy ops dst src w).1 = Except.ok dst ∧
      Optional.Empty (Optional.assignCopy ops dst src w).2 dst) ∧
    (∀ s, Optional.Empty w dst → Optional.Holds w src s → ops.copyCtor s = some s →
      (Optional.assignCopy ops dst src w).1 = Except.ok dst ∧
      Optional.Holds (Optional.assignCopy ops dst src w).2 dst s) ∧
    (∀ d, Optional.Holds w dst d → Optional.Empty w src →
      (Optional.assignCopy ops dst src w).1 = Except.ok dst ∧
      Optional.Empty (Optional.assignCopy ops dst src w).2 dst) ∧
    (∀ d s, Optional.Holds w dst d → Optional.Holds w src s →
      ops.copyAssign d s = (true, s) →
      (Optional.assignCopy ops dst src w).1 = Except.ok dst ∧
      Optional.Holds (Optional.assignCopy ops dst src w).2 dst s) ∧
    ((∀ s, Optional.Holds w src s → ops.CopiesValue s) →
      (Optional.assignCopy ops dst src w).1 = Except.ok dst ∧
      (Optional.HasValue dst (Optional.assignCopy ops dst src w).2).1 =
        (Optional.HasValue src w).1 ∧
      ∀ s, Optional.Holds w src s →
        Optional.Holds (Optional.assignCopy ops dst src w).2 dst s) := by
  have c1 : Optional.Empty w dst → Optional.Empty w src →
      (Optional.assignCopy ops dst src w).1 = Except.ok dst ∧
      Optional.Empty (Optional.assignCopy ops dst src w).2 dst := by
    intro hd hs
    rw [Optional.assignCopy_empty_empty ops hd.not_engaged hs.not_engaged]
    exact ⟨rfl, hd⟩
  have c2 : ∀ s, Optional.Empty w dst → Optional.Holds w src s → ops.copyCtor s = some s →
      (Optional.assignCopy ops dst src w).1 = Except.ok dst ∧
      Optional.Holds (Optional.assignCopy ops dst src w).2 dst s := by
    intro s hd hs h
    rw [Optional.assignCopy_empty_engaged ops hne (hd.members_empty hid) (hs.members his) h]
    exact ⟨rfl, Optional.holds_of_rep (World.mem_update_same _ _ _ _)⟩
  have c3 : ∀ d, Optional.Holds w dst d → Optional.Empty w src →
      (Optional.assignCopy ops dst src w).1 = Except.ok dst ∧
      Optional.Empty (Optional.assignCopy ops dst src w).2 dst := by
    intro d hd hs
    rw [Optional.assignCopy_engaged_empty ops (hd.members hid) hs.not_engaged]
    exact ⟨rfl, Optional.empty_of_rep (by simp)⟩
  have c4 : ∀ d s, Optional.Holds w dst d → Optional.Holds w src s →
      ops.copyAssign d s = (true, s) →
      (Optional.assignCopy ops dst src w).1 = Except.ok dst ∧
      Optional.Holds (Optional.assignCopy ops dst src w).2 dst s := by
    intro d s hd hs h
    rw [Optional.assignCopy_engaged_engaged ops hne (hd.members hid) (hs.members his) h]
    exact ⟨rfl, Optional.holds_of_rep (World.mem_update_same _ _ _ _)⟩
  refine ⟨c1, c2, c3, c4, ?_⟩
  intro hT
  rcases his.cases with hs | ⟨s, hs⟩
  · have hse : Optional.Empty w src := Optional.empty_of_rep (by rw [hs])
    have hfin : (Optional.assignCopy ops dst src w).1 = Except.ok dst ∧
        Optional.Empty (Optional.assignCopy ops dst src w).2 dst := by
      rcases hid.cases with hd | ⟨d, hd⟩
      · exact c1 (Optional.empty_of_rep (by rw [hd])) hse
      · exact c3 d (Optional.holds_of_rep hd) hse
    refine ⟨hfin.1, ?_, ?_⟩
    · rw [Optional.HasValue_run, Optional.HasValue_run, hfin.2.not_engaged,
        hse.not_engaged]
    · intro s hh
      have := hh.flag_true
      rw [hse.not_engaged] at this
      exact absurd this (by simp)
  · have hsh : Optional.Holds w src s := Optional.holds_of_rep hs
    have hfin : (Optional.assignCopy ops dst src w).1 = Except.ok dst ∧
        Optional.Holds (Optional.assignCopy ops dst src w).2 dst s := by
      rcases hid.cases with hd | ⟨d, hd⟩
      · exact c2 s (Optional.empty_of_rep (by rw [hd])) hsh (hT s hsh).1
      · exact c4 d s (Optional.holds_of_rep hd) hsh ((hT s hsh).2 d)
    refine ⟨hfin.1, ?_, ?_⟩
    · rw [Optional.HasValue_run, Optional.HasValue_run, hfin.2.flag_true, hsh.flag_true]
    · intro s1 hh
      have e1 := hh.members his
      rw [hs] at e1
      have : s = s1 := by simpa using e1
      subst this
      exact hfin.2

/-- Witness for C4: the four cases of the matrix on `Optional<std::string>`
containers holding `"abc"` (address `0`), `"xyz"` (address `2`) and nothing
(addresses `1` and `3`). -/
theorem C4_witness :
    (Optional.Inv worldAbc 0 ∧ Optional.Inv worldAbc 1 ∧ Optional.Inv worldAbc 2 ∧
      Optional.Inv worldAbc 3) ∧
    (Optional.Holds worldAbc 0 "abc" ∧ Optional.Empty worldAbc 1 ∧
      Optional.Holds worldAbc 2 "xyz" ∧ Optional.Empty worldAbc 3) ∧
    Optional.Empty (Optional.assignCopy stringOps 1 3 worldAbc).2 1 ∧
    Optional.Holds (Optional.assignCopy stringOps 1 0 worldAbc).2 1 "abc" ∧
    Optional.Empty (Optional.assignCopy stringOps 0 1 worldAbc).2 0 ∧
    Optional.Holds (Optional.assignCopy stringOps 2 0 worldAbc).2 2 "abc" ∧
    (Optional.HasValue 2 (Optional.assignCopy stringOps 2 0 worldAbc).2).1 =
      (Optional.HasValue 0 worldAbc).1 :=
  ⟨⟨by decide, by decide, by decide, by decide⟩,
    ⟨Optional.holds_of_rep rfl, Optional.empty_of_rep rfl, Optional.holds_of_rep rfl,
      Optional.empty_of_rep rfl⟩,
    ((C4_copy_assign_matrix stringOps worldAbc 1 3 (by decide) (by decide) (by decide)).1
      (Optional.empty_of_rep rfl) (Optional.empty_of_rep rfl)).2,
    ((C4_copy_assign_matrix stringOps worldAbc 1 0 (by decide) (by decide) (by decide)).2.1
      "abc" (Optional.empty_of_rep rfl) (Optional.holds_of_rep rfl) rfl).2,
    ((C4_copy_assign_matrix stringOps worldAbc 0 1 (by decide) (by decide) (by decide)).2.2.1
      "abc" (Optional.holds_of_rep rfl) (Optional.empty_of_rep rfl)).2,
    ((C4_copy_assign_matrix stringOps worldAbc 2 0 (by decide) (by decide) (by decide)).2.2.2.1
      "xyz" "abc" (Optional.holds_of_rep rfl) (Optional.holds_of_rep rfl) rfl).2,
    ((C4_copy_assign_matrix stringOps worldAbc 2 0 (by decide) (by decide) (by decide)).2.2.2.2
      (fun _ _ => ⟨rfl, fun _ => rfl⟩)).2.1⟩

/-- C7: copy-constructing `B` (at `b`) from a valid container `A` (at `a`)
mirrors `A`: from an empty `A` the new `B` is empty; from an `A` holding `v`,
when `T`'s copy constructor yields a copy of `v`, `B` reports `HasValue()` true
and `*B` and `*A` both read `v`. The construction leaves every member of `A`
unchanged whatever `T` does, and once `B` is constructed no later assignment of
a value to `B` (by copy or by move) and no `Reset` of `B` changes `A`. -/
theorem C7_copy_construct_mirrors (ops : TOps T) (w : World T) (a b : Addr)
    (hne : b ≠ a) (hi : Optional.Inv w a) :
    (Optional.Empty w a →
      (Optional.ctorCopy ops b a w).1 = Except.ok () ∧
      Optional.Empty (Optional.ctorCopy ops b a w).2 b ∧
      Optional.Empty (Optional.ctorCopy ops b a w).2 a) ∧
    (∀ v, Optional.Holds w a v → ops.copyCtor v = some v →
      (Optional.ctorCopy ops b a w).1 = Except.ok () ∧
      Optional.Holds (Optional.ctorCopy ops b a w).2 b v ∧
      Optional.Holds (Optional.ctorCopy ops b a w).2 a v ∧
      Optional.readDeref b (Optional.ctorCopy ops b a w).2 =
        (Except.ok v, (Optional.ctorCopy ops b a w).2) ∧
      Optional.readDeref a (Optional.ctorCopy ops b a w).2 =
        (Except.ok v, (Optional.ctorCopy ops b a w).2)) ∧
    (Optional.ctorCopy ops b a w).2.mem a = w.mem a ∧
    ((Optional.ctorCopy ops b a w).1 = Except.ok () →
      ∀ (ops1 : TOps T) (x : T),
        (Optional.assignCopyValue ops1 b x (Optional.ctorCopy ops b a w).2).2.mem a = w.mem a ∧
        (Optional.assignMoveValue ops1 b x (Optional.ctorCopy ops b a w).2).2.mem a = w.mem a ∧
        (Optional.Reset b (Optional.ctorCopy ops b a w).2).2.mem a = w.mem a) := by
  have hfr := Optional.ctorCopy_frame ops hi hne hne.symm
  have hderef : ∀ (w1 : World T) (c : Addr) (v : T),
      w1.mem c = { data_ := some v, ptr_ := some c, is_initialized_ := true } →
      Optional.readDeref c w1 = (Except.ok v, w1) := by
    intro w1 c v hm
    simp [Optional.readDeref, Optional.deref, M.bind_run, getObj, hm, derefPtr, M.pure_run,
      readT]
  refine ⟨?_, ?_, hfr.1, ?_⟩
  · intro he
    refine ⟨?_, ?_, Optional.Empty.carry_empty hfr.1 he⟩
    · rw [Optional.ctorCopy_empty ops he.not_engaged]
    · rw [Optional.ctorCopy_empty ops he.not_engaged]
      exact Optional.empty_of_rep (by simp)
  · intro v hh hc
    have hrep := hh.members hi
    have hA : (Optional.ctorCopy ops b a w).2.mem a =
        { data_ := some v, ptr_ := some a, is_initialized_ := true } := hfr.1.trans hrep
    have hB : (Optional.ctorCopy ops b a w).2.mem b =
        { data_ := some v, ptr_ := some b, is_initialized_ := true } := by
      rw [Optional.ctorCopy_engaged ops hne hrep hc]
      exact World.mem_update_same _ _ _ _
    refine ⟨?_, Optional.holds_of_rep hB, Optional.holds_of_rep hA,
      hderef _ _ _ hB, hderef _ _ _ hA⟩
    rw [Optional.ctorCopy_engaged ops hne hrep hc]
  · intro hok ops1 x
    have hib := hfr.2 hok
    refine ⟨?_, ?_, ?_⟩
    · rw [(Optional.assignCopyValue_frame ops1 x hib hne.symm).1, hfr.1]
    · rw [(Optional.assignMoveValue_frame ops1 x hib hne.symm).1, hfr.1]
    · rw [Optional.Reset_frame hib hne.symm, hfr.1]

/-- Witness for C7: copies of `Optional<int>(42)` and of an empty
`Optional<int>` constructed at address `2`; the copy of the former is then
assigned `7`. -/
theorem C7_witness :
    Optional.Inv world42 0 ∧ Optional.Inv world42 1 ∧
    Optional.Holds world42 0 42 ∧ Optional.Empty world42 1 ∧
    Optional.Holds (Optional.ctorCopy intOps 2 0 world42).2 2 42 ∧
    Optional.Empty (Optional.ctorCopy intOps 2 1 world42).2 2 ∧
    Optional.Holds (Optional.assignCopyValue intOps 2 7
      (Optional.ctorCopy intOps 2 0 world42).2).2 2 7 ∧
    (Optional.assignCopyValue intOps 2 7
      (Optional.ctorCopy intOps 2 0 world42).2).2.mem 0 = world42.mem 0 :=
  ⟨by decide, by decide, Optional.holds_of_rep rfl, Optional.empty_of_rep rfl,
    ((C7_copy_construct_mirrors intOps world42 0 2 (by decide) (by decide)).2.1 42
      (Optional.holds_of_rep rfl) rfl).2.1,
    ((C7_copy_construct_mirrors intOps world42 1 2 (by decide) (by decide)).1
      (Optional.empty_of_rep rfl)).2.1,
    Optional.holds_of_rep rfl,
    ((C7_copy_construct_mirrors intOps world42 0 2 (by decide) (by decide)).2.2.2 rfl
      intOps 7).1⟩

/-- C9: copy assignment `B = A` between two distinct valid containers leaves
every member of `A` as it was, whatever `T` does, so `A` is engaged or empty
and holds the value exactly as before; `B` stays a valid container with its own
storage, and no later assignment of a value to `B` and no `Reset` of `B`
changes `A`. When `T`'s copy operations reproduce the value `v` held by `A`,
`B` holds `v` afterwards and `A` still holds `v`. -/
theorem C9_copy_assign_independent (ops : TOps T) (w : World T) (a b : Addr)
    (hne : b ≠ a) (hia : Optional.Inv w a) (hib : Optional.Inv w b) :
    (Optional.assignCopy ops b a w).2.mem a = w.mem a ∧
    (Optional.Empty w a → Optional.Empty (Optional.assignCopy ops b a w).2 a) ∧
    (∀ v, Optional.Holds w a v → Optional.Holds (Optional.assignCopy ops b a w).2 a v) ∧
    (∀ (ops1 : TOps T) (x : T),
      (Optional.assignCopyValue ops1 b x (Optional.assignCopy ops b a w).2).2.mem a = w.mem a ∧
      (Optional.assignMoveValue ops1 b x (Optional.assignCopy ops b a w).2).2.mem a = w.mem a ∧
      (Optional.Reset b (Optional.assignCopy ops b a w).2).2.mem a = w.mem a) ∧
    (∀ v, Optional.Holds w a v → ops.CopiesValue v →
      (Optional.assignCopy ops b a w).1 = Except.ok b ∧
      Optional.Holds (Optional.assignCopy ops b a w).2 b v ∧
      Optional.Holds (Optional.assignCopy ops b a w).2 a v) := by
  have hfr := Optional.assignCopy_frame ops hia hib hne hne.symm
  refine ⟨hfr.1, fun he => Optional.Empty.carry_empty hfr.1 he,
    fun v hh => Optional.Holds.carry hfr.1 hia hh, ?_, ?_⟩
  · intro ops1 x
    refine ⟨?_, ?_, ?_⟩
    · rw [(Optional.assignCopyValue_frame ops1 x hfr.2 hne.symm).1, hfr.1]
    · rw [(Optional.assignMoveValue_frame ops1 x hfr.2 hne.symm).1, hfr.1]
    · rw [Optional.Reset_frame hfr.2 hne.symm, hfr.1]
  · intro v hh hc
    have hrep := hh.members hia
    refine ⟨?_, ?_, Optional.Holds.carry hfr.1 hia hh⟩
    · rcases hib.cases with hd | ⟨d, hd⟩
      · rw [Optional.assignCopy_empty_engaged ops hne hd hrep hc.1]
      · rw [Optional.assignCopy_engaged_engaged ops hne hd hrep (hc.2 d)]
    · rcases hib.cases with hd | ⟨d, hd⟩
      · rw [Optional.assignCopy_empty_engaged ops hne hd hrep hc.1]
        exact Optional.holds_of_rep (World.mem_update_same _ _ _ _)
      · rw [Optional.assignCopy_engaged_engaged ops hne hd hrep (hc.2 d)]
        exact Optional.holds_of_rep (World.mem_update_same _ _ _ _)

/-- Witness for C9: `A` holds `"abc"`, `B` is empty; after `B = A` both hold
`"abc"`; and assigning the empty `B` to `A` leaves `B` empty. -/
theorem C9_witness :
    Optional.Inv worldAbc 0 ∧ Optional.Inv worldAbc 1 ∧
    Optional.Holds worldAbc 0 "abc" ∧ Optional.Empty worldAbc 1 ∧
    stringOps.CopiesValue "abc" ∧
    Optional.Holds (Optional.assignCopy stringOps 1 0 worldAbc).2 1 "abc" ∧
    Optional.Holds (Optional.assignCopy stringOps 1 0 worldAbc).2 0 "abc" ∧
    Optional.Empty (Optional.assignCopy stringOps 0 1 worldAbc).2 1 :=
  ⟨by decide, by decide, Optional.holds_of_rep rfl, Optional.empty_of_rep rfl,
    ⟨rfl, fun _ => rfl⟩,
    ((C9_copy_assign_independent stringOps worldAbc 0 1 (by decide) (by decide)
      (by decide)).2.2.2.2 "abc" (Optional.holds_of_rep rfl) ⟨rfl, fun _ => rfl⟩).2.1,
    (C9_copy_assign_independent stringOps worldAbc 0 1 (by decide) (by decide)
      (by decide)).2.2.1 "abc" (Optional.holds_of_rep rfl),
    (C9_copy_assign_independent stringOps worldAbc 1 0 (by decide) (by decide)
      (by decide)).2.1 (Optional.empty_of_rep rfl)⟩

/-! ## C8: move construction, C10: self-assignment -/

theorem Optional.dtor_engaged {w : World T} {a : Addr} {v : T}
    (hm : w.mem a = { data_ := some v, ptr_ := some a, is_initialized_ := true }) :
    Optional.dtor a w = (Except.ok (),
      { mem := Function.update w.mem a
          { data_ := none, ptr_ := none, is_initialized_ := false },
        log := w.log ++ [Event.dtor] }) :=
  Optional.Reset_engaged hm

theorem constructions_append (l1 l2 : List Event) :
    constructions (l1 ++ l2) = constructions l1 + constructions l2 := by
  simp [constructions, List.count_append]; omega

theorem destructions_append (l1 l2 : List Event) :
    destructions (l1 ++ l2) = destructions l1 + destructions l2 := by
  simp [destructions, List.count_append]

/-- C8: move-constructing `dst` from a valid engaged `src` holding `v`, when
`T`'s move constructor transfers `v`, yields an engaged `dst` holding `v` and
does not clear `src`: `src.HasValue()` is still true and `src` holds the
moved-from `T`. Destroying both containers afterwards, in either order, runs
`T`'s destructor exactly once per container, so over the whole life of the two
containers two `T` objects are constructed and two destroyed. Move-constructing
from an empty `src` yields an empty `dst` and runs no member function of `T`. -/
theorem C8_move_construct (ops : TOps T) (w : World T) (dst src : Addr)
    (hne : dst ≠ src) (hi : Optional.Inv w src) :
    (∀ v, Optional.Holds w src v → (ops.moveCtor v).1 = some v →
      (Optional.ctorMove ops dst src w).1 = Except.ok () ∧
      Optional.Holds (Optional.ctorMove ops dst src w).2 dst v ∧
      Optional.HasValue src (Optional.ctorMove ops dst src w).2 =
        (Except.ok true, (Optional.ctorMove ops dst src w).2) ∧
      Optional.Holds (Optional.ctorMove ops dst src w).2 src (ops.moveCtor v).2 ∧
      (Optional.ctorMove ops dst src w).2.log = w.log ++ [Event.moveCtor] ∧
      (Optional.dtor dst (Optional.ctorMove ops dst src w).2).1 = Except.ok () ∧
      (Optional.dtor dst (Optional.ctorMove ops dst src w).2).2.log =
        w.log ++ [Event.moveCtor, Event.dtor] ∧
      (Optional.dtor src (Optional.dtor dst (Optional.ctorMove ops dst src w).2).2).1 =
        Except.ok () ∧
      (Optional.dtor src (Optional.dtor dst (Optional.ctorMove ops dst src w).2).2).2.log =
        w.log ++ [Event.moveCtor, Event.dtor, Event.dtor] ∧
      (Optional.dtor src (Optional.ctorMove ops dst src w).2).1 = Except.ok () ∧
      (Optional.dtor src (Optional.ctorMove ops dst src w).2).2.log =
        w.log ++ [Event.moveCtor, Event.dtor] ∧
      (Optional.dtor dst (Optional.dtor src (Optional.ctorMove ops dst src w).2).2).1 =
        Except.ok () ∧
      (Optional.dtor dst (Optional.dtor src (Optional.ctorMove ops dst src w).2).2).2.log =
        w.log ++ [Event.moveCtor, Event.dtor, Event.dtor]) ∧
    (Optional.Empty w src →
      (Optional.ctorMove ops dst src w).1 = Except.ok () ∧
      Optional.Empty (Optional.ctorMove ops dst src w).2 dst ∧
      (Optional.ctorMove ops dst src w).2.log = w.log) ∧
    (∀ (w0 : World T) (v : T), ops.copyCtor v = some v → (ops.moveCtor v).1 = some v →
      ((do Optional.ctorCopyValue ops src v
           Optional.ctorMove ops dst src
           Optional.dtor dst
           Optional.dtor src : M T Unit) w0).1 = Except.ok () ∧
      constructions ((do Optional.ctorCopyValue ops src v
                         Optional.ctorMove ops dst src
                         Optional.dtor dst
                         Optional.dtor src : M T Unit) w0).2.log =
        constructions w0.log + 2 ∧
      destructions ((do Optional.ctorCopyValue ops src v
                        Optional.ctorMove ops dst src
                        Optional.dtor dst
                        Optional.dtor src : M T Unit) w0).2.log =
        destructions w0.log + 2) := by
  have key : ∀ (w1 : World T) (v : T),
      w1.mem src = { data_ := some v, ptr_ := some src, is_initialized_ := true } →
      (ops.moveCtor v).1 = some v →
      Optional.ctorMove ops dst src w1 = (Except.ok (),
        { mem := Function.update
            (Function.update w1.mem src
              { data_ := some (ops.moveCtor v).2, ptr_ := some src, is_initialized_ := true })
            dst { data_ := some v, ptr_ := some dst, is_initialized_ := true },
          log := w1.log ++ [Event.moveCtor] }) :=
    fun w1 v hm h => Optional.ctorMove_engaged ops hne hm h
  refine ⟨?_, ?_, ?_⟩
  · intro v hh hmv
    rw [key w v (hh.members hi) hmv]
    have hD : ∀ (m : Addr → Optional T) (l : List Event),
        (World.mk (Function.update (Function.update m src
            { data_ := some (ops.moveCtor v).2, ptr_ := some src, is_initialized_ := true })
            dst { data_ := some v, ptr_ := some dst, is_initialized_ := true }) l).mem dst =
          { data_ := some v, ptr_ := some dst, is_initialized_ := true } := by
      intro m l; simp
    have hS : ∀ (m : Addr → Optional T) (l : List Event),
        (World.mk (Function.update (Function.update m src
            { data_ := some (ops.moveCtor v).2, ptr_ := some src, is_initialized_ := true })
            dst { data_ := some v, ptr_ := some dst, is_initialized_ := true }) l).mem src =
          { data_ := some (ops.moveCtor v).2, ptr_ := some src, is_initialized_ := true } := by
      intro m l; simp [Function.update_noteq hne.symm]
    refine ⟨rfl, Optional.holds_of_rep (hD _ _), (Optional.holds_of_rep (hS _ _)).1,
      Optional.holds_of_rep (hS _ _), rfl, ?_, ?_, ?_, ?_, ?_, ?_, ?_, ?_⟩
    · rw [Optional.dtor_engaged (hD _ _)]
    · rw [Optional.dtor_engaged (hD _ _)]; simp
    · rw [Optional.dtor_engaged (hD _ _),
        Optional.dtor_engaged (v := (ops.moveCtor v).2)
          (by simp [Function.update_noteq hne.symm])]
    · rw [Optional.dtor_engaged (hD _ _),
        Optional.dtor_engaged (v := (ops.moveCtor v).2)
          (by simp [Function.update_noteq hne.symm])]
      simp
    · rw [Optional.dtor_engaged (hS _ _)]
    · rw [Optional.dtor_engaged (hS _ _)]; simp
    · rw [Optional.dtor_engaged (hS _ _),
        Optional.dtor_engaged (v := v) (by simp [Function.update_noteq hne])]
    · rw [Optional.dtor_engaged (hS _ _),
        Optional.dtor_engaged (v := v) (by simp [Function.update_noteq hne])]
      simp
  · intro he
    rw [Optional.ctorMove_empty ops he.not_engaged]
    exact ⟨rfl, Optional.empty_of_rep (by simp), rfl⟩
  · intro w0 v hc hmv
    have hrun : (do Optional.ctorCopyValue ops src v
                    Optional.ctorMove ops dst src
                    Optional.dtor dst
                    Optional.dtor src : M T Unit) w0 =
        (Except.ok (),
          { mem := Function.update (Function.update (Function.update
                (Function.update w0.mem src
                  { data_ := some v, ptr_ := some src, is_initialized_ := true })
                src { data_ := some (ops.moveCtor v).2, ptr_ := some src,
                      is_initialized_ := true })
                dst { data_ := none, ptr_ := none, is_initialized_ := false })
                src { data_ := none, ptr_ := none, is_initialized_ := false },
            log := w0.log ++ [Event.copyCtor, Event.moveCtor, Event.dtor, Event.dtor] }) := by
      simp only [M.bind_run]
      rw [Optional.ctorCopyValue_run ops w0 src hc]
      simp only
      rw [key _ v (World.mem_update_same _ _ _ _) hmv]
      simp only
      rw [Optional.dtor_engaged (v := v) (by simp)]
      simp only
      rw [Optional.dtor_engaged (v := (ops.moveCtor v).2)
        (by simp [Function.update_noteq hne.symm])]
      simp [Function.update_idem]
    rw [hrun]
    refine ⟨rfl, ?_, ?_⟩
    · simp [constructions_append, constructions]
      omega
    · simp [destructions_append, destructions]

/-- Witness for C8: `Optional<std::string>("abc")` at address `0`, and the empty
container at address `1`, moved into a new container at address `4`; and the
life of two containers, one constructed from `"abc"` and one moved from it. -/
theorem C8_witness :
    Optional.Inv worldAbc 0 ∧ Optional.Inv worldAbc 1 ∧
    Optional.Holds worldAbc 0 "abc" ∧ Optional.Empty worldAbc 1 ∧
    (stringOps.copyCtor "abc" = some "abc" ∧ (stringOps.moveCtor "abc").1 = some "abc") ∧
    Optional.Holds (Optional.ctorMove stringOps 4 0 worldAbc).2 4 "abc" ∧
    Optional.HasValue 0 (Optional.ctorMove stringOps 4 0 worldAbc).2 =
      (Except.ok true, (Optional.ctorMove stringOps 4 0 worldAbc).2) ∧
    Optional.Empty (Optional.ctorMove stringOps 4 1 worldAbc).2 4 ∧
    destructions ((do Optional.ctorCopyValue stringOps 0 "abc"
                      Optional.ctorMove stringOps 4 0
                      Optional.dtor 4
                      Optional.dtor 0 : M String Unit) World.empty).2.log =
      destructions (World.empty : World String).log + 2 :=
  ⟨by decide, by decide, Optional.holds_of_rep rfl, Optional.empty_of_rep rfl, ⟨rfl, rfl⟩,
    ((C8_move_construct stringOps worldAbc 4 0 (by decide) (by decide)).1 "abc"
      (Optional.holds_of_rep rfl) rfl).2.1,
    ((C8_move_construct stringOps worldAbc 4 0 (by decide) (by decide)).1 "abc"
      (Optional.holds_of_rep rfl) rfl).2.2.1,
    ((C8_move_construct stringOps worldAbc 4 1 (by decide) (by decide)).2.1
      (Optional.empty_of_rep rfl)).2.1,
    ((C8_move_construct stringOps worldAbc 4 0 (by decide) (by decide)).2.2
      World.empty "abc" rfl rfl).2.2⟩

/-- C10: assigning a valid container to itself, by `operator=(const Optional&)`
or by `operator=(Optional&&)`, returns `*this` without raising and leaves the
whole memory unchanged: an empty container stays empty and nothing runs; an
engaged one, when `T`'s self-assignment preserves the held value, still holds
that value, and the only member function of `T` that runs is its assignment
operator, so no `T` is constructed and none destroyed. -/
theorem C10_self_assignment (ops : TOps T) (w : World T) (a : Addr)
    (hi : Optional.Inv w a) :
    (Optional.Empty w a →
      Optional.assignCopy ops a a w = (Except.ok a, w) ∧
      Optional.assignMove ops a a w = (Except.ok a, w)) ∧
    (∀ v, Optional.Holds w a v → ops.SelfAssignKeeps v →
      ((Optional.assignCopy ops a a w).1 = Except.ok a ∧
        (Optional.assignCopy ops a a w).2.mem = w.mem ∧
        Optional.Holds (Optional.assignCopy ops a a w).2 a v ∧
        (Optional.assignCopy ops a a w).2.log = w.log ++ [Event.copyAssign] ∧
        constructions (Optional.assignCopy ops a a w).2.log = constructions w.log ∧
        destructions (Optional.assignCopy ops a a w).2.log = destructions w.log) ∧
      ((Optional.assignMove ops a a w).1 = Except.ok a ∧
        (Optional.assignMove ops a a w).2.mem = w.mem ∧
        Optional.Holds (Optional.assignMove ops a a w).2 a v ∧
        (Optional.assignMove ops a a w).2.log = w.log ++ [Event.moveAssign] ∧
        constructions (Optional.assignMove ops a a w).2.log = constructions w.log ∧
        destructions (Optional.assignMove ops a a w).2.log = destructions w.log)) := by
  constructor
  · intro he
    exact ⟨Optional.assignCopy_empty_empty ops he.not_engaged he.not_engaged,
      Optional.assignMove_empty_empty ops he.not_engaged he.not_engaged⟩
  · intro v hh hs
    have hrep := hh.members hi
    have hmem : Function.update w.mem a
        { data_ := some v, ptr_ := some a, is_initialized_ := true } = w.mem := by
      rw [← hrep]; exact Function.update_eq_self a w.mem
    constructor
    · rw [Optional.assignCopy_self_engaged ops hrep hs.1]
      refine ⟨rfl, hmem, Optional.holds_of_rep (World.mem_update_same _ _ _ _), rfl, ?_, ?_⟩
      · simp [constructions_append, constructions]
      · simp [destructions_append, destructions]
    · rw [Optional.assignMove_self_engaged ops hrep hs.2]
      refine ⟨rfl, hmem, Optional.holds_of_rep (World.mem_update_same _ _ _ _), rfl, ?_, ?_⟩
      · simp [constructions_append, constructions]
      · simp [destructions_append, destructions]

/-- Witness for C10: `Optional<int>(42)` and an empty `Optional<int>`, each
assigned to itself. -/
theorem C10_witness :
    Optional.Inv world42 0 ∧ Optional.Inv world42 1 ∧
    Optional.Holds world42 0 42 ∧ Optional.Empty world42 1 ∧ intOps.SelfAssignKeeps 42 ∧
    Optional.Holds (Optional.assignCopy intOps 0 0 world42).2 0 42 ∧
    Optional.Holds (Optional.assignMove intOps 0 0 world42).2 0 42 ∧
    Optional.assignCopy intOps 1 1 world42 = (Except.ok 1, world42) ∧
    Optional.assignMove intOps 1 1 world42 = (Except.ok 1, world42) :=
  ⟨by decide, by decide, Optional.holds_of_rep rfl, Optional.empty_of_rep rfl, ⟨rfl, rfl⟩,
    ((C10_self_assignment intOps world42 0 (by decide)).2 42 (Optional.holds_of_rep rfl)
      ⟨rfl, rfl⟩).1.2.2.1,
    ((C10_self_assignment intOps world42 0 (by decide)).2 42 (Optional.holds_of_rep rfl)
      ⟨rfl, rfl⟩).2.2.2.1,
    ((C10_self_assignment intOps world42 1 (by decide)).1 (Optional.empty_of_rep rfl)).1,
    ((C10_self_assignment intOps world42 1 (by decide)).1 (Optional.empty_of_rep rfl)).2⟩

/-! ## The remaining branches: move assignment, and every branch in which `T` throws -/

theorem Optional.ctorCopyValue_throws (ops : TOps T) (w : World T) (this : Addr) {v : T}
    (h : ops.copyCtor v = none) :
    Optional.ctorCopyValue ops this v w = (Except.error Fault.TException,
      { mem := Function.update w.mem this
          { data_ := none, ptr_ := none, is_initialized_ := true },
        log := w.log }) := by
  simp [Optional.ctorCopyValue, Optional.initMembers, setObj, newCopyVal, h, M.bind_run,
    M.raise]

theorem Optional.ctorMoveValue_throws (ops : TOps T) (w : World T) (this : Addr) {v : T}
    (h : (ops.moveCtor v).1 = none) :
    Optional.ctorMoveValue ops this v w = (Except.error Fault.TException,
      { mem := Function.update w.mem this
          { data_ := none, ptr_ := none, is_initialized_ := true },
        log := w.log }) := by
  simp [Optional.ctorMoveValue, Optional.initMembers, setObj, newMoveVal, h, M.bind_run,
    M.raise]

theorem Optional.ctorCopy_throws (ops : TOps T) {w : World T} {this other : Addr} {s : T}
    (hne : this ≠ other)
    (hs : w.mem other = { data_ := some s, ptr_ := some other, is_initialized_ := true })
    (h : ops.copyCtor s = none) :
    Optional.ctorCopy ops this other w = (Except.error Fault.TException,
      { mem := Function.update w.mem this
          { data_ := none, ptr_ := none, is_initialized_ := true },
        log := w.log }) := by
  simp [Optional.ctorCopy, M.bind_run, getObj, hs, Optional.initMembers, setObj,
    M.pure_run, Optional.ValueConst, derefPtr, newCopyRef, readT, newCopyVal, h,
    M.raise, Function.update_noteq hne.symm]

theorem Optional.ctorMove_throws (ops : TOps T) {w : World T} {this other : Addr} {s : T}
    (hne : this ≠ other)
    (hs : w.mem other = { data_ := some s, ptr_ := some other, is_initialized_ := true })
    (h : (ops.moveCtor s).1 = none) :
    Optional.ctorMove ops this other w = (Except.error Fault.TException,
      { mem := Function.update
          (Function.update w.mem other
            { data_ := some (ops.moveCtor s).2, ptr_ := some other, is_initialized_ := true })
          this { data_ := none, ptr_ := none, is_initialized_ := true },
        log := w.log }) := by
  simp [Optional.ctorMove, M.bind_run, getObj, hs, Optional.initMembers, setObj, M.pure_run,
    Optional.Value, derefPtr, newMoveRef, readT, writeT, h, setData, M.raise,
    Function.update_noteq hne.symm, Function.update_noteq hne]
  rw [Function.update_comm hne]

theorem Optional.assignCopyValue_empty_throws (ops : TOps T) {w : World T} {a : Addr} {v : T}
    (hm : w.mem a = { data_ := none, ptr_ := none, is_initialized_ := false })
    (h : ops.copyCtor v = none) :
    Optional.assignCopyValue ops a v w = (Except.error Fault.TException, w) := by
  simp [Optional.assignCopyValue, M.bind_run, getObj, hm, newCopyVal, h, M.raise]

theorem Optional.assignCopyValue_engaged_throws (ops : TOps T) {w : World T} {a : Addr}
    {d v : T}
    (hm : w.mem a = { data_ := some d, ptr_ := some a, is_initialized_ := true })
    (h : (ops.copyAssign d v).1 = false) :
    Optional.assignCopyValue ops a v w = (Except.error Fault.TException,
      { mem := Function.update w.mem a
          { data_ := some (ops.copyAssign d v).2, ptr_ := some a, is_initialized_ := true },
        log := w.log }) := by
  simp [Optional.assignCopyValue, M.bind_run, getObj, hm, assignCopyVal, derefPtr,
    readT, writeT, h, setData, M.raise, M.pure_run]

theorem Optional.assignMoveValue_empty_throws (ops : TOps T) {w : World T} {a : Addr} {v : T}
    (hm : w.mem a = { data_ := none, ptr_ := none, is_initialized_ := false })
    (h : (ops.moveCtor v).1 = none) :
    Optional.assignMoveValue ops a v w = (Except.error Fault.TException, w) := by
  simp [Optional.assignMoveValue, M.bind_run, getObj, hm, newMoveVal, h, M.raise]

theorem Optional.assignMoveValue_engaged_throws (ops : TOps T) {w : World T} {a : Addr}
    {d v : T}
    (hm : w.mem a = { data_ := some d, ptr_ := some a, is_initialized_ := true })
    (h : (ops.moveAssign d v).1 = false) :
    Optional.assignMoveValue ops a v w = (Except.error Fault.TException,
      { mem := Function.update w.mem a
          { data_ := some (ops.moveAssign d v).2.1, ptr_ := some a,
            is_initialized_ := true },
        log := w.log }) := by
  simp [Optional.assignMoveValue, M.bind_run, getObj, hm, assignMoveVal, derefPtr,
    readT, writeT, h, setData, M.raise, M.pure_run]

theorem Optional.assignCopy_empty_engaged_throws (ops : TOps T) {w : World T}
    {this rhs : Addr} {s : T}
    (hd : w.mem this = { data_ := none, ptr_ := none, is_initialized_ := false })
    (hs : w.mem rhs = { data_ := some s, ptr_ := some rhs, is_initialized_ := true })
    (h : ops.copyCtor s = none) :
    Optional.assignCopy ops this rhs w = (Except.error Fault.TException, w) := by
  simp [Optional.assignCopy, M.bind_run, getObj, hd, hs, M.pure_run,
    Optional.ValueConst, derefPtr, newCopyRef, readT, newCopyVal, h, M.raise]

theorem Optional.assignCopy_engaged_engaged_throws (ops : TOps T) {w : World T}
    {this rhs : Addr} {d s : T} (hne : this ≠ rhs)
    (hd : w.mem this = { data_ := some d, ptr_ := some this, is_initialized_ := true })
    (hs : w.mem rhs = { data_ := some s, ptr_ := some rhs, is_initialized_ := true })
    (h : (ops.copyAssign d s).1 = false) :
    Optional.assignCopy ops this rhs w = (Except.error Fault.TException,
      { mem := Function.update w.mem this
          { data_ := some (ops.copyAssign d s).2, ptr_ := some this,
            is_initialized_ := true },
        log := w.log }) := by
  simp [Optional.assignCopy, M.bind_run, getObj, hd, hs, M.pure_run,
    Optional.ValueConst, derefPtr, assignCopyRef, readT, writeT, h, setData, M.raise, hne]

theorem Optional.assignCopy_self_engaged_throws (ops : TOps T) {w : World T} {this : Addr}
    {d : T}
    (hd : w.mem this = { data_ := some d, ptr_ := some this, is_initialized_ := true })
    (h : (ops.copyAssignSelf d).1 = false) :
    Optional.assignCopy ops this this w = (Except.error Fault.TException,
      { mem := Function.update w.mem this
          { data_ := some (ops.copyAssignSelf d).2, ptr_ := some this,
            is_initialized_ := true },
        log := w.log }) := by
  simp [Optional.assignCopy, M.bind_run, getObj, hd, M.pure_run,
    Optional.ValueConst, derefPtr, assignCopyRef, readT, writeT, h, setData, M.raise]

theorem Optional.assignMove_empty_engaged (ops : TOps T) {w : World T} {this rhs : Addr}
    {s x : T} (hne : this ≠ rhs)
    (hd : w.mem this = { data_ := none, ptr_ := none, is_initialized_ := false })
    (hs : w.mem rhs = { data_ := some s, ptr_ := some rhs, is_initialized_ := true })
    (h : (ops.moveCtor s).1 = some x) :
    Optional.assignMove ops this rhs w = (Except.ok this,
      { mem := Function.update
          (Function.update w.mem rhs
            { data_ := some (ops.moveCtor s).2, ptr_ := some rhs, is_initialized_ := true })
          this { data_ := some x, ptr_ := some this, is_initialized_ := true },
        log := w.log ++ [Event.moveCtor] }) := by
  simp [Optional.assignMove, M.bind_run, getObj, hd, hs, M.pure_run,
    Optional.Value, derefPtr, newMoveRef, readT, writeT, h, setData, emit, setPtr,
    setInit, Function.update_noteq hne.symm, Function.update_noteq hne]

theorem Optional.assignMove_empty_engaged_throws (ops : TOps T) {w : World T}
    {this rhs : Addr} {s : T}
    (hd : w.mem this = { data_ := none, ptr_ := none, is_initialized_ := false })
    (hs : w.mem rhs = { data_ := some s, ptr_ := some rhs, is_initialized_ := true })
    (h : (ops.moveCtor s).1 = none) :
    Optional.assignMove ops this rhs w = (Except.error Fault.TException,
      { mem := Function.update w.mem rhs
          { data_ := some (ops.moveCtor s).2, ptr_ := some rhs, is_initialized_ := true },
        log := w.log }) := by
  simp [Optional.assignMove, M.bind_run, getObj, hd, hs, M.pure_run,
    Optional.Value, derefPtr, newMoveRef, readT, writeT, h, setData, M.raise]

theorem Optional.assignMove_engaged_empty (ops : TOps T) {w : World T} {this rhs : Addr}
    {d : T}
    (hd : w.mem this = { data_ := some d, ptr_ := some this, is_initialized_ := true })
    (hs : (w.mem rhs).is_initialized_ = false) :
    Optional.assignMove ops this rhs w = (Except.ok this,
      { mem := Function.update w.mem this
          { data_ := none, ptr_ := none, is_initialized_ := false },
        log := w.log ++ [Event.dtor] }) := by
  have hdi : (w.mem this).is_initialized_ = true := by rw [hd]
  simp [Optional.assignMove, M.bind_run, getObj, hdi, hs, M.pure_run,
    Optional.Reset_engaged hd]

theorem Optional.assignMove_engaged_engaged (ops : TOps T) {w : World T} {this rhs : Addr}
    {d s : T} (hne : this ≠ rhs)
    (hd : w.mem this = { data_ := some d, ptr_ := some this, is_initialized_ := true })
    (hs : w.mem rhs = { data_ := some s, ptr_ := some rhs, is_initialized_ := true })
    (h : (ops.moveAssign d s).1 = true) :
    Optional.assignMove ops this rhs w = (Except.ok this,
      { mem := Function.update
          (Function.update w.mem rhs
            { data_ := some (ops.moveAssign d s).2.2, ptr_ := some rhs,
              is_initialized_ := true })
          this { data_ := some (ops.moveAssign d s).2.1, ptr_ := some this,
                 is_initialized_ := true },
        log := w.log ++ [Event.moveAssign] }) := by
  simp [Optional.assignMove, M.bind_run, getObj, hd, hs, M.pure_run,
    Optional.Value, derefPtr, assignMoveRef, readT, writeT, h, setData, emit, hne,
    Function.update_noteq hne.symm, Function.update_noteq hne]

theorem Optional.assignMove_engaged_engaged_throws (ops : TOps T) {w : World T}
    {this rhs : Addr} {d s : T} (hne : this ≠ rhs)
    (hd : w.mem this = { data_ := some d, ptr_ := some this, is_initialized_ := true })
    (hs : w.mem rhs = { data_ := some s, ptr_ := some rhs, is_initialized_ := true })
    (h : (ops.moveAssign d s).1 = false) :
    Optional.assignMove ops this rhs w = (Except.error Fault.TException,
      { mem := Function.update
          (Function.update w.mem rhs
            { data_ := some (ops.moveAssign d s).2.2, ptr_ := some rhs,
              is_initialized_ := true })
          this { data_ := some (ops.moveAssign d s).2.1, ptr_ := some this,
                 is_initialized_ := true },
        log := w.log }) := by
  simp [Optional.assignMove, M.bind_run, getObj, hd, hs, M.pure_run,
    Optional.Value, derefPtr, assignMoveRef, readT, writeT, h, setData, M.raise, hne,
    Function.update_noteq hne.symm, Function.update_noteq hne]

theorem Optional.assignMove_self_engaged_throws (ops : TOps T) {w : World T} {this : Addr}
    {d : T}
    (hd : w.mem this = { data_ := some d, ptr_ := some this, is_initialized_ := true })
    (h : (ops.moveAssignSelf d).1 = false) :
    Optional.assignMove ops this this w = (Except.error Fault.TException,
      { mem := Function.update w.mem this
          { data_ := some (ops.moveAssignSelf d).2, ptr_ := some this,
            is_initialized_ := true },
        log := w.log }) := by
  simp [Optional.assignMove, M.bind_run, getObj, hd, M.pure_run,
    Optional.Value, derefPtr, assignMoveRef, readT, writeT, h, setData, M.raise]

/-! ## What every call guarantees, whatever `T` does -/

theorem Optional.frame_one (w : World T) (this : Addr) (D : Optional T) (l : List Event) :
    ∀ c, c ≠ this → Optional.Inv w c →
      Optional.Inv (World.mk (Function.update w.mem this D) l) c ∧
      ((World.mk (Function.update w.mem this D) l).mem c).is_initialized_ =
        (w.mem c).is_initialized_ := by
  intro c hc hi
  have hm : (World.mk (Function.update w.mem this D) l).mem c = w.mem c :=
    World.mem_update_other _ _ _ hc
  exact ⟨(Optional.Inv.transfer hm).mpr hi, by rw [hm]⟩

theorem Optional.frame_two (w : World T) (this rhs : Addr) {s : T} (m : T)
    (hs : w.mem rhs = { data_ := some s, ptr_ := some rhs, is_initialized_ := true })
    (D : Optional T) (l : List Event) :
    ∀ c, c ≠ this → Optional.Inv w c →
      Optional.Inv (World.mk (Function.update (Function.update w.mem rhs
          { data_ := some m, ptr_ := some rhs, is_initialized_ := true }) this D) l) c ∧
      ((World.mk (Function.update (Function.update w.mem rhs
          { data_ := some m, ptr_ := some rhs, is_initialized_ := true }) this D) l).mem
            c).is_initialized_ = (w.mem c).is_initialized_ := by
  intro c hc hi
  by_cases hcr : c = rhs
  · subst hcr
    have hm : (World.mk (Function.update (Function.update w.mem c
          { data_ := some m, ptr_ := some c, is_initialized_ := true }) this D) l).mem c =
        { data_ := some m, ptr_ := some c, is_initialized_ := true } := by
      simp [Function.update_noteq hc]
    exact ⟨Optional.Inv.of_engaged hm, by rw [hm, hs]⟩
  · have hm : (World.mk (Function.update (Function.update w.mem rhs
          { data_ := some m, ptr_ := some rhs, is_initialized_ := true }) this D) l).mem c =
        w.mem c := by
      simp [Function.update_noteq hc, Function.update_noteq hcr]
    exact ⟨(Optional.Inv.transfer hm).mpr hi, by rw [hm]⟩

theorem Optional.frame_src (w : World T) (rhs : Addr) {s : T} (m : T)
    (hs : w.mem rhs = { data_ := some s, ptr_ := some rhs, is_initialized_ := true })
    (l : List Event) :
    ∀ c, Optional.Inv w c →
      Optional.Inv (World.mk (Function.update w.mem rhs
          { data_ := some m, ptr_ := some rhs, is_initialized_ := true }) l) c ∧
      ((World.mk (Function.update w.mem rhs
          { data_ := some m, ptr_ := some rhs, is_initialized_ := true }) l).mem
            c).is_initialized_ = (w.mem c).is_initialized_ := by
  intro c hi
  by_cases hcr : c = rhs
  · subst hcr
    have hm : (World.mk (Function.update w.mem c
          { data_ := some m, ptr_ := some c, is_initialized_ := true }) l).mem c =
        { data_ := some m, ptr_ := some c, is_initialized_ := true } := by
      simp
    exact ⟨Optional.Inv.of_engaged hm, by rw [hm, hs]⟩
  · have hm : (World.mk (Function.update w.mem rhs
          { data_ := some m, ptr_ := some rhs, is_initialized_ := true }) l).mem c =
        w.mem c := World.mem_update_other _ _ _ hcr
    exact ⟨(Optional.Inv.transfer hm).mpr hi, by rw [hm]⟩

/-- `Reset()` on a valid container. -/
theorem Optional.Reset_sound {w : World T} {a : Addr} (hi : Optional.Inv w a) :
    Optional.Sound w a (Optional.Reset a w) := by
  rcases hi.cases with hm | ⟨v, hm⟩
  · have he : (w.mem a).is_initialized_ = false := by rw [hm]
    rw [Optional.Reset_empty he]
    exact ⟨hi, fun c _ h => ⟨h, rfl⟩, by simp only; omega, Or.inl rfl, fun h => by simp at h⟩
  · rw [Optional.Reset_engaged hm]
    refine ⟨Optional.Inv.of_empty (World.mem_update_same _ _ _ _),
      Optional.frame_one w a _ _, ?_, Or.inl rfl, fun h => by simp at h⟩
    simp [Optional.liveCount, hm, constructions_append, destructions_append, constructions,
      destructions]
    omega

/-- `operator=(const T&)` on a valid container. -/
theorem Optional.assignCopyValue_sound (ops : TOps T) {w : World T} {a : Addr} (v : T)
    (hi : Optional.Inv w a) : Optional.Sound w a (Optional.assignCopyValue ops a v w) := by
  rcases hi.cases with hm | ⟨d, hm⟩
  · cases h : ops.copyCtor v with
    | none =>
      rw [Optional.assignCopyValue_empty_throws ops hm h]
      exact ⟨hi, fun c _ h => ⟨h, rfl⟩, by simp only; omega, Or.inr rfl,
        fun _ => ⟨rfl, rfl⟩⟩
    | some x =>
      rw [Optional.assignCopyValue_empty ops hm h]
      refine ⟨Optional.Inv.of_engaged (World.mem_update_same _ _ _ _),
        Optional.frame_one w a _ _, ?_, Or.inl rfl, fun h => by simp at h⟩
      simp [Optional.liveCount, hm, constructions_append, destructions_append,
        constructions, destructions]
      omega
  · cases h : (ops.copyAssign d v).1 with
    | false =>
      rw [Optional.assignCopyValue_engaged_throws ops hm h]
      refine ⟨Optional.Inv.of_engaged (World.mem_update_same _ _ _ _),
        Optional.frame_one w a _ _, ?_, Or.inr rfl, fun _ => ⟨by simp [hm], rfl⟩⟩
      simp [Optional.liveCount, hm]
      omega
    | true =>
      rw [Optional.assignCopyValue_engaged ops hm (x := (ops.copyAssign d v).2)
        (by rw [← h])]
      refine ⟨Optional.Inv.of_engaged (World.mem_update_same _ _ _ _),
        Optional.frame_one w a _ _, ?_, Or.inl rfl, fun h => by simp at h⟩
      simp [Optional.liveCount, hm, constructions_append, destructions_append,
        constructions, destructions]
      omega

/-- `operator=(T&&)` on a valid container. -/
theorem Optional.assignMoveValue_sound (ops : TOps T) {w : World T} {a : Addr} (v : T)
    (hi : Optional.Inv w a) : Optional.Sound w a (Optional.assignMoveValue ops a v w) := by
  rcases hi.cases with hm | ⟨d, hm⟩
  · cases h : (ops.moveCtor v).1 with
    | none =>
      rw [Optional.assignMoveValue_empty_throws ops hm h]
      exact ⟨hi, fun c _ h => ⟨h, rfl⟩, by simp only; omega, Or.inr rfl,
        fun _ => ⟨rfl, rfl⟩⟩
    | some x =>
      rw [Optional.assignMoveValue_empty ops hm h]
      refine ⟨Optional.Inv.of_engaged (World.mem_update_same _ _ _ _),
        Optional.frame_one w a _ _, ?_, Or.inl rfl, fun h => by simp at h⟩
      simp [Optional.liveCount, hm, constructions_append, destructions_append,
        constructions, destructions]
      omega
  · cases h : (ops.moveAssign d v).1 with
    | false =>
      rw [Optional.assignMoveValue_engaged_throws ops hm h]
      refine ⟨Optional.Inv.of_engaged (World.mem_update_same _ _ _ _),
        Optional.frame_one w a _ _, ?_, Or.inr rfl, fun _ => ⟨by simp [hm], rfl⟩⟩
      simp [Optional.liveCount, hm]
      omega
    | true =>
      rw [Optional.assignMoveValue_engaged ops hm h rfl]
      refine ⟨Optional.Inv.of_engaged (World.mem_update_same _ _ _ _),
        Optional.frame_one w a _ _, ?_, Or.inl rfl, fun h => by simp at h⟩
      simp [Optional.liveCount, hm, constructions_append, destructions_append,
        constructions, destructions]
      omega

/-- `operator=(const Optional&)` between valid containers, the same or distinct. -/
theorem Optional.assignCopy_sound (ops : TOps T) {w : World T} {this rhs : Addr}
    (hi : Optional.Inv w this) (hr : Optional.Inv w rhs) :
    Optional.Sound w this (Optional.assignCopy ops this rhs w) := by
  by_cases hne : this = rhs
  · subst hne
    rcases hi.cases with hd | ⟨d, hd⟩
    · have he : (w.mem this).is_initialized_ = false := by rw [hd]
      rw [Optional.assignCopy_empty_empty ops he he]
      exact ⟨hi, fun c _ h => ⟨h, rfl⟩, by simp only; omega, Or.inl rfl,
        fun h => by simp at h⟩
    · cases h : (ops.copyAssignSelf d).1 with
      | false =>
        rw [Optional.assignCopy_self_engaged_throws ops hd h]
        refine ⟨Optional.Inv.of_engaged (World.mem_update_same _ _ _ _),
          Optional.frame_one w this _ _, ?_, Or.inr rfl, fun _ => ⟨by simp [hd], rfl⟩⟩
        simp [Optional.liveCount, hd]
        omega
      | true =>
        rw [Optional.assignCopy_self_engaged ops hd (x := (ops.copyAssignSelf d).2)
          (by rw [← h])]
        refine ⟨Optional.Inv.of_engaged (World.mem_update_same _ _ _ _),
          Optional.frame_one w this _ _, ?_, Or.inl rfl, fun h => by simp at h⟩
        simp [Optional.liveCount, hd, constructions_append, destructions_append,
          constructions, destructions]
        omega
  · rcases hi.cases with hd | ⟨d, hd⟩
    · rcases hr.cases with hs | ⟨s, hs⟩
      · have h1 : (w.mem this).is_initialized_ = false := by rw [hd]
        have h2 : (w.mem rhs).is_initialized_ = false := by rw [hs]
        rw [Optional.assignCopy_empty_empty ops h1 h2]
        exact ⟨hi, fun c _ h => ⟨h, rfl⟩, by simp only; omega, Or.inl rfl,
          fun h => by simp at h⟩
      · cases h : ops.copyCtor s with
        | none =>
          rw [Optional.assignCopy_empty_engaged_throws ops hd hs h]
          exact ⟨hi, fun c _ h => ⟨h, rfl⟩, by simp only; omega, Or.inr rfl,
            fun _ => ⟨rfl, rfl⟩⟩
        | some x =>
          rw [Optional.assignCopy_empty_engaged ops hne hd hs h]
          refine ⟨Optional.Inv.of_engaged (World.mem_update_same _ _ _ _),
            Optional.frame_one w this _ _, ?_, Or.inl rfl, fun h => by simp at h⟩
          simp [Optional.liveCount, hd, constructions_append, destructions_append,
            constructions, destructions]
          omega
    · rcases hr.cases with hs | ⟨s, hs⟩
      · have h2 : (w.mem rhs).is_initialized_ = false := by rw [hs]
        rw [Optional.assignCopy_engaged_empty ops hd h2]
        refine ⟨Optional.Inv.of_empty (World.mem_update_same _ _ _ _),
          Optional.frame_one w this _ _, ?_, Or.inl rfl, fun h => by simp at h⟩
        simp [Optional.liveCount, hd, constructions_append, destructions_append,
          constructions, destructions]
        omega
      · cases h : (ops.copyAssign d s).1 with
        | false =>
          rw [Optional.assignCopy_engaged_engaged_throws ops hne hd hs h]
          refine ⟨Optional.Inv.of_engaged (World.mem_update_same _ _ _ _),
            Optional.frame_one w this _ _, ?_, Or.inr rfl, fun _ => ⟨by simp [hd], rfl⟩⟩
          simp [Optional.liveCount, hd]
          omega
        | true =>
          rw [Optional.assignCopy_engaged_engaged ops hne hd hs
            (x := (ops.copyAssign d s).2) (by rw [← h])]
          refine ⟨Optional.Inv.of_engaged (World.mem_update_same _ _ _ _),
            Optional.frame_one w this _ _, ?_, Or.inl rfl, fun h => by simp at h⟩
          simp [Optional.liveCount, hd, constructions_append, destructions_append,
            constructions, destructions]
          omega

/-- `operator=(Optional&&)` between valid containers, the same or distinct. -/
theorem Optional.assignMove_sound (ops : TOps T) {w : World T} {this rhs : Addr}
    (hi : Optional.Inv w this) (hr : Optional.Inv w rhs) :
    Optional.Sound w this (Optional.assignMove ops this rhs w) := by
  by_cases hne : this = rhs
  · subst hne
    rcases hi.cases with hd | ⟨d, hd⟩
    · have he : (w.mem this).is_initialized_ = false := by rw [hd]
      rw [Optional.assignMove_empty_empty ops he he]
      exact ⟨hi, fun c _ h => ⟨h, rfl⟩, by simp only; omega, Or.inl rfl,
        fun h => by simp at h⟩
    · cases h : (ops.moveAssignSelf d).1 with
      | false =>
        rw [Optional.assignMove_self_engaged_throws ops hd h]
        refine ⟨Optional.Inv.of_engaged (World.mem_update_same _ _ _ _),
          Optional.frame_one w this _ _, ?_, Or.inr rfl, fun _ => ⟨by simp [hd], rfl⟩⟩
        simp [Optional.liveCount, hd]
        omega
      | true =>
        rw [Optional.assignMove_self_engaged ops hd (x := (ops.moveAssignSelf d).2)
          (by rw [← h])]
        refine ⟨Optional.Inv.of_engaged (World.mem_update_same _ _ _ _),
          Optional.frame_one w this _ _, ?_, Or.inl rfl, fun h => by simp at h⟩
        simp [Optional.liveCount, hd, constructions_append, destructions_append,
          constructions, destructions]
        omega
  · have hthis : ∀ (m : Addr → Optional T) (R : Optional T) (l : List Event),
        (World.mk (Function.update m rhs R) l).mem this = m this :=
      fun m R l => World.mem_update_other _ _ _ hne
    rcases hi.cases with hd | ⟨d, hd⟩
    · rcases hr.cases with hs | ⟨s, hs⟩
      · have h1 : (w.mem this).is_initialized_ = false := by rw [hd]
        have h2 : (w.mem rhs).is_initialized_ = false := by rw [hs]
        rw [Optional.assignMove_empty_empty ops h1 h2]
        exact ⟨hi, fun c _ h => ⟨h, rfl⟩, by simp only; omega, Or.inl rfl,
          fun h => by simp at h⟩
      · cases h : (ops.moveCtor s).1 with
        | none =>
          rw [Optional.assignMove_empty_engaged_throws ops hd hs h]
          refine ⟨(Optional.Inv.transfer (hthis _ _ _)).mpr hi,
            fun c _ hc => Optional.frame_src w rhs _ hs _ c hc, ?_, Or.inr rfl,
            fun _ => ⟨by rw [hthis], rfl⟩⟩
          simp [Optional.liveCount, hd, Function.update_noteq hne]
          omega
        | some x =>
          rw [Optional.assignMove_empty_engaged ops hne hd hs h]
          refine ⟨Optional.Inv.of_engaged (World.mem_update_same _ _ _ _),
            Optional.frame_two w this rhs _ hs _ _, ?_, Or.inl rfl, fun h => by simp at h⟩
          simp [Optional.liveCount, hd, constructions_append, destructions_append,
            constructions, destructions]
          omega
    · rcases hr.cases with hs | ⟨s, hs⟩
      · have h2 : (w.mem rhs).is_initialized_ = false := by rw [hs]
        rw [Optional.assignMove_engaged_empty ops hd h2]
        refine ⟨Optional.Inv.of_empty (World.mem_update_same _ _ _ _),
          Optional.frame_one w this _ _, ?_, Or.inl rfl, fun h => by simp at h⟩
        simp [Optional.liveCount, hd, constructions_append, destructions_append,
          constructions, destructions]
        omega
      · cases h : (ops.moveAssign d s).1 with
        | false =>
          rw [Optional.assignMove_engaged_engaged_throws ops hne hd hs h]
          refine ⟨Optional.Inv.of_engaged (World.mem_update_same _ _ _ _),
            Optional.frame_two w this rhs _ hs _ _, ?_, Or.inr rfl,
            fun _ => ⟨by simp [hd], rfl⟩⟩
          simp [Optional.liveCount, hd]
          omega
        | true =>
          rw [Optional.assignMove_engaged_engaged ops hne hd hs h]
          refine ⟨Optional.Inv.of_engaged (World.mem_update_same _ _ _ _),
            Optional.frame_two w this rhs _ hs _ _, ?_, Or.inl rfl, fun h => by simp at h⟩
          simp [Optional.liveCount, hd, constructions_append, destructions_append,
            constructions, destructions]
          omega

/-- `Optional()`. -/
theorem Optional.ctorDefault_sound (w : World T) (this : Addr) :
    Optional.SoundCtor w this (Optional.ctorDefault this w) := by
  rw [Optional.ctorDefault_run]
  refine ⟨Optional.frame_one w this _ _, Or.inl rfl,
    fun _ => ⟨Optional.Inv.of_empty (World.mem_update_same _ _ _ _), ?_⟩,
    fun h => by simp at h⟩
  simp [Optional.liveCount]
  omega

/-- `Optional(const T&)`. -/
theorem Optional.ctorCopyValue_sound (ops : TOps T) (w : World T) (this : Addr) (v : T) :
    Optional.SoundCtor w this (Optional.ctorCopyValue ops this v w) := by
  cases h : ops.copyCtor v with
  | none =>
    rw [Optional.ctorCopyValue_throws ops w this h]
    exact ⟨Optional.frame_one w this _ _, Or.inr rfl, fun h => by simp [returned] at h,
      fun _ => rfl⟩
  | some x =>
    rw [Optional.ctorCopyValue_run ops w this h]
    refine ⟨Optional.frame_one w this _ _, Or.inl rfl,
      fun _ => ⟨Optional.Inv.of_engaged (World.mem_update_same _ _ _ _), ?_⟩,
      fun h => by simp at h⟩
    simp [Optional.liveCount, constructions_append, destructions_append,
      constructions, destructions]
    omega

/-- `Optional(T&&)`. -/
theorem Optional.ctorMoveValue_sound (ops : TOps T) (w : World T) (this : Addr) (v : T) :
    Optional.SoundCtor w this (Optional.ctorMoveValue ops this v w) := by
  cases h : (ops.moveCtor v).1 with
  | none =>
    rw [Optional.ctorMoveValue_throws ops w this h]
    exact ⟨Optional.frame_one w this _ _, Or.inr rfl, fun h => by simp [returned] at h,
      fun _ => rfl⟩
  | some x =>
    rw [Optional.ctorMoveValue_run ops w this h]
    refine ⟨Optional.frame_one w this _ _, Or.inl rfl,
      fun _ => ⟨Optional.Inv.of_engaged (World.mem_update_same _ _ _ _), ?_⟩,
      fun h => by simp at h⟩
    simp [Optional.liveCount, constructions_append, destructions_append,
      constructions, destructions]
    omega

/-- `Optional(const Optional&)` from a valid container into other storage. -/
theorem Optional.ctorCopy_sound (ops : TOps T) {w : World T} {this other : Addr}
    (hne : this ≠ other) (hr : Optional.Inv w other) :
    Optional.SoundCtor w this (Optional.ctorCopy ops this other w) := by
  rcases hr.cases with hs | ⟨s, hs⟩
  · have he : (w.mem other).is_initialized_ = false := by rw [hs]
    rw [Optional.ctorCopy_empty ops he]
    refine ⟨Optional.frame_one w this _ _, Or.inl rfl,
      fun _ => ⟨Optional.Inv.of_empty (World.mem_update_same _ _ _ _), ?_⟩,
      fun h => by simp at h⟩
    simp [Optional.liveCount]
    omega
  · cases h : ops.copyCtor s with
    | none =>
      rw [Optional.ctorCopy_throws ops hne hs h]
      exact ⟨Optional.frame_one w this _ _, Or.inr rfl, fun h => by simp [returned] at h,
        fun _ => rfl⟩
    | some x =>
      rw [Optional.ctorCopy_engaged ops hne hs h]
      refine ⟨Optional.frame_one w this _ _, Or.inl rfl,
        fun _ => ⟨Optional.Inv.of_engaged (World.mem_update_same _ _ _ _), ?_⟩,
        fun h => by simp at h⟩
      simp [Optional.liveCount, constructions_append, destructions_append,
        constructions, destructions]
      omega

/-- `Optional(Optional&&)` from a valid container into other storage. -/
theorem Optional.ctorMove_sound (ops : TOps T) {w : World T} {this other : Addr}
    (hne : this ≠ other) (hr : Optional.Inv w other) :
    Optional.SoundCtor w this (Optional.ctorMove ops this other w) := by
  rcases hr.cases with hs | ⟨s, hs⟩
  · have he : (w.mem other).is_initialized_ = false := by rw [hs]
    rw [Optional.ctorMove_empty ops he]
    refine ⟨Optional.frame_one w this _ _, Or.inl rfl,
      fun _ => ⟨Optional.Inv.of_empty (World.mem_update_same _ _ _ _), ?_⟩,
      fun h => by simp at h⟩
    simp [Optional.liveCount]
    omega
  · cases h : (ops.moveCtor s).1 with
    | none =>
      rw [Optional.ctorMove_throws ops hne hs h]
      exact ⟨Optional.frame_two w this other _ hs _ _, Or.inr rfl,
        fun h => by simp [returned] at h, fun _ => rfl⟩
    | some x =>
      rw [Optional.ctorMove_engaged ops hne hs h]
      refine ⟨Optional.frame_two w this other _ hs _ _, Or.inl rfl,
        fun _ => ⟨Optional.Inv.of_engaged (World.mem_update_same _ _ _ _), ?_⟩,
        fun h => by simp at h⟩
      simp [Optional.liveCount, constructions_append, destructions_append,
        constructions, destructions]
      omega

/-! ## C11: client programs leak no `T` -/

theorem sum_map_agree (f g : Addr → Nat) (l : List Addr) (h : ∀ c ∈ l, g c = f c) :
    (l.map g).sum = (l.map f).sum := by
  induction l with
  | nil => rfl
  | cons x xs ih =>
    simp [h x (List.mem_cons_self _ _),
      ih (fun c hc => h c (List.mem_cons_of_mem _ hc))]

theorem sum_map_replace (f g : Addr → Nat) (l : List Addr) (a : Addr) (hn : l.Nodup)
    (ha : a ∈ l) (h : ∀ c ∈ l, c ≠ a → g c = f c) :
    (l.map g).sum + f a = (l.map f).sum + g a := by
  induction l with
  | nil => simp at ha
  | cons x xs ih =>
    have hx : x ∉ xs := (List.nodup_cons.mp hn).1
    have hxs : xs.Nodup := (List.nodup_cons.mp hn).2
    by_cases hxa : x = a
    · subst hxa
      have hs : (xs.map g).sum = (xs.map f).sum :=
        sum_map_agree f g xs (fun c hc =>
          h c (List.mem_cons_of_mem _ hc) (fun e => hx (e ▸ hc)))
      simp [hs]
      omega
    · have ha1 : a ∈ xs := by
        rcases List.mem_cons.mp ha with e | e
        · exact absurd e.symm hxa
        · exact e
      have h1 := ih hxs ha1 (fun c hc hca => h c (List.mem_cons_of_mem _ hc) hca)
      have hgx := h x (List.mem_cons_self _ _) hxa
      simp [hgx]
      omega

theorem sum_map_erase_add (f : Addr → Nat) (l : List Addr) (a : Addr) (ha : a ∈ l) :
    ((l.erase a).map f).sum + f a = (l.map f).sum := by
  induction l with
  | nil => simp at ha
  | cons x xs ih =>
    by_cases hxa : x = a
    · subst hxa
      simp
      omega
    · have ha1 : a ∈ xs := by
        rcases List.mem_cons.mp ha with e | e
        · exact absurd e.symm hxa
        · exact e
      have h1 := ih ha1
      rw [List.erase_cons_tail (by simpa using hxa)]
      simp
      omega

theorem Optional.liveCount_congr {w w1 : World T} {c : Addr}
    (h : (w1.mem c).is_initialized_ = (w.mem c).is_initialized_) :
    Optional.liveCount w1 c = Optional.liveCount w c := by
  simp [Optional.liveCount, h]

/-- Discarding the reference an assignment returns keeps its guarantees. -/
theorem Optional.Sound.discard {α : Type} {w : World T} {this : Addr} {x : M T α}
    (h : Optional.Sound w this (x w)) :
    Optional.Sound w this ((x >>= fun _ => (pure () : M T Unit)) w) := by
  rw [M.bind_run]
  cases hx : x w with
  | mk o w1 =>
    rw [hx] at h
    cases o with
    | ok a =>
      exact ⟨h.inv, h.frame, h.balance, Or.inl rfl, fun e => by simp [M.pure_run] at e⟩
    | error e =>
      refine ⟨h.inv, h.frame, h.balance, ?_, ?_⟩
      · rcases h.outcome with h1 | h1
        · simp [returned] at h1
        · right
          simp only at h1 ⊢
          rw [Except.error.injEq] at h1
          rw [h1]
      · intro _
        rcases h.outcome with h1 | h1
        · simp [returned] at h1
        · exact h.atomic h1

/-- A call on an existing container keeps the program state consistent. -/
theorem Program.Good.step_sound {w0 w : World T} {alive : List Addr} {this : Addr}
    {r : Except Fault Unit × World T} (hg : Program.Good w0 w alive) (ht : this ∈ alive)
    (hs : Optional.Sound w this r) : Program.Good w0 r.2 alive := by
  obtain ⟨hn, hi, hb⟩ := hg
  refine ⟨hn, ?_, ?_⟩
  · intro a ha
    by_cases e : a = this
    · subst e; exact hs.inv
    · exact (hs.frame a e (hi a ha)).1
  · have h1 := sum_map_replace (Optional.liveCount w) (Optional.liveCount r.2) alive this hn ht
      (fun c hc hne => Optional.liveCount_congr (hs.frame c hne (hi c hc)).2)
    have h2 := hs.balance
    omega

/-- A constructor call on storage where no container exists keeps the program
state consistent. -/
theorem Program.Good.step_ctor {w0 w : World T} {alive : List Addr} {this : Addr}
    {r : Except Fault Unit × World T} (hg : Program.Good w0 w alive) (ht : this ∉ alive)
    (hs : Optional.SoundCtor w this r) :
    Program.Good w0 r.2 (if returned r.1 = true then this :: alive else alive) := by
  obtain ⟨hn, hi, hb⟩ := hg
  have hsum : (alive.map (Optional.liveCount r.2)).sum =
      (alive.map (Optional.liveCount w)).sum :=
    sum_map_agree _ _ alive (fun c hc =>
      Optional.liveCount_congr (hs.frame c (fun e => ht (e ▸ hc)) (hi c hc)).2)
  have hothers : ∀ a ∈ alive, Optional.Inv r.2 a := fun a ha =>
    (hs.frame a (fun e => ht (e ▸ ha)) (hi a ha)).1
  by_cases hr : returned r.1 = true
  · rw [if_pos hr]
    obtain ⟨hinv, hbal⟩ := hs.built hr
    refine ⟨List.nodup_cons.mpr ⟨ht, hn⟩, ?_, ?_⟩
    · intro a ha
      rcases List.mem_cons.mp ha with e | e
      · subst e; exact hinv
      · exact hothers a e
    · simp only [List.map_cons, List.sum_cons]
      omega
  · rw [if_neg hr]
    refine ⟨hn, hothers, ?_⟩
    rcases hs.outcome with h1 | h1
    · exact absurd h1 hr
    · have := hs.failed h1
      rw [this, hsum]
      exact hb

/-- The destructor of an existing container keeps the program state
consistent. -/
theorem Program.Good.step_dtor {w0 w : World T} {alive : List Addr} {this : Addr}
    (hg : Program.Good w0 w alive) (ht : this ∈ alive) :
    Program.Good w0 (Optional.dtor this w).2 (alive.erase this) := by
  obtain ⟨hn, hi, hb⟩ := hg
  have hs : Optional.Sound w this (Optional.dtor this w) := Optional.Reset_sound (hi this ht)
  have hflag : ((Optional.dtor this w).2.mem this).is_initialized_ = false :=
    (Optional.Reset_inv (hi this ht)).2.1
  refine ⟨hn.erase this, ?_, ?_⟩
  · intro a ha
    have := (List.Nodup.mem_erase_iff hn).mp ha
    exact (hs.frame a this.1 (hi a this.2)).1
  · have h1 : ((alive.erase this).map (Optional.liveCount (Optional.dtor this w).2)).sum =
        ((alive.erase this).map (Optional.liveCount w)).sum :=
      sum_map_agree _ _ _ (fun c hc => by
        have := (List.Nodup.mem_erase_iff hn).mp hc
        exact Optional.liveCount_congr (hs.frame c this.1 (hi c this.2)).2)
    have h2 := sum_map_erase_add (Optional.liveCount w) alive this ht
    have h3 := hs.balance
    have h4 : Optional.liveCount (Optional.dtor this w).2 this = 0 := by
      simp [Optional.liveCount, hflag]
    omega

/-- Every admissible call keeps the program state consistent. -/
theorem Program.Good.step (ops : TOps T) {w0 w : World T} {alive : List Addr} (op : Op T)
    (hg : Program.Good w0 w alive) (ha : op.admissible alive = true) :
    Program.Good w0 (op.run ops w).2 (op.aliveAfter alive (op.run ops w).1) := by
  cases op with
  | ctorDefault this =>
    simp only [Op.admissible, decide_eq_true_eq] at ha
    exact hg.step_ctor ha (Optional.ctorDefault_sound w this)
  | ctorCopyValue this v =>
    simp only [Op.admissible, decide_eq_true_eq] at ha
    exact hg.step_ctor ha (Optional.ctorCopyValue_sound ops w this v)
  | ctorMoveValue this v =>
    simp only [Op.admissible, decide_eq_true_eq] at ha
    exact hg.step_ctor ha (Optional.ctorMoveValue_sound ops w this v)
  | ctorCopy this other =>
    simp only [Op.admissible, Bool.and_eq_true, decide_eq_true_eq] at ha
    exact hg.step_ctor ha.1
      (Optional.ctorCopy_sound ops (fun e => ha.1 (e ▸ ha.2)) (hg.2.1 other ha.2))
  | ctorMove this other =>
    simp only [Op.admissible, Bool.and_eq_true, decide_eq_true_eq] at ha
    exact hg.step_ctor ha.1
      (Optional.ctorMove_sound ops (fun e => ha.1 (e ▸ ha.2)) (hg.2.1 other ha.2))
  | assignCopyValue this v =>
    simp only [Op.admissible, decide_eq_true_eq] at ha
    exact hg.step_sound ha (Optional.assignCopyValue_sound ops v (hg.2.1 this ha)).discard
  | assignMoveValue this v =>
    simp only [Op.admissible, decide_eq_true_eq] at ha
    exact hg.step_sound ha (Optional.assignMoveValue_sound ops v (hg.2.1 this ha)).discard
  | assignCopy this rhs =>
    simp only [Op.admissible, Bool.and_eq_true, decide_eq_true_eq] at ha
    exact hg.step_sound ha.1
      (Optional.assignCopy_sound ops (hg.2.1 this ha.1) (hg.2.1 rhs ha.2)).discard
  | assignMove this rhs =>
    simp only [Op.admissible, Bool.and_eq_true, decide_eq_true_eq] at ha
    exact hg.step_sound ha.1
      (Optional.assignMove_sound ops (hg.2.1 this ha.1) (hg.2.1 rhs ha.2)).discard
  | reset this =>
    simp only [Op.admissible, decide_eq_true_eq] at ha
    exact hg.step_sound ha (Optional.Reset_sound (hg.2.1 this ha))
  | dtor this =>
    simp only [Op.admissible, decide_eq_true_eq] at ha
    exact hg.step_dtor ha

/-- A program that runs from a consistent state ends in a consistent state. -/
theorem Program.Good.run (ops : TOps T) {w0 : World T} (prog : List (Op T)) :
    ∀ {w : World T} {alive : List Addr} {wf : World T} {aliveF : List Addr},
      Program.Good w0 w alive → runProgram ops prog w alive = some (wf, aliveF) →
      Program.Good w0 wf aliveF := by
  induction prog with
  | nil =>
    intro w alive wf aliveF hg hr
    simp only [runProgram, Option.some.injEq, Prod.mk.injEq] at hr
    rw [← hr.1, ← hr.2]
    exact hg
  | cons op rest ih =>
    intro w alive wf aliveF hg hr
    by_cases ha : op.admissible alive = true
    · simp only [runProgram, ha, if_true] at hr
      exact ih (hg.step ops op ha) hr
    · simp [runProgram, ha] at hr

/-- At the start, with no container in existence, the state is consistent. -/
theorem Program.Good.start (w0 : World T) : Program.Good w0 w0 [] :=
  ⟨List.nodup_nil, fun a ha => by simp at ha, by simp; omega⟩

/-- Destroying every existing container is admissible and leaves none. -/
theorem runProgram_destroy_all (ops : TOps T) :
    ∀ (alive : List Addr) (w : World T), alive.Nodup →
      ∃ wf, runProgram ops (alive.map Op.dtor) w alive = some (wf, []) := by
  intro alive
  induction alive with
  | nil => intro w _; exact ⟨w, rfl⟩
  | cons a rest ih =>
    intro w hn
    obtain ⟨wf, hwf⟩ := ih (Optional.dtor a w).2 (List.nodup_cons.mp hn).2
    refine ⟨wf, ?_⟩
    simp only [List.map_cons, runProgram, Op.admissible, List.mem_cons, true_or,
      decide_True, if_true, Op.run, Op.aliveAfter, List.erase_cons_head]
    exact hwf

/-- Running two programs in a row. -/
theorem runProgram_append (ops : TOps T) (p q : List (Op T)) :
    ∀ (w : World T) (alive : List Addr) (w1 : World T) (alive1 : List Addr),
      runProgram ops p w alive = some (w1, alive1) →
      runProgram ops (p ++ q) w alive = runProgram ops q w1 alive1 := by
  induction p with
  | nil =>
    intro w alive w1 alive1 h
    simp only [runProgram, Option.some.injEq, Prod.mk.injEq] at h
    rw [List.nil_append, h.1, h.2]
  | cons op rest ih =>
    intro w alive w1 alive1 h
    by_cases ha : op.admissible alive = true
    · simp only [runProgram, ha, if_true] at h
      simp only [List.cons_append, runProgram, ha, if_true]
      exact ih _ _ _ _ h
    · simp [runProgram, ha] at h

/-- C11: a client program is any finite sequence of constructor calls (of the
five forms), of the four assignments, of `Reset()` and of destructor calls, each
made on storage or on containers for which it is admissible, started with no
container in existence. At every point of its run the `T` objects constructed
and not yet destroyed are exactly those of the engaged existing containers; so
once every container has been destroyed, constructions of `T` equal
destructions of `T`. From every point reached, destroying the existing
containers is possible and gives that balance. The destructor of a container is
`Reset()`. -/
theorem C11_no_leak (ops : TOps T) (prog : List (Op T)) (w0 : World T) :
    (∀ wf, runProgram ops prog w0 [] = some (wf, []) →
      constructions wf.log + destructions w0.log =
        destructions wf.log + constructions w0.log) ∧
    (∀ wf alive, runProgram ops prog w0 [] = some (wf, alive) →
      constructions wf.log + destructions w0.log =
        destructions wf.log + constructions w0.log +
          (alive.map (Optional.liveCount wf)).sum ∧
      ∃ wf1, runProgram ops (prog ++ alive.map Op.dtor) w0 [] = some (wf1, []) ∧
        constructions wf1.log + destructions w0.log =
          destructions wf1.log + constructions w0.log) ∧
    (∀ a : Addr, (Optional.dtor a : M T Unit) = Optional.Reset a) := by
  have hfin : ∀ wf, runProgram ops prog w0 [] = some (wf, []) →
      constructions wf.log + destructions w0.log =
        destructions wf.log + constructions w0.log := by
    intro wf h
    have hg := (Program.Good.start w0).run ops prog h
    simpa using hg.2.2
  refine ⟨hfin, ?_, fun _ => rfl⟩
  intro wf alive h
  have hg := (Program.Good.start w0).run ops prog h
  refine ⟨hg.2.2, ?_⟩
  obtain ⟨wf1, h1⟩ := runProgram_destroy_all ops alive wf hg.1
  have h2 : runProgram ops (prog ++ alive.map Op.dtor) w0 [] = some (wf1, []) := by
    rw [runProgram_append ops prog _ w0 [] wf alive h]
    exact h1
  refine ⟨wf1, h2, ?_⟩
  have hg1 := (Program.Good.start w0).run ops _ h2
  simpa using hg1.2.2

/-- Witness for C11: a program on `Optional<std::string>` that uses every kind
of call and destroys its five containers constructs and destroys the same
number of strings. -/
theorem C11_witness :
    ∃ wf, runProgram stringOps demoProgram World.empty [] = some (wf, []) ∧
      constructions wf.log = destructions wf.log :=
  ⟨_, rfl, by
    simpa [World.empty, constructions, destructions] using
      (C11_no_leak stringOps demoProgram World.empty).1 _ rfl⟩

/-! ## C12, C13: what can be raised; the move-assignment matrix -/

theorem not_bad_of_outcome {α : Type} {o : Except Fault α}
    (h : returned o = true ∨ o = Except.error Fault.TException) :
    o ≠ Except.error Fault.BadOptionalAccess := by
  rcases h with h | h
  · intro e; rw [e] at h; simp [returned] at h
  · rw [h]; simp

/-- C12: on valid containers, whatever their state and whatever `T` does, the
four assignment operators and the two constructors from a container either
return or propagate an exception of `T`; none of them raises
`BadOptionalAccess`, although the container forms call `Value()` on their
source. When the source is empty they return, while `Value()` on that source
would throw, so that call is not reached. `HasValue()` and `Reset()` always
return. -/
theorem C12_only_Value_raises (ops : TOps T) (w : World T) (this rhs : Addr) (v : T)
    (hi : Optional.Inv w this) (hr : Optional.Inv w rhs) :
    ((returned (Optional.assignCopyValue ops this v w).1 = true ∨
        (Optional.assignCopyValue ops this v w).1 = Except.error Fault.TException) ∧
      (returned (Optional.assignMoveValue ops this v w).1 = true ∨
        (Optional.assignMoveValue ops this v w).1 = Except.error Fault.TException) ∧
      (returned (Optional.assignCopy ops this rhs w).1 = true ∨
        (Optional.assignCopy ops this rhs w).1 = Except.error Fault.TException) ∧
      (returned (Optional.assignMove ops this rhs w).1 = true ∨
        (Optional.assignMove ops this rhs w).1 = Except.error Fault.TException)) ∧
    (∀ fresh, fresh ≠ rhs →
      (returned (Optional.ctorCopy ops fresh rhs w).1 = true ∨
        (Optional.ctorCopy ops fresh rhs w).1 = Except.error Fault.TException) ∧
      (returned (Optional.ctorMove ops fresh rhs w).1 = true ∨
        (Optional.ctorMove ops fresh rhs w).1 = Except.error Fault.TException)) ∧
    ((Optional.assignCopyValue ops this v w).1 ≠ Except.error Fault.BadOptionalAccess ∧
      (Optional.assignMoveValue ops this v w).1 ≠ Except.error Fault.BadOptionalAccess ∧
      (Optional.assignCopy ops this rhs w).1 ≠ Except.error Fault.BadOptionalAccess ∧
      (Optional.assignMove ops this rhs w).1 ≠ Except.error Fault.BadOptionalAccess ∧
      ∀ fresh, fresh ≠ rhs →
        (Optional.ctorCopy ops fresh rhs w).1 ≠ Except.error Fault.BadOptionalAccess ∧
        (Optional.ctorMove ops fresh rhs w).1 ≠ Except.error Fault.BadOptionalAccess) ∧
    (Optional.Empty w rhs →
      (Optional.Value rhs w).1 = Except.error Fault.BadOptionalAccess ∧
      (Optional.assignCopy ops this rhs w).1 = Except.ok this ∧
      (Optional.assignMove ops this rhs w).1 = Except.ok this ∧
      ∀ fresh, (Optional.ctorCopy ops fresh rhs w).1 = Except.ok () ∧
        (Optional.ctorMove ops fresh rhs w).1 = Except.ok ()) ∧
    Optional.HasValue this w = (Except.ok (w.mem this).is_initialized_, w) ∧
    (Optional.Reset this w).1 = Except.ok () := by
  have a1 := (Optional.assignCopyValue_sound ops v hi).outcome
  have a2 := (Optional.assignMoveValue_sound ops v hi).outcome
  have a3 := (Optional.assignCopy_sound ops hi hr).outcome
  have a4 := (Optional.assignMove_sound ops hi hr).outcome
  have c1 : ∀ fresh, fresh ≠ rhs →
      (returned (Optional.ctorCopy ops fresh rhs w).1 = true ∨
        (Optional.ctorCopy ops fresh rhs w).1 = Except.error Fault.TException) ∧
      (returned (Optional.ctorMove ops fresh rhs w).1 = true ∨
        (Optional.ctorMove ops fresh rhs w).1 = Except.error Fault.TException) :=
    fun fresh hne => ⟨(Optional.ctorCopy_sound ops hne hr).outcome,
      (Optional.ctorMove_sound ops hne hr).outcome⟩
  refine ⟨⟨a1, a2, a3, a4⟩, c1,
    ⟨not_bad_of_outcome a1, not_bad_of_outcome a2, not_bad_of_outcome a3,
      not_bad_of_outcome a4,
      fun fresh hne => ⟨not_bad_of_outcome (c1 fresh hne).1,
        not_bad_of_outcome (c1 fresh hne).2⟩⟩,
    ?_, rfl, (Optional.Reset_inv hi).1⟩
  intro he
  have hs := he.not_engaged
  refine ⟨by rw [he.2.1], ?_, ?_, fun fresh => ⟨?_, ?_⟩⟩
  · rcases hi.cases with hd | ⟨d, hd⟩
    · rw [Optional.assignCopy_empty_empty ops (by rw [hd]) hs]
    · rw [Optional.assignCopy_engaged_empty ops hd hs]
  · rcases hi.cases with hd | ⟨d, hd⟩
    · rw [Optional.assignMove_empty_empty ops (by rw [hd]) hs]
    · rw [Optional.assignMove_engaged_empty ops hd hs]
  · rw [Optional.ctorCopy_empty ops hs]
  · rw [Optional.ctorMove_empty ops hs]

/-- Witness for C12: assignments and constructions from the `Optional<std::string>`
holding `"abc"` (address `0`) and from the empty one (address `1`). -/
theorem C12_witness :
    Optional.Inv worldAbc 0 ∧ Optional.Inv worldAbc 1 ∧ Optional.Empty worldAbc 1 ∧
    (Optional.assignCopy stringOps 1 0 worldAbc).1 ≠ Except.error Fault.BadOptionalAccess ∧
    (Optional.assignMove stringOps 1 0 worldAbc).1 ≠ Except.error Fault.BadOptionalAccess ∧
    (Optional.ctorCopy stringOps 4 0 worldAbc).1 ≠ Except.error Fault.BadOptionalAccess ∧
    (Optional.Value 1 worldAbc).1 = Except.error Fault.BadOptionalAccess ∧
    (Optional.assignCopy stringOps 0 1 worldAbc).1 = Except.ok 0 ∧
    (Optional.Reset 1 worldAbc).1 = Except.ok () :=
  ⟨by decide, by decide, Optional.empty_of_rep rfl,
    (C12_only_Value_raises stringOps worldAbc 1 0 "x" (by decide) (by decide)).2.2.1.2.2.1,
    (C12_only_Value_raises stringOps worldAbc 1 0 "x" (by decide) (by decide)).2.2.1.2.2.2.1,
    ((C12_only_Value_raises stringOps worldAbc 1 0 "x" (by decide) (by decide)).2.2.1.2.2.2.2
      4 (by decide)).1,
    ((C12_only_Value_raises stringOps worldAbc 0 1 "x" (by decide) (by decide)).2.2.2.1
      (Optional.empty_of_rep rfl)).1,
    ((C12_only_Value_raises stringOps worldAbc 0 1 "x" (by decide) (by decide)).2.2.2.1
      (Optional.empty_of_rep rfl)).2.1,
    (C12_only_Value_raises stringOps worldAbc 1 0 "x" (by decide) (by decide)).2.2.2.2.2⟩

theorem Optional.Inv.repInv {w : World T} {a : Addr} (h : Optional.Inv w a) :
    Optional.RepInv w a := by
  rcases h.cases with hm | ⟨v, hm⟩
  · simp [Optional.RepInv, hm]
  · simp [Optional.RepInv, hm]

theorem Optional.Value_world (w : World T) (a : Addr) :
    (Optional.Value a w).2 = w ∧ (Optional.ValueConst a w).2 = w := by
  constructor
  · simp only [Optional.Value, M.bind_run, getObj]
    cases (w.mem a).is_initialized_ <;> simp [M.raise]
    cases (w.mem a).ptr_ <;> simp [derefPtr, M.raise, M.pure_run]
  · simp only [Optional.ValueConst, M.bind_run, getObj]
    cases (w.mem a).is_initialized_ <;> simp [M.raise]
    cases (w.mem a).ptr_ <;> simp [derefPtr, M.raise, M.pure_run]

theorem Optional.deref_world (w : World T) (a : Addr) :
    (Optional.deref a w).2 = w ∧ (Optional.derefConst a w).2 = w := by
  constructor
  · simp only [Optional.deref, M.bind_run, getObj]
    cases (w.mem a).ptr_ <;> simp [derefPtr, M.raise, M.pure_run]
  · simp only [Optional.derefConst, M.bind_run, getObj]
    cases (w.mem a).ptr_ <;> simp [derefPtr, M.raise, M.pure_run]

theorem Optional.arrow_run (w : World T) (a : Addr) :
    Optional.arrow a w = (Except.ok (w.mem a).ptr_, w) ∧
    Optional.arrowConst a w = (Except.ok (w.mem a).ptr_, w) :=
  ⟨rfl, rfl⟩

/-- C14: the representation invariant (`is_initialized_` is true exactly when
`ptr_` points at a live `T` in the container's own storage; otherwise `ptr_` is
null and the storage holds no live `T`) holds after the default constructor and
after every other constructor that returns; it is preserved by the four
assignments and by `Reset()`, whether they return or `T` throws, and each of
these calls keeps every other valid container valid, its source included; the
accessors `HasValue`, `Value`, `operator*` and `operator->` change nothing. Each
call constructs and destroys `T` objects in step with the flag, so a container
accounts for one live `T` when engaged and for none when empty, never for more;
hence in every state a client program reaches, every existing container
satisfies the invariant. -/
theorem C14_representation_invariant (ops : TOps T) (w : World T) (this other : Addr)
    (v : T) :
    (∀ a, Optional.Inv w a → Optional.RepInv w a) ∧
    (Optional.SoundCtor w this (Optional.ctorDefault this w) ∧
      Optional.Inv (Optional.ctorDefault this w).2 this) ∧
    (Optional.SoundCtor w this (Optional.ctorCopyValue ops this v w) ∧
      Optional.SoundCtor w this (Optional.ctorMoveValue ops this v w)) ∧
    (this ≠ other → Optional.Inv w other →
      Optional.SoundCtor w this (Optional.ctorCopy ops this other w) ∧
      Optional.SoundCtor w this (Optional.ctorMove ops this other w) ∧
      Optional.Inv (Optional.ctorCopy ops this other w).2 other ∧
      Optional.Inv (Optional.ctorMove ops this other w).2 other) ∧
    (Optional.Inv w this →
      Optional.Sound w this (Optional.assignCopyValue ops this v w) ∧
      Optional.Sound w this (Optional.assignMoveValue ops this v w) ∧
      Optional.Sound w this (Optional.Reset this w) ∧
      (Optional.HasValue this w).2 = w ∧
      (Optional.Value this w).2 = w ∧ (Optional.ValueConst this w).2 = w ∧
      (Optional.deref this w).2 = w ∧ (Optional.derefConst this w).2 = w ∧
      (Optional.arrow this w).2 = w ∧ (Optional.arrowConst this w).2 = w) ∧
    (Optional.Inv w this → Optional.Inv w other →
      Optional.Sound w this (Optional.assignCopy ops this other w) ∧
      Optional.Sound w this (Optional.assignMove ops this other w) ∧
      Optional.Inv (Optional.assignCopy ops this other w).2 other ∧
      Optional.Inv (Optional.assignMove ops this other w).2 other) ∧
    (∀ (prog : List (Op T)) (w0 wf : World T) (alive : List Addr),
      runProgram ops prog w0 [] = some (wf, alive) →
      ∀ a ∈ alive, Optional.Inv wf a ∧ Optional.RepInv wf a) := by
  refine ⟨fun a h => h.repInv, ?_, ?_, ?_, ?_, ?_, ?_⟩
  · exact ⟨Optional.ctorDefault_sound w this,
      ((Optional.ctorDefault_sound w this).built rfl).1⟩
  · exact ⟨Optional.ctorCopyValue_sound ops w this v,
      Optional.ctorMoveValue_sound ops w this v⟩
  · intro hne ho
    have s1 := Optional.ctorCopy_sound ops hne ho
    have s2 := Optional.ctorMove_sound ops hne ho
    exact ⟨s1, s2, (s1.frame other hne.symm ho).1, (s2.frame other hne.symm ho).1⟩
  · intro hi
    exact ⟨Optional.assignCopyValue_sound ops v hi, Optional.assignMoveValue_sound ops v hi,
      Optional.Reset_sound hi, rfl, (Optional.Value_world w this).1,
      (Optional.Value_world w this).2, (Optional.deref_world w this).1,
      (Optional.deref_world w this).2, rfl, rfl⟩
  · intro hi ho
    have s1 := Optional.assignCopy_sound ops hi ho
    have s2 := Optional.assignMove_sound ops hi ho
    refine ⟨s1, s2, ?_, ?_⟩
    · by_cases e : other = this
      · subst e; exact s1.inv
      · exact (s1.frame other e ho).1
    · by_cases e : other = this
      · subst e; exact s2.inv
      · exact (s2.frame other e ho).1
  · intro prog w0 wf alive h a ha
    have hg := (Program.Good.start w0).run ops prog h
    exact ⟨hg.2.1 a ha, (hg.2.1 a ha).repInv⟩

/-- Witness for C14: the invariant after a copy construction from, and a move
assignment between, `Optional<std::string>` containers. -/
theorem C14_witness :
    Optional.Inv worldAbc 0 ∧ Optional.Inv worldAbc 1 ∧
    Optional.RepInv worldAbc 0 ∧
    Optional.Inv (Optional.ctorCopy stringOps 4 0 worldAbc).2 4 ∧
    Optional.Inv (Optional.assignMove stringOps 1 0 worldAbc).2 1 ∧
    Optional.Inv (Optional.assignMove stringOps 1 0 worldAbc).2 0 ∧
    Optional.Inv (Optional.Reset 0 worldAbc).2 0 :=
  ⟨by decide, by decide,
    (C14_representation_invariant stringOps worldAbc 0 1 "x").1 0 (by decide),
    (((C14_representation_invariant stringOps worldAbc 4 0 "x").2.2.2.1 (by decide)
      (by decide)).1.built rfl).1,
    ((C14_representation_invariant stringOps worldAbc 1 0 "x").2.2.2.2.2.1 (by decide)
      (by decide)).2.1.inv,
    ((C14_representation_invariant stringOps worldAbc 1 0 "x").2.2.2.2.2.1 (by decide)
      (by decide)).2.2.2,
    ((C14_representation_invariant stringOps worldAbc 0 1 "x").2.2.2.2.1
      (by decide)).2.2.1.inv⟩

/-! ## C15, C16: assignment in place; the unchecked accessors -/

theorem constructions_snoc_assign (l : List Event) (b : Bool) (e : Event)
    (he : e = Event.copyAssign ∨ e = Event.moveAssign) :
    constructions (if b = true then l ++ [e] else l) = constructions l ∧
    destructions (if b = true then l ++ [e] else l) = destructions l := by
  cases b
  · simp
  · rcases he with h | h <;>
      simp [h, constructions_append, destructions_append, constructions, destructions]

/-- C15: assigning into an engaged valid destination holding `d` from a full
source (a bare value by copy or by move, or another engaged valid container by
copy or by move) runs `T`'s own assignment operator on the `T` already in the
storage and nothing else: the state of that `T` afterwards is the one `T`'s
operator leaves, `ptr_` still points at the container's own storage and the
flag stays true, the log gains the one assignment event when the operator
returns and nothing when it throws, so the call constructs no `T` and destroys
none. -/
theorem C15_assign_in_place (ops : TOps T) (w : World T) (this rhs : Addr) (v d : T)
    (hi : Optional.Inv w this) (hd : Optional.Holds w this d) :
    ((w.mem this).ptr_ = some this) ∧
    ((Optional.assignCopyValue ops this v w).2.mem this =
        { data_ := some (ops.copyAssign d v).2, ptr_ := some this, is_initialized_ := true } ∧
      (Optional.assignCopyValue ops this v w).2.log =
        (if (ops.copyAssign d v).1 = true then w.log ++ [Event.copyAssign] else w.log) ∧
      constructions (Optional.assignCopyValue ops this v w).2.log = constructions w.log ∧
      destructions (Optional.assignCopyValue ops this v w).2.log = destructions w.log) ∧
    ((Optional.assignMoveValue ops this v w).2.mem this =
        { data_ := some (ops.moveAssign d v).2.1, ptr_ := some this,
          is_initialized_ := true } ∧
      (Optional.assignMoveValue ops this v w).2.log =
        (if (ops.moveAssign d v).1 = true then w.log ++ [Event.moveAssign] else w.log) ∧
      constructions (Optional.assignMoveValue ops this v w).2.log = constructions w.log ∧
      destructions (Optional.assignMoveValue ops this v w).2.log = destructions w.log) ∧
    (∀ s, this ≠ rhs → Optional.Inv w rhs → Optional.Holds w rhs s →
      ((Optional.assignCopy ops this rhs w).2.mem this =
          { data_ := some (ops.copyAssign d s).2, ptr_ := some this,
            is_initialized_ := true } ∧
        (Optional.assignCopy ops this rhs w).2.log =
          (if (ops.copyAssign d s).1 = true then w.log ++ [Event.copyAssign] else w.log) ∧
        constructions (Optional.assignCopy ops this rhs w).2.log = constructions w.log ∧
        destructions (Optional.assignCopy ops this rhs w).2.log = destructions w.log) ∧
      ((Optional.assignMove ops this rhs w).2.mem this =
          { data_ := some (ops.moveAssign d s).2.1, ptr_ := some this,
            is_initialized_ := true } ∧
        (Optional.assignMove ops this rhs w).2.log =
          (if (ops.moveAssign d s).1 = true then w.log ++ [Event.moveAssign] else w.log) ∧
        constructions (Optional.assignMove ops this rhs w).2.log = constructions w.log ∧
        destructions (Optional.assignMove ops this rhs w).2.log = destructions w.log)) := by
  have hm := hd.members hi
  have fin : ∀ (r : World T) (o : Optional T) (b : Bool) (e : Event),
      (e = Event.copyAssign ∨ e = Event.moveAssign) →
      r.mem this = o → r.log = (if b = true then w.log ++ [e] else w.log) →
      r.mem this = o ∧ r.log = (if b = true then w.log ++ [e] else w.log) ∧
      constructions r.log = constructions w.log ∧ destructions r.log = destructions w.log := by
    intro r o b e he h1 h2
    refine ⟨h1, h2, ?_, ?_⟩
    · rw [h2]; exact (constructions_snoc_assign w.log b e he).1
    · rw [h2]; exact (constructions_snoc_assign w.log b e he).2
  refine ⟨by rw [hm], ?_, ?_, ?_⟩
  · cases h : (ops.copyAssign d v).1 with
    | false =>
      rw [Optional.assignCopyValue_engaged_throws ops hm h]
      exact fin _ _ false _ (Or.inl rfl) (World.mem_update_same _ _ _ _) rfl
    | true =>
      rw [Optional.assignCopyValue_engaged ops hm (x := (ops.copyAssign d v).2)
        (by rw [← h])]
      exact fin _ _ true _ (Or.inl rfl) (World.mem_update_same _ _ _ _) rfl
  · cases h : (ops.moveAssign d v).1 with
    | false =>
      rw [Optional.assignMoveValue_engaged_throws ops hm h]
      exact fin _ _ false _ (Or.inr rfl) (World.mem_update_same _ _ _ _) rfl
    | true =>
      rw [Optional.assignMoveValue_engaged ops hm h rfl]
      exact fin _ _ true _ (Or.inr rfl) (World.mem_update_same _ _ _ _) rfl
  · intro s hne hr hs
    have hsm := hs.members hr
    constructor
    · cases h : (ops.copyAssign d s).1 with
      | false =>
        rw [Optional.assignCopy_engaged_engaged_throws ops hne hm hsm h]
        exact fin _ _ false _ (Or.inl rfl) (World.mem_update_same _ _ _ _) rfl
      | true =>
        rw [Optional.assignCopy_engaged_engaged ops hne hm hsm
          (x := (ops.copyAssign d s).2) (by rw [← h])]
        exact fin _ _ true _ (Or.inl rfl) (World.mem_update_same _ _ _ _) rfl
    · cases h : (ops.moveAssign d s).1 with
      | false =>
        rw [Optional.assignMove_engaged_engaged_throws ops hne hm hsm h]
        exact fin _ _ false _ (Or.inr rfl) (World.mem_update_same _ _ _ _) rfl
      | true =>
        rw [Optional.assignMove_engaged_engaged ops hne hm hsm h]
        exact fin _ _ true _ (Or.inr rfl) (World.mem_update_same _ _ _ _) rfl

/-- Witness for C15: `"rst"` and the container holding `"abc"` assigned into the
`Optional<std::string>` holding `"xyz"`. -/
theorem C15_witness :
    Optional.Inv worldAbc 2 ∧ Optional.Holds worldAbc 2 "xyz" ∧
    Optional.Inv worldAbc 0 ∧ Optional.Holds worldAbc 0 "abc" ∧
    constructions (Optional.assignCopyValue stringOps 2 "rst" worldAbc).2.log =
      constructions worldAbc.log ∧
    destructions (Optional.assignMoveValue stringOps 2 "rst" worldAbc).2.log =
      destructions worldAbc.log ∧
    constructions (Optional.assignCopy stringOps 2 0 worldAbc).2.log =
      constructions worldAbc.log ∧
    destructions (Optional.assignMove stringOps 2 0 worldAbc).2.log =
      destructions worldAbc.log :=
  ⟨by decide, Optional.holds_of_rep rfl, by decide, Optional.holds_of_rep rfl,
    (C15_assign_in_place stringOps worldAbc 2 0 "rst" "xyz" (by decide)
      (Optional.holds_of_rep rfl)).2.1.2.2.1,
    (C15_assign_in_place stringOps worldAbc 2 0 "rst" "xyz" (by decide)
      (Optional.holds_of_rep rfl)).2.2.1.2.2.2,
    ((C15_assign_in_place stringOps worldAbc 2 0 "rst" "xyz" (by decide)
      (Optional.holds_of_rep rfl)).2.2.2 "abc" (by decide) (by decide)
      (Optional.holds_of_rep rfl)).1.2.2.1,
    ((C15_assign_in_place stringOps worldAbc 2 0 "rst" "xyz" (by decide)
      (Optional.holds_of_rep rfl)).2.2.2 "abc" (by decide) (by decide)
      (Optional.holds_of_rep rfl)).2.2.2.2⟩

/-- C16: `operator*` and `operator->`, in their mutable and const overloads,
look only at `ptr_`: on any container they never raise `BadOptionalAccess` and
never change the world, `operator->` returns `ptr_` itself and `operator*`
dereferences it whatever the flag says. On an engaged valid container they yield
the very `T` that `Value()` returns, the one in the container's own storage; on
an empty valid container `operator*` is undefined behaviour where `Value()`
throws. -/
theorem C16_unchecked_accessors (w : World T) (c : Addr) :
    ((Optional.deref c w).1 ≠ Except.error Fault.BadOptionalAccess ∧
      (Optional.derefConst c w).1 ≠ Except.error Fault.BadOptionalAccess ∧
      (Optional.arrow c w).1 ≠ Except.error Fault.BadOptionalAccess ∧
      (Optional.arrowConst c w).1 ≠ Except.error Fault.BadOptionalAccess) ∧
    ((Optional.deref c w).2 = w ∧ (Optional.derefConst c w).2 = w ∧
      (Optional.arrow c w).2 = w ∧ (Optional.arrowConst c w).2 = w) ∧
    (Optional.deref c w = derefPtr (w.mem c).ptr_ w ∧
      Optional.derefConst c w = derefPtr (w.mem c).ptr_ w ∧
      Optional.arrow c w = (Except.ok (w.mem c).ptr_, w) ∧
      Optional.arrowConst c w = (Except.ok (w.mem c).ptr_, w)) ∧
    (Optional.Inv w c → (Optional.HasValue c w).1 = Except.ok true →
      Optional.deref c w = Optional.Value c w ∧
      Optional.derefConst c w = Optional.ValueConst c w ∧
      Optional.Value c w = (Except.ok c, w) ∧
      Optional.arrow c w = (Except.ok (some c), w) ∧
      Optional.arrowConst c w = (Except.ok (some c), w) ∧
      Optional.readDeref c w = Optional.readValue c w) ∧
    (Optional.Inv w c → (Optional.HasValue c w).1 = Except.ok false →
      (Optional.deref c w).1 = Except.error Fault.Undefined ∧
      (Optional.derefConst c w).1 = Except.error Fault.Undefined ∧
      (Optional.Value c w).1 = Except.error Fault.BadOptionalAccess ∧
      Optional.arrow c w = (Except.ok none, w)) := by
  have hd : Optional.deref c w = derefPtr (w.mem c).ptr_ w := rfl
  have hdc : Optional.derefConst c w = derefPtr (w.mem c).ptr_ w := rfl
  have hnb : (derefPtr (w.mem c).ptr_ w).1 ≠ Except.error Fault.BadOptionalAccess := by
    cases (w.mem c).ptr_ <;> simp [derefPtr, M.raise, M.pure_run]
  refine ⟨⟨by rw [hd]; exact hnb, by rw [hdc]; exact hnb, by simp [Optional.arrow_run],
      by simp [Optional.arrow_run]⟩,
    ⟨(Optional.deref_world w c).1, (Optional.deref_world w c).2, rfl, rfl⟩,
    ⟨hd, hdc, rfl, rfl⟩, ?_, ?_⟩
  · intro hi he
    rw [Optional.HasValue_run] at he
    have he1 : (w.mem c).is_initialized_ = true := by simpa using he
    obtain ⟨v, hv⟩ := hi.rep_engaged he1
    have hderef : derefPtr (w.mem c).ptr_ w = (Except.ok c, w) := by
      rw [hv]; rfl
    refine ⟨by rw [hd, hderef, Optional.Value_engaged hv],
      by rw [hdc, hderef, Optional.ValueConst_engaged hv],
      Optional.Value_engaged hv, by rw [(Optional.arrow_run w c).1, hv],
      by rw [(Optional.arrow_run w c).2, hv], ?_⟩
    simp only [Optional.readDeref, Optional.readValue, M.bind_run]
    rw [hd, hderef, Optional.Value_engaged hv]
  · intro hi he
    rw [Optional.HasValue_run] at he
    have he1 : (w.mem c).is_initialized_ = false := by simpa using he
    have hv := hi.empty he1
    have hderef : derefPtr (w.mem c).ptr_ w = (Except.error Fault.Undefined, w) := by
      rw [hv]; rfl
    exact ⟨by rw [hd, hderef], by rw [hdc, hderef],
      by rw [Optional.Value_not_engaged he1], by rw [(Optional.arrow_run w c).1, hv]⟩

/-- Witness for C16 on `Optional<int>(42)` and on an empty `Optional<int>`. -/
theorem C16_witness :
    Optional.Inv world42 0 ∧ (Optional.HasValue 0 world42).1 = Except.ok true ∧
    Optional.Inv world42 1 ∧ (Optional.HasValue 1 world42).1 = Except.ok false ∧
    Optional.deref 0 world42 = Optional.Value 0 world42 ∧
    Optional.arrow 0 world42 = (Except.ok (some 0), world42) ∧
    (Optional.deref 1 world42).1 = Except.error Fault.Undefined ∧
    (Optional.Value 1 world42).1 = Except.error Fault.BadOptionalAccess :=
  ⟨by decide, rfl, by decide, rfl,
    ((C16_unchecked_accessors world42 0).2.2.2.1 (by decide) rfl).1,
    ((C16_unchecked_accessors world42 0).2.2.2.1 (by decide) rfl).2.2.2.1,
    ((C16_unchecked_accessors world42 1).2.2.2.2 (by decide) rfl).1,
    ((C16_unchecked_accessors world42 1).2.2.2.2 (by decide) rfl).2.2.1⟩

/-! ## C17, C18: failure atomicity; the source of a move assignment -/

/-- C17: when `T`'s constructor throws while a value or an engaged container is
assigned into an empty valid destination, the exception propagates and the
destination is still empty with a null `ptr_` (for the copy forms and for the
move of a value the whole world is unchanged); when `T`'s assignment operator
throws while assigning into an engaged valid destination, the exception
propagates and the destination is still engaged. Whenever any of the four
assignments propagates an exception, the flag is as before and the container
satisfies the representation invariant, so the flag is never left set over
storage holding no live `T`. -/
theorem C17_failure_atomicity (ops : TOps T) (w : World T) (this rhs : Addr) (v : T)
    (hi : Optional.Inv w this) (hr : Optional.Inv w rhs) :
    (Optional.Empty w this →
      (ops.copyCtor v = none →
        Optional.assignCopyValue ops this v w = (Except.error Fault.TException, w)) ∧
      ((ops.moveCtor v).1 = none →
        Optional.assignMoveValue ops this v w = (Except.error Fault.TException, w)) ∧
      (∀ s, Optional.Holds w rhs s → ops.copyCtor s = none →
        Optional.assignCopy ops this rhs w = (Except.error Fault.TException, w)) ∧
      (∀ s, Optional.Holds w rhs s → (ops.moveCtor s).1 = none →
        (Optional.assignMove ops this rhs w).1 = Except.error Fault.TException ∧
        Optional.Empty (Optional.assignMove ops this rhs w).2 this ∧
        ((Optional.assignMove ops this rhs w).2.mem this).ptr_ = none)) ∧
    (Optional.Empty w this → (w.mem this).ptr_ = none) ∧
    (∀ d, Optional.Holds w this d →
      ((ops.copyAssign d v).1 = false →
        (Optional.assignCopyValue ops this v w).1 = Except.error Fault.TException ∧
        Optional.Holds (Optional.assignCopyValue ops this v w).2 this (ops.copyAssign d v).2) ∧
      ((ops.moveAssign d v).1 = false →
        (Optional.assignMoveValue ops this v w).1 = Except.error Fault.TException ∧
        Optional.Holds (Optional.assignMoveValue ops this v w).2 this
          (ops.moveAssign d v).2.1) ∧
      (∀ s, this ≠ rhs → Optional.Holds w rhs s → (ops.copyAssign d s).1 = false →
        (Optional.assignCopy ops this rhs w).1 = Except.error Fault.TException ∧
        Optional.Holds (Optional.assignCopy ops this rhs w).2 this (ops.copyAssign d s).2) ∧
      (∀ s, this ≠ rhs → Optional.Holds w rhs s → (ops.moveAssign d s).1 = false →
        (Optional.assignMove ops this rhs w).1 = Except.error Fault.TException ∧
        Optional.Holds (Optional.assignMove ops this rhs w).2 this
          (ops.moveAssign d s).2.1)) ∧
    (((Optional.assignCopyValue ops this v w).1 = Except.error Fault.TException →
        ((Optional.assignCopyValue ops this v w).2.mem this).is_initialized_ =
          (w.mem this).is_initialized_) ∧
      ((Optional.assignMoveValue ops this v w).1 = Except.error Fault.TException →
        ((Optional.assignMoveValue ops this v w).2.mem this).is_initialized_ =
          (w.mem this).is_initialized_) ∧
      ((Optional.assignCopy ops this rhs w).1 = Except.error Fault.TException →
        ((Optional.assignCopy ops this rhs w).2.mem this).is_initialized_ =
          (w.mem this).is_initialized_) ∧
      ((Optional.assignMove ops this rhs w).1 = Except.error Fault.TException →
        ((Optional.assignMove ops this rhs w).2.mem this).is_initialized_ =
          (w.mem this).is_initialized_)) ∧
    (Optional.Inv (Optional.assignCopyValue ops this v w).2 this ∧
      Optional.Inv (Optional.assignMoveValue ops this v w).2 this ∧
      Optional.Inv (Optional.assignCopy ops this rhs w).2 this ∧
      Optional.Inv (Optional.assignMove ops this rhs w).2 this) := by
  have s1 := Optional.assignCopyValue_sound ops v hi
  have s2 := Optional.assignMoveValue_sound ops v hi
  have s3 := Optional.assignCopy_sound ops hi hr
  have s4 := Optional.assignMove_sound ops hi hr
  refine ⟨?_, ?_, ?_, ⟨fun h => (s1.atomic h).1, fun h => (s2.atomic h).1,
    fun h => (s3.atomic h).1, fun h => (s4.atomic h).1⟩, ⟨s1.inv, s2.inv, s3.inv, s4.inv⟩⟩
  · intro he
    have hm := he.members_empty hi
    refine ⟨Optional.assignCopyValue_empty_throws ops hm,
      Optional.assignMoveValue_empty_throws ops hm,
      fun s hs h => Optional.assignCopy_empty_engaged_throws ops hm (hs.members hr) h, ?_⟩
    intro s hs h
    have hne : this ≠ rhs := by
      intro e
      have h1 := hs.flag_true
      rw [← e, he.not_engaged] at h1
      exact absurd h1 (by simp)
    rw [Optional.assignMove_empty_engaged_throws ops hm (hs.members hr) h]
    have hthis : (World.mk (Function.update w.mem rhs
        { data_ := some (ops.moveCtor s).2, ptr_ := some rhs, is_initialized_ := true })
        w.log).mem this = w.mem this := World.mem_update_other _ _ _ hne
    exact ⟨rfl, Optional.empty_of_rep (by rw [hthis, hm]), by rw [hthis, hm]⟩
  · intro he
    rw [he.members_empty hi]
  · intro d hd
    have hm := hd.members hi
    refine ⟨?_, ?_, ?_, ?_⟩
    · intro h
      rw [Optional.assignCopyValue_engaged_throws ops hm h]
      exact ⟨rfl, Optional.holds_of_rep (World.mem_update_same _ _ _ _)⟩
    · intro h
      rw [Optional.assignMoveValue_engaged_throws ops hm h]
      exact ⟨rfl, Optional.holds_of_rep (World.mem_update_same _ _ _ _)⟩
    · intro s hne hs h
      rw [Optional.assignCopy_engaged_engaged_throws ops hne hm (hs.members hr) h]
      exact ⟨rfl, Optional.holds_of_rep (World.mem_update_same _ _ _ _)⟩
    · intro s hne hs h
      rw [Optional.assignMove_engaged_engaged_throws ops hne hm (hs.members hr) h]
      exact ⟨rfl, Optional.holds_of_rep (World.mem_update_same _ _ _ _)⟩

/-- Witness for C17: assignments with an element type whose operations throw,
into the empty `Optional<std::string>` at address `1` and into the one holding
`"xyz"` at address `2`, from the value `"rst"` and from the container holding
`"abc"`. -/
theorem C17_witness :
    Optional.Inv worldAbc 0 ∧ Optional.Inv worldAbc 1 ∧ Optional.Inv worldAbc 2 ∧
    Optional.Empty worldAbc 1 ∧ Optional.Holds worldAbc 0 "abc" ∧
    Optional.Holds worldAbc 2 "xyz" ∧
    Optional.assignCopyValue TOps.throwing 1 "rst" worldAbc =
      (Except.error Fault.TException, worldAbc) ∧
    Optional.assignCopy TOps.throwing 1 0 worldAbc =
      (Except.error Fault.TException, worldAbc) ∧
    Optional.Empty (Optional.assignMove TOps.throwing 1 0 worldAbc).2 1 ∧
    Optional.Holds (Optional.assignCopyValue TOps.throwing 2 "rst" worldAbc).2 2 "xyz" ∧
    Optional.Holds (Optional.assignMove TOps.throwing 2 0 worldAbc).2 2 "xyz" :=
  ⟨by decide, by decide, by decide, Optional.empty_of_rep rfl, Optional.holds_of_rep rfl,
    Optional.holds_of_rep rfl,
    ((C17_failure_atomicity TOps.throwing worldAbc 1 0 "rst" (by decide) (by decide)).1
      (Optional.empty_of_rep rfl)).1 rfl,
    ((C17_failure_atomicity TOps.throwing worldAbc 1 0 "rst" (by decide) (by decide)).1
      (Optional.empty_of_rep rfl)).2.2.1 "abc" (Optional.holds_of_rep rfl) rfl,
    (((C17_failure_atomicity TOps.throwing worldAbc 1 0 "rst" (by decide) (by decide)).1
      (Optional.empty_of_rep rfl)).2.2.2 "abc" (Optional.holds_of_rep rfl) rfl).2.1,
    (((C17_failure_atomicity TOps.throwing worldAbc 2 0 "rst" (by decide) (by decide)).2.2.1
      "xyz" (Optional.holds_of_rep rfl)).1 rfl).2,
    (((C17_failure_atomicity TOps.throwing worldAbc 2 0 "rst" (by decide) (by decide)).2.2.1
      "xyz" (Optional.holds_of_rep rfl)).2.2.2 "abc" (by decide) (Optional.holds_of_rep rfl)
      rfl).2⟩

/-- C18: move assignment `dst = std::move(src)` between valid containers, the
same or distinct, never changes the engagement of the source, whether the call
returns or `T` throws: `src.HasValue()` afterwards is what it was before, and
the source is still a valid container. An engaged source distinct from the
destination stays engaged, holding whatever `T`'s move left in it, and is not
reset to empty. -/
theorem C18_move_assign_source (ops : TOps T) (w : World T) (dst src : Addr)
    (hid : Optional.Inv w dst) (his : Optional.Inv w src) :
    (Optional.HasValue src (Optional.assignMove ops dst src w).2).1 =
      (Optional.HasValue src w).1 ∧
    Optional.Inv (Optional.assignMove ops dst src w).2 src ∧
    (∀ s, dst ≠ src → Optional.Holds w src s →
      ∃ m, Optional.Holds (Optional.assignMove ops dst src w).2 src m ∧
        ¬ Optional.Empty (Optional.assignMove ops dst src w).2 src) ∧
    (dst ≠ src → Optional.Empty w src →
      Optional.Empty (Optional.assignMove ops dst src w).2 src) := by
  have hs := Optional.assignMove_sound ops hid his
  have hflag : ((Optional.assignMove ops dst src w).2.mem src).is_initialized_ =
      (w.mem src).is_initialized_ := by
    by_cases e : src = dst
    · subst e
      rcases hid.cases with hd | ⟨d, hd⟩
      · rw [Optional.assignMove_empty_empty ops (by rw [hd]) (by rw [hd])]
      · cases h : (ops.moveAssignSelf d).1 with
        | false =>
          rw [Optional.assignMove_self_engaged_throws ops hd h]
          simp [hd]
        | true =>
          rw [Optional.assignMove_self_engaged ops hd (x := (ops.moveAssignSelf d).2)
            (by rw [← h])]
          simp [hd]
    · exact (hs.frame src e his).2
  have hinv : Optional.Inv (Optional.assignMove ops dst src w).2 src := by
    by_cases e : src = dst
    · subst e; exact hs.inv
    · exact (hs.frame src e his).1
  refine ⟨by rw [Optional.HasValue_run, Optional.HasValue_run, hflag], hinv, ?_, ?_⟩
  · intro s _ hh
    have ht : ((Optional.assignMove ops dst src w).2.mem src).is_initialized_ = true := by
      rw [hflag]; exact hh.flag_true
    obtain ⟨m, hm⟩ := hinv.rep_engaged ht
    refine ⟨m, Optional.holds_of_rep hm, ?_⟩
    intro he
    have := he.not_engaged
    rw [ht] at this
    exact absurd this (by simp)
  · intro _ he
    exact Optional.empty_of_rep (by rw [hflag]; exact he.not_engaged)

/-- Witness for C18: the `Optional<std::string>` holding `"abc"` moved into an
empty container and into one holding `"xyz"`. -/
theorem C18_witness :
    Optional.Inv worldAbc 0 ∧ Optional.Inv worldAbc 1 ∧ Optional.Inv worldAbc 2 ∧
    Optional.Holds worldAbc 0 "abc" ∧
    (Optional.HasValue 0 (Optional.assignMove stringOps 1 0 worldAbc).2).1 = Except.ok true ∧
    (Optional.HasValue 0 (Optional.assignMove stringOps 2 0 worldAbc).2).1 = Except.ok true ∧
    (∃ m, Optional.Holds (Optional.assignMove stringOps 1 0 worldAbc).2 0 m ∧
      ¬ Optional.Empty (Optional.assignMove stringOps 1 0 worldAbc).2 0) ∧
    Optional.Empty (Optional.assignMove stringOps 0 1 worldAbc).2 1 :=
  ⟨by decide, by decide, by decide, Optional.holds_of_rep rfl,
    (C18_move_assign_source stringOps worldAbc 1 0 (by decide) (by decide)).1,
    (C18_move_assign_source stringOps worldAbc 2 0 (by decide) (by decide)).1,
    (C18_move_assign_source stringOps worldAbc 1 0 (by decide) (by decide)).2.2.1 "abc"
      (by decide) (Optional.holds_of_rep rfl),
    (C18_move_assign_source stringOps worldAbc 0 1 (by decide) (by decide)).2.2.2
      (by decide) (Optional.empty_of_rep rfl)⟩

/-! ## C5: assignment of a value, for any argument -/

/-- With an argument outside every container, `operator=(const T&)` is
`assignCopyValue`. -/
theorem Optional.assignCopyFrom_outside (ops : TOps T) (this : Addr) (v : T) :
    Optional.assignCopyFrom ops this (Arg.outside v) = Optional.assignCopyValue ops this v :=
  rfl

/-- With an argument outside every container, `operator=(T&&)` is
`assignMoveValue`. -/
theorem Optional.assignMoveFrom_outside (ops : TOps T) (this : Addr) (v : T) :
    Optional.assignMoveFrom ops this (Arg.outside v) = Optional.assignMoveValue ops this v :=
  rfl

theorem Optional.assignCopyFrom_held_empty (ops : TOps T) {w : World T} {this r : Addr}
    {s x : T}
    (hd : w.mem this = { data_ := none, ptr_ := none, is_initialized_ := false })
    (hs : w.mem r = { data_ := some s, ptr_ := some r, is_initialized_ := true })
    (h : ops.copyCtor s = some x) :
    Optional.assignCopyFrom ops this (Arg.held r) w = (Except.ok this,
      { mem := Function.update w.mem this
          { data_ := some x, ptr_ := some this, is_initialized_ := true },
        log := w.log ++ [Event.copyCtor] }) := by
  simp [Optional.assignCopyFrom, newCopyArg, M.bind_run, getObj, hd, hs, M.pure_run,
    newCopyRef, readT, newCopyVal, h, setData, emit, setPtr, setInit]

theorem Optional.assignCopyFrom_held_engaged (ops : TOps T) {w : World T} {this r : Addr}
    {d s x : T} (hne : this ≠ r)
    (hd : w.mem this = { data_ := some d, ptr_ := some this, is_initialized_ := true })
    (hs : w.mem r = { data_ := some s, ptr_ := some r, is_initialized_ := true })
    (h : ops.copyAssign d s = (true, x)) :
    Optional.assignCopyFrom ops this (Arg.held r) w = (Except.ok this,
      { mem := Function.update w.mem this
          { data_ := some x, ptr_ := some this, is_initialized_ := true },
        log := w.log ++ [Event.copyAssign] }) := by
  simp [Optional.assignCopyFrom, assignCopyArg, M.bind_run, getObj, hd, hs, M.pure_run,
    derefPtr, assignCopyRef, readT, writeT, h, setData, emit, hne]

theorem Optional.assignMoveFrom_held_empty (ops : TOps T) {w : World T} {this r : Addr}
    {s x : T} (hne : this ≠ r)
    (hd : w.mem this = { data_ := none, ptr_ := none, is_initialized_ := false })
    (hs : w.mem r = { data_ := some s, ptr_ := some r, is_initialized_ := true })
    (h : (ops.moveCtor s).1 = some x) :
    Optional.assignMoveFrom ops this (Arg.held r) w = (Except.ok this,
      { mem := Function.update
          (Function.update w.mem r
            { data_ := some (ops.moveCtor s).2, ptr_ := some r, is_initialized_ := true })
          this { data_ := some x, ptr_ := some this, is_initialized_ := true },
        log := w.log ++ [Event.moveCtor] }) := by
  simp [Optional.assignMoveFrom, newMoveArg, M.bind_run, getObj, hd, hs, M.pure_run,
    newMoveRef, readT, writeT, h, setData, emit, setPtr, setInit,
    Function.update_noteq hne.symm, Function.update_noteq hne]

theorem Optional.assignMoveFrom_held_engaged (ops : TOps T) {w : World T} {this r : Addr}
    {d s : T} (hne : this ≠ r)
    (hd : w.mem this = { data_ := some d, ptr_ := some this, is_initialized_ := true })
    (hs : w.mem r = { data_ := some s, ptr_ := some r, is_initialized_ := true })
    (h : (ops.moveAssign d s).1 = true) :
    Optional.assignMoveFrom ops this (Arg.held r) w = (Except.ok this,
      { mem := Function.update
          (Function.update w.mem r
            { data_ := some (ops.moveAssign d s).2.2, ptr_ := some r,
              is_initialized_ := true })
          this { data_ := some (ops.moveAssign d s).2.1, ptr_ := some this,
                 is_initialized_ := true },
        log := w.log ++ [Event.moveAssign] }) := by
  simp [Optional.assignMoveFrom, assignMoveArg, M.bind_run, getObj, hd, hs, M.pure_run,
    derefPtr, assignMoveRef, readT, writeT, h, setData, emit, hne,
    Function.update_noteq hne.symm, Function.update_noteq hne]

theorem Optional.assignCopyFrom_own (ops : TOps T) {w : World T} {this : Addr} {d : T}
    (hd : w.mem this = { data_ := some d, ptr_ := some this, is_initialized_ := true })
    (h : (ops.copyAssignSelf d).1 = true) :
    Optional.assignCopyFrom ops this (Arg.held this) w = (Except.ok this,
      { mem := Function.update w.mem this
          { data_ := some (ops.copyAssignSelf d).2, ptr_ := some this,
            is_initialized_ := true },
        log := w.log ++ [Event.copyAssign] }) := by
  simp [Optional.assignCopyFrom, assignCopyArg, M.bind_run, getObj, hd, M.pure_run,
    derefPtr, assignCopyRef, readT, writeT, h, setData, emit]

theorem Optional.assignMoveFrom_own (ops : TOps T) {w : World T} {this : Addr} {d : T}
    (hd : w.mem this = { data_ := some d, ptr_ := some this, is_initialized_ := true })
    (h : (ops.moveAssignSelf d).1 = true) :
    Optional.assignMoveFrom ops this (Arg.held this) w = (Except.ok this,
      { mem := Function.update w.mem this
          { data_ := some (ops.moveAssignSelf d).2, ptr_ := some this,
            is_initialized_ := true },
        log := w.log ++ [Event.moveAssign] }) := by
  simp [Optional.assignMoveFrom, assignMoveArg, M.bind_run, getObj, hd, M.pure_run,
    derefPtr, assignMoveRef, readT, writeT, h, setData, emit]

/-- Counterexample to C5 as stated: the `Optional<std::string>` at address `0`
holds `"abc"` and is assigned its own `T` by move, `c = std::move(c.Value())`.
The argument has the value `"abc"` and `std::string`'s move operations transfer
`"abc"`, the call returns `*this`, yet afterwards `Value()` returns `""`, not
`"abc"`: line 104 ran `T`'s self move assignment. -/
theorem C5_counterexample :
    Optional.Inv worldAbc 0 ∧ Optional.Holds worldAbc 0 "abc" ∧
    readT 0 worldAbc = (Except.ok "abc", worldAbc) ∧
    stringOps.MovesValue "abc" ∧
    (Optional.assignMoveFrom stringOps 0 (Arg.held 0) worldAbc).1 = Except.ok 0 ∧
    Optional.Holds (Optional.assignMoveFrom stringOps 0 (Arg.held 0) worldAbc).2 0 "" ∧
    ¬ Optional.Holds (Optional.assignMoveFrom stringOps 0 (Arg.held 0) worldAbc).2 0 "abc" := by
  have hh : Optional.Holds (Optional.assignMoveFrom stringOps 0 (Arg.held 0) worldAbc).2 0 "" :=
    Optional.holds_of_rep rfl
  refine ⟨by decide, Optional.holds_of_rep rfl, rfl, ⟨rfl, fun _ => ⟨rfl, rfl⟩⟩, rfl, hh, ?_⟩
  intro h
  have h1 := h.2.1
  rw [hh.2.1] at h1
  have h2 : ("" : String) = "abc" := by simpa using congrArg Prod.fst h1
  exact absurd h2 (by decide)

/-- C5, amended: whatever the state of the valid container `c` (empty, or engaged
with any prior value), assigning a `T` of value `v` by `operator=(const T&)`
(when `T`'s copy operations reproduce `v`) or by `operator=(T&&)` (when `T`'s
move operations transfer `v`) returns `*this` and leaves `HasValue()` true and
`Value()` equal to `v`, provided the argument is not the `T` that `c` itself
holds: it is an object outside every container, also when `c` was `Reset` just
before, or it is the `T` held by another valid container, which after a move is
still engaged. When the argument is the `T` that `c` itself holds, the call is
`T`'s self-assignment: `c` stays engaged and `Value()` returns what that
self-assignment leaves, which is `v` when `T`'s self-assignment preserves
`v`. -/
theorem C5_assign_value_amended (ops : TOps T) (w : World T) (c : Addr) (v : T)
    (hi : Optional.Inv w c) :
    (ops.CopiesValue v →
      ((Optional.assignCopyFrom ops c (Arg.outside v) w).1 = Except.ok c ∧
        Optional.Holds (Optional.assignCopyFrom ops c (Arg.outside v) w).2 c v) ∧
      ((Optional.assignCopyFrom ops c (Arg.outside v) (Optional.Reset c w).2).1 =
          Except.ok c ∧
        Optional.Holds
          (Optional.assignCopyFrom ops c (Arg.outside v) (Optional.Reset c w).2).2 c v)) ∧
    (ops.MovesValue v →
      ((Optional.assignMoveFrom ops c (Arg.outside v) w).1 = Except.ok c ∧
        Optional.Holds (Optional.assignMoveFrom ops c (Arg.outside v) w).2 c v) ∧
      ((Optional.assignMoveFrom ops c (Arg.outside v) (Optional.Reset c w).2).1 =
          Except.ok c ∧
        Optional.Holds
          (Optional.assignMoveFrom ops c (Arg.outside v) (Optional.Reset c w).2).2 c v)) ∧
    (∀ r, r ≠ c → Optional.Inv w r → Optional.Holds w r v →
      (ops.CopiesValue v →
        (Optional.assignCopyFrom ops c (Arg.held r) w).1 = Except.ok c ∧
        Optional.Holds (Optional.assignCopyFrom ops c (Arg.held r) w).2 c v ∧
        Optional.Holds (Optional.assignCopyFrom ops c (Arg.held r) w).2 r v) ∧
      (ops.MovesValue v →
        (Optional.assignMoveFrom ops c (Arg.held r) w).1 = Except.ok c ∧
        Optional.Holds (Optional.assignMoveFrom ops c (Arg.held r) w).2 c v ∧
        ∃ m, Optional.Holds (Optional.assignMoveFrom ops c (Arg.held r) w).2 r m)) ∧
    (Optional.Holds w c v →
      ((ops.copyAssignSelf v).1 = true →
        (Optional.assignCopyFrom ops c (Arg.held c) w).1 = Except.ok c ∧
        Optional.Holds (Optional.assignCopyFrom ops c (Arg.held c) w).2 c
          (ops.copyAssignSelf v).2) ∧
      ((ops.moveAssignSelf v).1 = true →
        (Optional.assignMoveFrom ops c (Arg.held c) w).1 = Except.ok c ∧
        Optional.Holds (Optional.assignMoveFrom ops c (Arg.held c) w).2 c
          (ops.moveAssignSelf v).2) ∧
      (ops.SelfAssignKeeps v →
        Optional.Holds (Optional.assignCopyFrom ops c (Arg.held c) w).2 c v ∧
        Optional.Holds (Optional.assignMoveFrom ops c (Arg.held c) w).2 c v)) := by
  have own : Optional.Holds w c v →
      ((ops.copyAssignSelf v).1 = true →
        (Optional.assignCopyFrom ops c (Arg.held c) w).1 = Except.ok c ∧
        Optional.Holds (Optional.assignCopyFrom ops c (Arg.held c) w).2 c
          (ops.copyAssignSelf v).2) ∧
      ((ops.moveAssignSelf v).1 = true →
        (Optional.assignMoveFrom ops c (Arg.held c) w).1 = Except.ok c ∧
        Optional.Holds (Optional.assignMoveFrom ops c (Arg.held c) w).2 c
          (ops.moveAssignSelf v).2) := by
    intro hh
    have hm := hh.members hi
    constructor
    · intro h
      rw [Optional.assignCopyFrom_own ops hm h]
      exact ⟨rfl, Optional.holds_of_rep (World.mem_update_same _ _ _ _)⟩
    · intro h
      rw [Optional.assignMoveFrom_own ops hm h]
      exact ⟨rfl, Optional.holds_of_rep (World.mem_update_same _ _ _ _)⟩
  refine ⟨?_, ?_, ?_, ?_⟩
  · intro hc
    simp only [Optional.assignCopyFrom_outside]
    exact ⟨Optional.assignCopyValue_holds ops hi hc,
      Optional.assignCopyValue_holds ops (Optional.Reset_inv hi).2.2 hc⟩
  · intro hc
    simp only [Optional.assignMoveFrom_outside]
    exact ⟨Optional.assignMoveValue_holds ops hi hc,
      Optional.assignMoveValue_holds ops (Optional.Reset_inv hi).2.2 hc⟩
  · intro r hne hr hh
    have hs := hh.members hr
    constructor
    · intro hc
      rcases hi.cases with hd | ⟨d, hd⟩
      · rw [Optional.assignCopyFrom_held_empty ops hd hs hc.1]
        refine ⟨rfl, Optional.holds_of_rep (World.mem_update_same _ _ _ _),
          Optional.holds_of_rep ?_⟩
        rw [World.mem_update_other _ _ _ hne, hs]
      · rw [Optional.assignCopyFrom_held_engaged ops hne.symm hd hs (hc.2 d)]
        refine ⟨rfl, Optional.holds_of_rep (World.mem_update_same _ _ _ _),
          Optional.holds_of_rep ?_⟩
        rw [World.mem_update_other _ _ _ hne, hs]
    · intro hc
      rcases hi.cases with hd | ⟨d, hd⟩
      · rw [Optional.assignMoveFrom_held_empty ops hne.symm hd hs hc.1]
        refine ⟨rfl, Optional.holds_of_rep (World.mem_update_same _ _ _ _),
          (ops.moveCtor v).2, Optional.holds_of_rep ?_⟩
        simp [Function.update_noteq hne]
      · rw [Optional.assignMoveFrom_held_engaged ops hne.symm hd hs (hc.2 d).1, (hc.2 d).2]
        refine ⟨rfl, Optional.holds_of_rep (World.mem_update_same _ _ _ _),
          (ops.moveAssign d v).2.2, Optional.holds_of_rep ?_⟩
        simp [Function.update_noteq hne]
  · intro hh
    refine ⟨(own hh).1, (own hh).2, ?_⟩
    intro hk
    have h1 := (own hh).1 (by rw [hk.1])
    have h2 := (own hh).2 (by rw [hk.2])
    rw [hk.1] at h1
    rw [hk.2] at h2
    exact ⟨h1.2, h2.2⟩

/-- Witness for the amended C5: `Optional<int>(42)` is assigned `7` from outside,
directly and after a `Reset()`, and is assigned its own `T`; the
`Optional<std::string>` holding `"abc"` is assigned to an empty container and to
one holding `"xyz"`, and is assigned its own `T` by copy and by move. -/
theorem C5_amended_witness :
    (Optional.Inv world42 0 ∧ intOps.CopiesValue 7 ∧ intOps.MovesValue 7 ∧
      Optional.Holds world42 0 42 ∧ intOps.SelfAssignKeeps 42) ∧
    (Optional.Inv worldAbc 0 ∧ Optional.Inv worldAbc 1 ∧ Optional.Inv worldAbc 2 ∧
      Optional.Holds worldAbc 0 "abc" ∧ stringOps.CopiesValue "abc" ∧
      stringOps.MovesValue "abc") ∧
    Optional.Holds (Optional.assignCopyFrom intOps 0 (Arg.outside 7) world42).2 0 7 ∧
    Optional.Holds (Optional.assignMoveFrom intOps 0 (Arg.outside 7)
      (Optional.Reset 0 world42).2).2 0 7 ∧
    Optional.Holds (Optional.assignCopyFrom stringOps 1 (Arg.held 0) worldAbc).2 1 "abc" ∧
    Optional.Holds (Optional.assignMoveFrom stringOps 2 (Arg.held 0) worldAbc).2 2 "abc" ∧
    Optional.Holds (Optional.assignMoveFrom intOps 0 (Arg.held 0) world42).2 0 42 ∧
    Optional.Holds (Optional.assignCopyFrom stringOps 0 (Arg.held 0) worldAbc).2 0 "abc" ∧
    Optional.Holds (Optional.assignMoveFrom stringOps 0 (Arg.held 0) worldAbc).2 0 "" :=
  ⟨⟨by decide, ⟨rfl, fun _ => rfl⟩, ⟨rfl, fun _ => ⟨rfl, rfl⟩⟩, Optional.holds_of_rep rfl,
      ⟨rfl, rfl⟩⟩,
    ⟨by decide, by decide, by decide, Optional.holds_of_rep rfl, ⟨rfl, fun _ => rfl⟩,
      ⟨rfl, fun _ => ⟨rfl, rfl⟩⟩⟩,
    ((C5_assign_value_amended intOps world42 0 7 (by decide)).1 ⟨rfl, fun _ => rfl⟩).1.2,
    ((C5_assign_value_amended intOps world42 0 7 (by decide)).2.1
      ⟨rfl, fun _ => ⟨rfl, rfl⟩⟩).2.2,
    (((C5_assign_value_amended stringOps worldAbc 1 "abc" (by decide)).2.2.1 0 (by decide)
      (by decide) (Optional.holds_of_rep rfl)).1 ⟨rfl, fun _ => rfl⟩).2.1,
    (((C5_assign_value_amended stringOps worldAbc 2 "abc" (by decide)).2.2.1 0 (by decide)
      (by decide) (Optional.holds_of_rep rfl)).2 ⟨rfl, fun _ => ⟨rfl, rfl⟩⟩).2.1,
    (((C5_assign_value_amended intOps world42 0 42 (by decide)).2.2.2
      (Optional.holds_of_rep rfl)).2.2 ⟨rfl, rfl⟩).2,
    (((C5_assign_value_amended stringOps worldAbc 0 "abc" (by decide)).2.2.2
      (Optional.holds_of_rep rfl)).1 rfl).2,
    (((C5_assign_value_amended stringOps worldAbc 0 "abc" (by decide)).2.2.2
      (Optional.holds_of_rep rfl)).2.1 rfl).2⟩

end Opt
